import Mathlib

/-!
A shallow embedding of the Polymarket market-making bot's quoting module
(`quoting.py`), together with the configuration constants it reads from
`config.py` and the `Market` record produced by `discovery.py`.

Modelling conventions:
* Python floats are modelled as exact rationals (`ℚ`).
* Python's built-in `round` (banker's rounding) is modelled by
  `roundHalfEven`; `round(x, 4)` by `round4`.
* `time.time()` is passed in explicitly as a rational `now`; all calls to
  it inside one poll cycle are identified.
* The execution venue is modelled by a `Venue` record giving the outcome of
  each call site of the cycle (success/failure of each cancellation, and
  the response for each order placement), and every attempted venue call is
  recorded in an `Action` trace returned next to the updated state.
* `tick_size` is a decimal string in the source and is converted with
  `float(...)` at every use; we store the numeric value directly.
-/

namespace MMBot

/-- The quoting-related configuration constants of `config.py`. -/
structure Config where
  SPREAD_PCT : ℚ
  TEST_SIZE_OVERRIDE : Option ℚ
  REFRESH_THRESHOLD_PCT : ℚ
  EXIT_ESCALATION_SECONDS : ℚ
  STOP_LOSS_PCT : ℚ
  MIN_QUOTABLE_MID : ℚ
  INVENTORY_MIN_SHARES : ℚ
deriving DecidableEq

/-- The concrete values assigned in `config.py`. -/
def defaultConfig : Config :=
  { SPREAD_PCT := 0.6
    TEST_SIZE_OVERRIDE := none
    REFRESH_THRESHOLD_PCT := 0.005
    EXIT_ESCALATION_SECONDS := 1800
    STOP_LOSS_PCT := 0.05
    MIN_QUOTABLE_MID := 0.15
    INVENTORY_MIN_SHARES := 1 }

/-- The `Market` dataclass of `discovery.py` (immutable market metadata). -/
structure Market where
  ticker : String
  question : String
  condition_id : String
  yes_token_id : String
  no_token_id : String
  max_incentive_spread : ℚ
  min_incentive_size : ℚ
  tick_size : ℚ
deriving DecidableEq

/-- A throwaway concrete market used to instantiate theorems. -/
def mkMarket (spread tick : ℚ) : Market :=
  { ticker := "T", question := "Q", condition_id := "C"
    yes_token_id := "Y", no_token_id := "N"
    max_incentive_spread := spread, min_incentive_size := 100, tick_size := tick }

/-- Python's built-in `round` to an integer: round half to even. -/
def roundHalfEven (x : ℚ) : ℤ :=
  let f := ⌊x⌋
  let frac := x - (f : ℚ)
  if frac < 1/2 then f
  else if 1/2 < frac then f + 1
  else if f % 2 = 0 then f else f + 1

/-- Python's `round(x, 4)`: round to four decimal places, half to even. -/
def round4 (x : ℚ) : ℚ := (roundHalfEven (x * 10000) : ℚ) / 10000

/-- `_round_to_tick` of `quoting.py`: `round(round(price / tick) * tick, 4)`. -/
def round_to_tick (price : ℚ) (tick_size : ℚ) : ℚ :=
  round4 ((roundHalfEven (price / tick_size) : ℚ) * tick_size)

/-- `_clamp` of `quoting.py`: `max(lo, min(hi, price))`. -/
def clamp (price lo hi : ℚ) : ℚ := max lo (min hi price)

/-- `compute_quotes` of `quoting.py`. -/
def compute_quotes (cfg : Config) (market : Market) (midpoint : ℚ) : ℚ × ℚ :=
  let half_spread := market.max_incentive_spread * cfg.SPREAD_PCT
  let bid := clamp (round_to_tick (midpoint - half_spread) market.tick_size) 0.001 0.999
  let ask := clamp (round_to_tick (midpoint + half_spread) market.tick_size) 0.001 0.999
  if ask ≤ bid then
    (clamp (midpoint - market.tick_size) 0.001 0.999,
     clamp (midpoint + market.tick_size) 0.001 0.999)
  else
    (bid, ask)

/-- `compute_size` of `quoting.py`. -/
def compute_size (cfg : Config) (market : Market) : ℚ :=
  match cfg.TEST_SIZE_OVERRIDE with
  | some s => s
  | none => market.min_incentive_size

/-- `compute_exit_price` of `quoting.py`; `time.time()` is the explicit
argument `now`.  The early `return` of the stop-loss branch is modelled by
the intermediate `Option`. -/
def compute_exit_price (cfg : Config) (market : Market)
    (mid inventory_since entry_mid entry_price : ℚ) (side : String) (now : ℚ) : ℚ :=
  let elapsed := now - inventory_since
  let t := min (elapsed / cfg.EXIT_ESCALATION_SECONDS) 1
  let half_spread := market.max_incentive_spread * cfg.SPREAD_PCT
  let stop : Option ℚ :=
    if 0 < entry_mid then
      let loss_pct :=
        if side = "YES" then (entry_mid - mid) / entry_mid
        else (mid - entry_mid) / entry_mid
      if cfg.STOP_LOSS_PCT ≤ loss_pct then
        some (if side = "YES" then clamp (round_to_tick mid market.tick_size) 0.01 0.99
              else clamp (round_to_tick (1 - mid) market.tick_size) 0.01 0.99)
      else none
    else none
  match stop with
  | some p => p
  | none =>
    let price :=
      if side = "YES" then entry_price + half_spread * (1 - t)
      else (1 - entry_price) + half_spread * (1 - t)
    clamp (round_to_tick price market.tick_size) 0.01 0.99

/-! ### Arithmetic helper lemmas -/

theorem roundHalfEven_intCast (m : ℤ) : roundHalfEven (m : ℚ) = m := by
  unfold roundHalfEven
  rw [Int.floor_intCast]
  norm_num

theorem round4_int_mul (j : ℤ) (x : ℚ) (hx : x * 10000 = (j : ℚ)) : round4 x = x := by
  unfold round4
  rw [hx, roundHalfEven_intCast, div_eq_iff (by norm_num : (10000 : ℚ) ≠ 0)]
  linarith [hx]

theorem round_to_tick_int_tick (p : ℚ) (k : ℤ) (tick : ℚ)
    (hk : tick * 10000 = (k : ℚ)) :
    ∃ n : ℤ, round_to_tick p tick = (n : ℚ) * tick := by
  refine ⟨roundHalfEven (p / tick), ?_⟩
  unfold round_to_tick
  apply round4_int_mul (roundHalfEven (p / tick) * k)
  push_cast
  rw [mul_assoc, hk]

theorem le_clamp (p lo hi : ℚ) : lo ≤ clamp p lo hi := le_max_left _ _

theorem clamp_le (p lo hi : ℚ) (h : lo ≤ hi) : clamp p lo hi ≤ hi :=
  max_le h (min_le_left _ _)

theorem clamp_mono (p q lo hi : ℚ) (h : p ≤ q) : clamp p lo hi ≤ clamp q lo hi :=
  max_le_max le_rfl (min_le_min le_rfl h)

theorem clamp_eq_self (p lo hi : ℚ) (h1 : lo ≤ p) (h2 : p ≤ hi) : clamp p lo hi = p := by
  unfold clamp
  rw [min_eq_right h2, max_eq_right h1]

theorem clamp_lt_clamp (a b lo hi : ℚ) (hlh : lo < hi) (hab : a < b)
    (ha : a < hi) (hb : lo < b) : clamp a lo hi < clamp b lo hi := by
  unfold clamp
  rcases le_or_lt b hi with h | h
  · rw [min_eq_right h, max_eq_right (le_of_lt hb)]
    exact max_lt hb (lt_of_le_of_lt (min_le_right hi a) hab)
  · rw [min_eq_left (le_of_lt h), max_eq_right (le_of_lt hlh)]
    exact max_lt hlh (lt_of_le_of_lt (min_le_right hi a) ha)

/-! ### C1: properties of `compute_quotes` -/

/-- C1 (amended).  For a market with positive tick size, `compute_quotes`
always returns prices inside `[0.001, 0.999]` with `bid ≤ ask`; whenever
the midpoint itself lies in `[0.001, 0.999]` the inequality is strict
(also in the collapse branch that recomputes `mid ∓ tick`, clamped).  When
the tick size is an integer multiple of `1/10000` and the rounding path was
taken (no collapse), each returned price is an exact integer multiple of
the tick size provided its tick-rounded value was not clamped at a
boundary.  (The original claim — multiples of the tick for every midpoint,
and `bid < ask` unconditionally — fails: the collapse branch does not
tick-round `mid ∓ tick`, and clamping can break both properties.) -/
theorem compute_quotes_correct (cfg : Config) (market : Market) (midpoint : ℚ)
    (htick : 0 < market.tick_size) :
    (0.001 ≤ (compute_quotes cfg market midpoint).1 ∧
      (compute_quotes cfg market midpoint).1 ≤ 0.999 ∧
      0.001 ≤ (compute_quotes cfg market midpoint).2 ∧
      (compute_quotes cfg market midpoint).2 ≤ 0.999) ∧
    ((compute_quotes cfg market midpoint).1 ≤ (compute_quotes cfg market midpoint).2) ∧
    (0.001 ≤ midpoint → midpoint ≤ 0.999 →
      (compute_quotes cfg market midpoint).1 < (compute_quotes cfg market midpoint).2) ∧
    (∀ k : ℤ, market.tick_size * 10000 = (k : ℚ) →
      clamp (round_to_tick (midpoint - market.max_incentive_spread * cfg.SPREAD_PCT)
          market.tick_size) 0.001 0.999 <
        clamp (round_to_tick (midpoint + market.max_incentive_spread * cfg.SPREAD_PCT)
          market.tick_size) 0.001 0.999 →
      ((0.001 ≤ round_to_tick (midpoint - market.max_incentive_spread * cfg.SPREAD_PCT)
            market.tick_size →
        round_to_tick (midpoint - market.max_incentive_spread * cfg.SPREAD_PCT)
            market.tick_size ≤ 0.999 →
        ∃ n : ℤ, (compute_quotes cfg market midpoint).1 = (n : ℚ) * market.tick_size) ∧
       (0.001 ≤ round_to_tick (midpoint + market.max_incentive_spread * cfg.SPREAD_PCT)
            market.tick_size →
        round_to_tick (midpoint + market.max_incentive_spread * cfg.SPREAD_PCT)
            market.tick_size ≤ 0.999 →
        ∃ n : ℤ, (compute_quotes cfg market midpoint).2 = (n : ℚ) * market.tick_size))) := by
  simp only [compute_quotes]
  set rb := round_to_tick (midpoint - market.max_incentive_spread * cfg.SPREAD_PCT)
    market.tick_size with hrb
  set ra := round_to_tick (midpoint + market.max_incentive_spread * cfg.SPREAD_PCT)
    market.tick_size with hra
  by_cases hcol : clamp ra 0.001 0.999 ≤ clamp rb 0.001 0.999
  · rw [if_pos hcol]
    refine ⟨⟨le_clamp _ _ _, clamp_le _ _ _ (by norm_num), le_clamp _ _ _,
        clamp_le _ _ _ (by norm_num)⟩, ?_, ?_, ?_⟩
    · exact clamp_mono _ _ _ _ (by linarith)
    · intro h1 h2
      exact clamp_lt_clamp _ _ _ _ (by norm_num) (by linarith) (by linarith) (by linarith)
    · intro k _hk hlt
      exact absurd hlt (not_lt.mpr hcol)
  · rw [if_neg hcol]
    push_neg at hcol
    refine ⟨⟨le_clamp _ _ _, clamp_le _ _ _ (by norm_num), le_clamp _ _ _,
        clamp_le _ _ _ (by norm_num)⟩, le_of_lt hcol, fun _ _ => hcol, ?_⟩
    intro k hk _hlt
    constructor
    · intro h1 h2
      obtain ⟨n, hn⟩ := round_to_tick_int_tick
        (midpoint - market.max_incentive_spread * cfg.SPREAD_PCT) k market.tick_size hk
      exact ⟨n, by rw [clamp_eq_self rb _ _ h1 h2, hrb, hn]⟩
    · intro h1 h2
      obtain ⟨n, hn⟩ := round_to_tick_int_tick
        (midpoint + market.max_incentive_spread * cfg.SPREAD_PCT) k market.tick_size hk
      exact ⟨n, by rw [clamp_eq_self ra _ _ h1 h2, hra, hn]⟩

/-- C1 (witness): the amended theorem applied at a concrete market. -/
theorem compute_quotes_correct_witness :
    0 < (mkMarket (1/20) (1/100)).tick_size ∧
    (0.001 ≤ (compute_quotes defaultConfig (mkMarket (1/20) (1/100)) (1/2)).1 ∧
      (compute_quotes defaultConfig (mkMarket (1/20) (1/100)) (1/2)).1 ≤ 0.999) :=
  ⟨by norm_num [mkMarket], by
    have h := compute_quotes_correct defaultConfig (mkMarket (1/20) (1/100)) (1/2)
      (by norm_num [mkMarket])
    exact ⟨h.1.1, h.1.2.1⟩⟩

/-- C1 (counterexample): at `mid = 0.505`, tick `0.01`, max incentive
spread `0` (non-negative) the collapse branch returns `bid = 0.495`, which
is not an integer multiple of the tick size, refuting the claim that both
returned prices are always exact multiples of the tick. -/
theorem compute_quotes_tick_multiple_cex :
    0 < (mkMarket 0 (1/100)).tick_size ∧
    0 ≤ (mkMarket 0 (1/100)).max_incentive_spread ∧
    compute_quotes defaultConfig (mkMarket 0 (1/100)) 0.505 = (0.495, 0.515) ∧
    ¬ (∃ n : ℤ, (0.495 : ℚ) = (n : ℚ) * (mkMarket 0 (1/100)).tick_size) := by
  refine ⟨by norm_num [mkMarket], by norm_num [mkMarket], ?_, ?_⟩
  · norm_num [compute_quotes, round_to_tick, round4, roundHalfEven, clamp,
      defaultConfig, mkMarket]
  · rintro ⟨n, hn⟩
    simp only [mkMarket] at hn
    have h2 : ((2 * n : ℤ) : ℚ) = ((99 : ℤ) : ℚ) := by push_cast; linarith
    have h3 : (2 * n : ℤ) = 99 := Int.cast_injective h2
    omega

/-! ### C2: stop-loss property of `compute_exit_price` -/

/-- C2.  If the midpoint has moved against the position by a fraction of at
least `STOP_LOSS_PCT` relative to the (positive) entry midpoint — the mid
falling for a YES holder, rising for a NO holder — then `compute_exit_price`
returns the current midpoint in the position's token space (`mid` for YES,
`1 - mid` for NO), tick-rounded and clamped to `[0.01, 0.99]`, regardless
of `now` (hence of the elapsed time), of `inventory_since` and of the
entry price. -/
theorem compute_exit_price_stop_loss (cfg : Config) (market : Market)
    (mid inventory_since entry_mid entry_price now : ℚ) (side : String)
    (hpos : 0 < entry_mid)
    (hloss : cfg.STOP_LOSS_PCT ≤
      (if side = "YES" then (entry_mid - mid) / entry_mid
       else (mid - entry_mid) / entry_mid)) :
    compute_exit_price cfg market mid inventory_since entry_mid entry_price side now =
      (if side = "YES" then clamp (round_to_tick mid market.tick_size) 0.01 0.99
       else clamp (round_to_tick (1 - mid) market.tick_size) 0.01 0.99) := by
  simp only [compute_exit_price]
  rw [if_pos hpos, if_pos hloss]

/-- C2 (witness): entry mid `0.5`, current mid `0.47` (a 6% adverse move for
a YES holder, above the 5% stop) snaps the exit to the tick-rounded mid,
at an arbitrary elapsed time. -/
theorem compute_exit_price_stop_loss_witness :
    (0:ℚ) < 0.5 ∧
    compute_exit_price defaultConfig (mkMarket (1/20) (1/100)) 0.47 0 0.5 0.3 "YES" 12345 =
      clamp (round_to_tick 0.47 (mkMarket (1/20) (1/100)).tick_size) 0.01 0.99 := by
  constructor
  · norm_num
  · have h := compute_exit_price_stop_loss defaultConfig (mkMarket (1/20) (1/100))
      0.47 0 0.5 0.3 12345 "YES" (by norm_num) (by norm_num [defaultConfig])
    simpa using h

/-! ### C3: escalation property of `compute_exit_price` -/

/-- `config.py` with the scenario's `SPREAD_PCT = 0.8`. -/
def scenarioConfig : Config := { defaultConfig with SPREAD_PCT := 0.8 }

/-- Helper: when the stop-loss does not trigger, `compute_exit_price` is the
clamped tick-rounding of cost plus the decaying half-spread. -/
theorem exit_price_no_stop (cfg : Config) (market : Market)
    (mid inventory_since entry_mid entry_price now : ℚ) (side : String)
    (hstop : 0 < entry_mid →
      (if side = "YES" then (entry_mid - mid) / entry_mid
       else (mid - entry_mid) / entry_mid) < cfg.STOP_LOSS_PCT) :
    compute_exit_price cfg market mid inventory_since entry_mid entry_price side now =
      clamp (round_to_tick
        ((if side = "YES" then entry_price else 1 - entry_price) +
          market.max_incentive_spread * cfg.SPREAD_PCT *
            (1 - min ((now - inventory_since) / cfg.EXIT_ESCALATION_SECONDS) 1))
        market.tick_size) 0.01 0.99 := by
  simp only [compute_exit_price]
  by_cases hem : 0 < entry_mid
  · rw [if_pos hem, if_neg (not_le.mpr (hstop hem))]
    by_cases hside : side = "YES" <;> simp [hside]
  · rw [if_neg hem]
    by_cases hside : side = "YES" <;> simp [hside]

/-- Helper: `round_to_tick` fixes a price that is an exact multiple of a
tick which itself is a multiple of `1/10000`. -/
theorem round_to_tick_fix (c tick : ℚ) (k n : ℤ) (htick : tick ≠ 0)
    (hk : tick * 10000 = (k : ℚ)) (hn : c = (n : ℚ) * tick) :
    round_to_tick c tick = c := by
  unfold round_to_tick
  rw [hn, mul_div_cancel_right₀ _ htick, roundHalfEven_intCast]
  exact round4_int_mul (n * k) _ (by push_cast; rw [mul_assoc, hk])

/-- C3.  Absent stop-loss triggering: at elapsed time `0` the exit price is
the clamped tick-rounding of the cost basis plus the full half-spread
(`max_incentive_spread * SPREAD_PCT`; the NO side uses cost
`1 - entry_price`); for every elapsed time of at least
`EXIT_ESCALATION_SECONDS` it is the clamped tick-rounding of the cost basis
alone, hence exactly the cost basis whenever that price is a tick multiple
inside `[0.01, 0.99]`.  In particular, with entry bid `0.46`, max spread
`0.05`, `SPREAD_PCT = 0.8` and escalation `1800` s: the exit price is
exactly `0.48` at `900` s and exactly `0.46` at `1800` s and at any later
time. -/
theorem compute_exit_price_escalation :
    (∀ (cfg : Config) (market : Market) (mid inventory_since entry_mid entry_price : ℚ)
        (side : String),
      (0 < entry_mid →
        (if side = "YES" then (entry_mid - mid) / entry_mid
         else (mid - entry_mid) / entry_mid) < cfg.STOP_LOSS_PCT) →
      compute_exit_price cfg market mid inventory_since entry_mid entry_price side
          inventory_since =
        clamp (round_to_tick ((if side = "YES" then entry_price else 1 - entry_price) +
          market.max_incentive_spread * cfg.SPREAD_PCT) market.tick_size) 0.01 0.99) ∧
    (∀ (cfg : Config) (market : Market) (mid inventory_since entry_mid entry_price : ℚ)
        (side : String) (now : ℚ),
      0 < cfg.EXIT_ESCALATION_SECONDS →
      (0 < entry_mid →
        (if side = "YES" then (entry_mid - mid) / entry_mid
         else (mid - entry_mid) / entry_mid) < cfg.STOP_LOSS_PCT) →
      inventory_since + cfg.EXIT_ESCALATION_SECONDS ≤ now →
      compute_exit_price cfg market mid inventory_since entry_mid entry_price side now =
        clamp (round_to_tick (if side = "YES" then entry_price else 1 - entry_price)
          market.tick_size) 0.01 0.99) ∧
    (∀ (cfg : Config) (market : Market) (mid inventory_since entry_mid entry_price : ℚ)
        (side : String) (now : ℚ) (k n : ℤ),
      0 < cfg.EXIT_ESCALATION_SECONDS →
      (0 < entry_mid →
        (if side = "YES" then (entry_mid - mid) / entry_mid
         else (mid - entry_mid) / entry_mid) < cfg.STOP_LOSS_PCT) →
      inventory_since + cfg.EXIT_ESCALATION_SECONDS ≤ now →
      0 < market.tick_size → market.tick_size * 10000 = (k : ℚ) →
      (if side = "YES" then entry_price else 1 - entry_price) = (n : ℚ) * market.tick_size →
      0.01 ≤ (if side = "YES" then entry_price else 1 - entry_price) →
      (if side = "YES" then entry_price else 1 - entry_price) ≤ 0.99 →
      compute_exit_price cfg market mid inventory_since entry_mid entry_price side now =
        (if side = "YES" then entry_price else 1 - entry_price)) ∧
    compute_exit_price scenarioConfig (mkMarket (1/20) (1/100)) 0.5 0 0.5 0.46 "YES" 900 =
      0.48 ∧
    compute_exit_price scenarioConfig (mkMarket (1/20) (1/100)) 0.5 0 0.5 0.46 "YES" 1800 =
      0.46 ∧
    (∀ now : ℚ, 1800 ≤ now →
      compute_exit_price scenarioConfig (mkMarket (1/20) (1/100)) 0.5 0 0.5 0.46 "YES" now =
        0.46) := by
  have hA : ∀ (cfg : Config) (market : Market)
      (mid inventory_since entry_mid entry_price : ℚ) (side : String),
      (0 < entry_mid →
        (if side = "YES" then (entry_mid - mid) / entry_mid
         else (mid - entry_mid) / entry_mid) < cfg.STOP_LOSS_PCT) →
      compute_exit_price cfg market mid inventory_since entry_mid entry_price side
          inventory_since =
        clamp (round_to_tick ((if side = "YES" then entry_price else 1 - entry_price) +
          market.max_incentive_spread * cfg.SPREAD_PCT) market.tick_size) 0.01 0.99 := by
    intro cfg market mid isince em ep side hstop
    rw [exit_price_no_stop cfg market mid isince em ep isince side hstop]
    have ht : min ((isince - isince) / cfg.EXIT_ESCALATION_SECONDS) 1 = 0 := by
      rw [sub_self, zero_div]
      norm_num
    rw [ht]
    norm_num
  have hB : ∀ (cfg : Config) (market : Market)
      (mid inventory_since entry_mid entry_price : ℚ) (side : String) (now : ℚ),
      0 < cfg.EXIT_ESCALATION_SECONDS →
      (0 < entry_mid →
        (if side = "YES" then (entry_mid - mid) / entry_mid
         else (mid - entry_mid) / entry_mid) < cfg.STOP_LOSS_PCT) →
      inventory_since + cfg.EXIT_ESCALATION_SECONDS ≤ now →
      compute_exit_price cfg market mid inventory_since entry_mid entry_price side now =
        clamp (round_to_tick (if side = "YES" then entry_price else 1 - entry_price)
          market.tick_size) 0.01 0.99 := by
    intro cfg market mid isince em ep side now hesc hstop hlate
    rw [exit_price_no_stop cfg market mid isince em ep now side hstop]
    have ht : min ((now - isince) / cfg.EXIT_ESCALATION_SECONDS) 1 = 1 := by
      rw [min_eq_right]
      rw [le_div_iff₀ hesc]
      linarith
    rw [ht]
    norm_num
  have hC : ∀ (cfg : Config) (market : Market)
      (mid inventory_since entry_mid entry_price : ℚ) (side : String) (now : ℚ) (k n : ℤ),
      0 < cfg.EXIT_ESCALATION_SECONDS →
      (0 < entry_mid →
        (if side = "YES" then (entry_mid - mid) / entry_mid
         else (mid - entry_mid) / entry_mid) < cfg.STOP_LOSS_PCT) →
      inventory_since + cfg.EXIT_ESCALATION_SECONDS ≤ now →
      0 < market.tick_size → market.tick_size * 10000 = (k : ℚ) →
      (if side = "YES" then entry_price else 1 - entry_price) = (n : ℚ) * market.tick_size →
      0.01 ≤ (if side = "YES" then entry_price else 1 - entry_price) →
      (if side = "YES" then entry_price else 1 - entry_price) ≤ 0.99 →
      compute_exit_price cfg market mid inventory_since entry_mid entry_price side now =
        (if side = "YES" then entry_price else 1 - entry_price) := by
    intro cfg market mid isince em ep side now k n hesc hstop hlate htick hk hn h1 h2
    rw [hB cfg market mid isince em ep side now hesc hstop hlate]
    rw [round_to_tick_fix _ _ k n (ne_of_gt htick) hk hn]
    exact clamp_eq_self _ _ _ h1 h2
  refine ⟨hA, hB, hC, ?_, ?_, ?_⟩
  · norm_num [compute_exit_price, round_to_tick, round4, roundHalfEven, clamp,
      scenarioConfig, defaultConfig, mkMarket, min_def]
  · norm_num [compute_exit_price, round_to_tick, round4, roundHalfEven, clamp,
      scenarioConfig, defaultConfig, mkMarket, min_def]
  · intro now hnow
    have h := hC scenarioConfig (mkMarket (1/20) (1/100)) 0.5 0 0.5 0.46 "YES" now 100 46
      (by norm_num [scenarioConfig, defaultConfig])
      (by intro _; norm_num [scenarioConfig, defaultConfig])
      (by norm_num [scenarioConfig, defaultConfig]; linarith)
      (by norm_num [mkMarket]) (by norm_num [mkMarket])
      (by norm_num [mkMarket]) (by norm_num) (by norm_num)
    simpa using h

/-- C3 (witness): the elapsed-zero clause applied at a concrete input. -/
theorem compute_exit_price_escalation_witness :
    ((0:ℚ) < 0.5 →
      (if ("YES" : String) = "YES" then ((0.5:ℚ) - 0.5) / 0.5 else ((0.5:ℚ) - 0.5) / 0.5) <
        defaultConfig.STOP_LOSS_PCT) ∧
    compute_exit_price defaultConfig (mkMarket (1/20) (1/100)) 0.5 0 0.5 0.4 "YES" 0 =
      clamp (round_to_tick ((if ("YES" : String) = "YES" then (0.4:ℚ) else 1 - 0.4) +
        (mkMarket (1/20) (1/100)).max_incentive_spread * defaultConfig.SPREAD_PCT)
        (mkMarket (1/20) (1/100)).tick_size) 0.01 0.99 :=
  ⟨by intro _; norm_num [defaultConfig],
   compute_exit_price_escalation.1 defaultConfig (mkMarket (1/20) (1/100)) 0.5 0 0.5 0.4
     "YES" (by intro _; norm_num [defaultConfig])⟩

/-! ### The per-market cycle state machine -/

/-- The mutable per-market state record (`QuotedMarket` dataclass of
`quoting.py`). -/
structure QuotedMarket where
  market : Market
  bid_order_id : Option String := none
  ask_order_id : Option String := none
  yes_exit_order_id : Option String := none
  no_exit_order_id : Option String := none
  mid_at_placement : ℚ := 0
  inventory_since : Option ℚ := none
  entry_mid : ℚ := 0
  entry_bid_price : ℚ := 0
  entry_ask_price : ℚ := 0
  exit_price_placed : ℚ := 0
  exit_cooldown_until : ℚ := 0
deriving DecidableEq

/-- One attempted venue call, as recorded in the cycle's trace. -/
inductive Action where
  | cancel (ids : List String)
  | place (token_id : String) (side : String) (price size : ℚ)
  | cancelAll
deriving DecidableEq

/-- Outcome of one order placement (`create_order` + `post_order`):
`PlaceResult.error benign` models a raised exception whose message contains
"not enough balance" or "allowance" iff `benign = true`; `PlaceResult.ok oid`
models a successful post whose response parses to the order id `oid`
(`none` when neither `orderID` nor `id` is present). -/
inductive PlaceResult where
  | ok (oid : Option String)
  | error (benign : Bool)
deriving DecidableEq

/-- Per-call-site outcomes of the venue during one cycle. -/
structure Venue where
  cancelParked : Bool
  cancelStaleExits : Bool
  cancelBid : Bool
  cancelAsk : Bool
  cancelRefresh : Bool
  placeBid : PlaceResult
  placeAsk : PlaceResult
  cancelExitsRefresh : Bool
  placeYesExit : PlaceResult
  placeNoExit : PlaceResult
deriving DecidableEq

/-- A venue on which every call succeeds and every placement returns an
order id. -/
def okVenue (b a y n : String) : Venue :=
  { cancelParked := true, cancelStaleExits := true, cancelBid := true
    cancelAsk := true, cancelRefresh := true
    placeBid := .ok (some b), placeAsk := .ok (some a)
    cancelExitsRefresh := true
    placeYesExit := .ok (some y), placeNoExit := .ok (some n) }

/-- A venue on which every call raises (placements with a non-benign
error). -/
def failVenue : Venue :=
  { cancelParked := false, cancelStaleExits := false, cancelBid := false
    cancelAsk := false, cancelRefresh := false
    placeBid := .error false, placeAsk := .error false
    cancelExitsRefresh := false
    placeYesExit := .error false, placeNoExit := .error false }

/-- `[oid for oid in ... if oid]`. -/
def someIds (l : List (Option String)) : List String := l.filterMap id

/-- `bal is not None and bal >= config.INVENTORY_MIN_SHARES`. -/
def hasInv (cfg : Config) : Option ℚ → Prop
  | none => False
  | some b => cfg.INVENTORY_MIN_SHARES ≤ b

instance (cfg : Config) : (ob : Option ℚ) → Decidable (hasInv cfg ob)
  | none => isFalse fun h => h
  | some b => inferInstanceAs (Decidable (cfg.INVENTORY_MIN_SHARES ≤ b))

/-- `should_refresh` of `quoting.py`: drift of the fresh midpoint against
`mid_at_placement` exceeds the threshold.  (The source divides by
`mid_at_placement`; rational division by zero yields `0` here, where Python
would raise — the field is positive whenever an order is resting.) -/
def should_refresh (cfg : Config) (quoted : QuotedMarket) (mid : ℚ) : Prop :=
  cfg.REFRESH_THRESHOLD_PCT < |mid - quoted.mid_at_placement| / quoted.mid_at_placement

instance (cfg : Config) (quoted : QuotedMarket) (mid : ℚ) :
    Decidable (should_refresh cfg quoted mid) :=
  inferInstanceAs (Decidable (_ < _))

/-- `cancel_quoted` of `quoting.py`: cancel quotes and exits together; on
success all four ids are cleared, on failure all are kept. -/
def cancel_quoted (ok : Bool) (quoted : QuotedMarket) : QuotedMarket × List Action :=
  let order_ids := someIds [quoted.bid_order_id, quoted.ask_order_id,
    quoted.yes_exit_order_id, quoted.no_exit_order_id]
  if order_ids = [] then (quoted, [])
  else if ok then
    ({ quoted with
        bid_order_id := none
        ask_order_id := none
        yes_exit_order_id := none
        no_exit_order_id := none }, [Action.cancel order_ids])
  else (quoted, [Action.cancel order_ids])

/-- The inventory-cleared branch of `process_market_cycle`: reset the entry
state and cancel stale exit orders.  NOTE (faithful to the source): the two
exit-id fields are assigned `None` after the `try/except`, i.e. they are
cleared even when the cancellation call raised, so the venue outcome does
not influence the state here. -/
def stale_exit_cleanup (quoted : QuotedMarket) : QuotedMarket × List Action :=
  let q := { quoted with inventory_since := none, entry_mid := 0, exit_cooldown_until := 0 }
  let exit_ids := someIds [quoted.yes_exit_order_id, quoted.no_exit_order_id]
  if exit_ids = [] then (q, [])
  else ({ q with yes_exit_order_id := none, no_exit_order_id := none },
        [Action.cancel exit_ids])

/-- The refresh trigger of the quote-management block: some wanted side has
a resting order and the midpoint has drifted. -/
def needs_refresh (cfg : Config) (want_bid want_ask : Bool) (qm : QuotedMarket)
    (m : ℚ) : Prop :=
  ((want_bid = true ∧ qm.bid_order_id ≠ none) ∨
   (want_ask = true ∧ qm.ask_order_id ≠ none)) ∧ should_refresh cfg qm m

instance (cfg : Config) (want_bid want_ask : Bool) (qm : QuotedMarket) (m : ℚ) :
    Decidable (needs_refresh cfg want_bid want_ask qm m) := by
  unfold needs_refresh
  exact inferInstance

/-- Bid side wants (re)placement: `want_bid and (no resting bid or refresh)`,
evaluated on the state after the unwanted-side cancels, as in the source. -/
def needs_bid (cfg : Config) (want_bid want_ask : Bool) (qm : QuotedMarket) (m : ℚ) : Prop :=
  want_bid = true ∧ (qm.bid_order_id = none ∨ needs_refresh cfg want_bid want_ask qm m)

instance (cfg : Config) (wb wa : Bool) (qm : QuotedMarket) (m : ℚ) :
    Decidable (needs_bid cfg wb wa qm m) := by
  unfold needs_bid
  exact inferInstance

/-- Ask side wants (re)placement. -/
def needs_ask (cfg : Config) (want_bid want_ask : Bool) (qm : QuotedMarket) (m : ℚ) : Prop :=
  want_ask = true ∧ (qm.ask_order_id = none ∨ needs_refresh cfg want_bid want_ask qm m)

instance (cfg : Config) (wb wa : Bool) (qm : QuotedMarket) (m : ℚ) :
    Decidable (needs_ask cfg wb wa qm m) := by
  unfold needs_ask
  exact inferInstance

/-- Call site: cancel a resting bid on an unwanted bid side. -/
def cancel_bid_site (venue : Venue) (want_bid : Bool) (qm : QuotedMarket) :
    QuotedMarket × List Action :=
  if want_bid = false ∧ qm.bid_order_id ≠ none then
    (if venue.cancelBid then { qm with bid_order_id := none } else qm,
     [Action.cancel (someIds [qm.bid_order_id])])
  else (qm, [])

/-- Call site: cancel a resting ask on an unwanted ask side. -/
def cancel_ask_site (venue : Venue) (want_ask : Bool) (qm : QuotedMarket) :
    QuotedMarket × List Action :=
  if want_ask = false ∧ qm.ask_order_id ≠ none then
    (if venue.cancelAsk then { qm with ask_order_id := none } else qm,
     [Action.cancel (someIds [qm.ask_order_id])])
  else (qm, [])

/-- Call site: cancel both quote orders ahead of a refresh (`refresh` is the
`needs_refresh` value computed by the caller). -/
def refresh_cancel_site (venue : Venue) (refresh : Bool) (qm : QuotedMarket) :
    QuotedMarket × List Action :=
  if refresh = true then
    if someIds [qm.bid_order_id, qm.ask_order_id] = [] then (qm, [])
    else
      (if venue.cancelRefresh then { qm with bid_order_id := none, ask_order_id := none }
       else qm,
       [Action.cancel (someIds [qm.bid_order_id, qm.ask_order_id])])
  else (qm, [])

/-- Call site: place the bid (`need` is the `needs_bid` value computed by
the caller before the refresh cancel; the resting-order check is on the
current state). -/
def place_bid_site (cfg : Config) (venue : Venue) (m : ℚ) (need : Bool)
    (qm : QuotedMarket) : QuotedMarket × List Action :=
  if need = true ∧ qm.bid_order_id = none then
    (match venue.placeBid with
     | .ok oid =>
         { qm with
            bid_order_id := oid
            entry_bid_price := (compute_quotes cfg qm.market m).1
            mid_at_placement := m }
     | .error _ => qm,
     [Action.place qm.market.yes_token_id "BUY" (compute_quotes cfg qm.market m).1
       (compute_size cfg qm.market)])
  else (qm, [])

/-- Call site: place the ask as a BUY of the NO token at `1 - ask_price`,
tick-rounded. -/
def place_ask_site (cfg : Config) (venue : Venue) (m : ℚ) (need : Bool)
    (qm : QuotedMarket) : QuotedMarket × List Action :=
  if need = true ∧ qm.ask_order_id = none then
    (match venue.placeAsk with
     | .ok oid =>
         { qm with
            ask_order_id := oid
            entry_ask_price := (compute_quotes cfg qm.market m).2
            mid_at_placement := m }
     | .error _ => qm,
     [Action.place qm.market.no_token_id "BUY"
       (round_to_tick (1 - (compute_quotes cfg qm.market m).2) qm.market.tick_size)
       (compute_size cfg qm.market)])
  else (qm, [])

/-- The quote-management block of `process_market_cycle` (asymmetric cancel
of unwanted sides, drift check, (re)placement).  `want_bid = !has_yes`,
`want_ask = !has_no` as in the source. -/
def quote_phase (cfg : Config) (venue : Venue) (m : ℚ) (want_bid want_ask : Bool)
    (qm0 : QuotedMarket) : QuotedMarket × List Action :=
  let s1 := cancel_bid_site venue want_bid qm0
  let s2 := cancel_ask_site venue want_ask s1.1
  if needs_bid cfg want_bid want_ask s2.1 m ∨ needs_ask cfg want_bid want_ask s2.1 m then
    let s3 := refresh_cancel_site venue
      (decide (needs_refresh cfg want_bid want_ask s2.1 m)) s2.1
    let s4 := place_bid_site cfg venue m
      (decide (needs_bid cfg want_bid want_ask s2.1 m)) s3.1
    let s5 := place_ask_site cfg venue m
      (decide (needs_ask cfg want_bid want_ask s2.1 m)) s4.1
    (s5.1, s1.2 ++ s2.2 ++ s3.2 ++ s4.2 ++ s5.2)
  else (s2.1, s1.2 ++ s2.2)

/-- The exit-refresh target of `_manage_exits`: priced from the YES side
whenever a YES exit order is resting, otherwise from the NO side. -/
def exit_refresh_target (cfg : Config) (now : ℚ) (qm : QuotedMarket) (m : ℚ) : ℚ :=
  if qm.yes_exit_order_id ≠ none then
    compute_exit_price cfg qm.market m (qm.inventory_since.getD 0) qm.entry_mid
      qm.entry_bid_price "YES" now
  else
    compute_exit_price cfg qm.market m (qm.inventory_since.getD 0) qm.entry_mid
      qm.entry_ask_price "NO" now

/-- Call site: cancel the resting exit orders when the recomputed target
moved at least one tick away from `exit_price_placed`. -/
def exit_refresh_site (cfg : Config) (venue : Venue) (now : ℚ) (qm : QuotedMarket)
    (m : ℚ) : QuotedMarket × List Action :=
  if qm.yes_exit_order_id ≠ none ∨ qm.no_exit_order_id ≠ none then
    if qm.market.tick_size ≤ |exit_refresh_target cfg now qm m - qm.exit_price_placed| then
      (if venue.cancelExitsRefresh then
         { qm with yes_exit_order_id := none, no_exit_order_id := none }
       else qm,
       [Action.cancel (someIds [qm.yes_exit_order_id, qm.no_exit_order_id])])
    else (qm, [])
  else (qm, [])

/-- Call site: place the YES exit (SELL the floored YES balance); a benign
failure (balance/allowance) sets the 5-second cooldown. -/
def place_yes_exit_site (cfg : Config) (venue : Venue) (now : ℚ) (qm : QuotedMarket)
    (yes_bal m : ℚ) : QuotedMarket × List Action :=
  if cfg.INVENTORY_MIN_SHARES ≤ yes_bal ∧ qm.yes_exit_order_id = none then
    (match venue.placeYesExit with
     | .ok oid =>
         { qm with
            yes_exit_order_id := oid
            exit_price_placed := compute_exit_price cfg qm.market m
              (qm.inventory_since.getD 0) qm.entry_mid qm.entry_bid_price "YES" now }
     | .error benign =>
         if benign then { qm with exit_cooldown_until := now + 5 } else qm,
     [Action.place qm.market.yes_token_id "SELL"
       (compute_exit_price cfg qm.market m (qm.inventory_since.getD 0) qm.entry_mid
         qm.entry_bid_price "YES" now)
       ((⌊yes_bal * 100⌋ : ℚ) / 100)])
  else (qm, [])

/-- Call site: place the NO exit. -/
def place_no_exit_site (cfg : Config) (venue : Venue) (now : ℚ) (qm : QuotedMarket)
    (no_bal m : ℚ) : QuotedMarket × List Action :=
  if cfg.INVENTORY_MIN_SHARES ≤ no_bal ∧ qm.no_exit_order_id = none then
    (match venue.placeNoExit with
     | .ok oid =>
         { qm with
            no_exit_order_id := oid
            exit_price_placed := compute_exit_price cfg qm.market m
              (qm.inventory_since.getD 0) qm.entry_mid qm.entry_ask_price "NO" now }
     | .error benign =>
         if benign then { qm with exit_cooldown_until := now + 5 } else qm,
     [Action.place qm.market.no_token_id "SELL"
       (compute_exit_price cfg qm.market m (qm.inventory_since.getD 0) qm.entry_mid
         qm.entry_ask_price "NO" now)
       ((⌊no_bal * 100⌋ : ℚ) / 100)])
  else (qm, [])

/-- `_manage_exits` of `quoting.py`. -/
def manage_exits (cfg : Config) (venue : Venue) (now : ℚ) (qm0 : QuotedMarket)
    (yes_bal no_bal m : ℚ) : QuotedMarket × List Action :=
  let s1 := exit_refresh_site cfg venue now qm0 m
  let s2 := place_yes_exit_site cfg venue now s1.1 yes_bal m
  let s3 := place_no_exit_site cfg venue now s2.1 no_bal m
  (s3.1, s1.2 ++ s2.2 ++ s3.2)

/-- Inventory transition tracking of `process_market_cycle`: stamp
`inventory_since`/`entry_mid` when inventory appears, reset and clean up
stale exits when it clears. -/
def inventory_track (cfg : Config) (now m : ℚ) (yes_bal no_bal : Option ℚ)
    (qm : QuotedMarket) : QuotedMarket × List Action :=
  if (hasInv cfg yes_bal ∨ hasInv cfg no_bal) ∧ qm.inventory_since = none then
    ({ qm with inventory_since := some now, entry_mid := m }, [])
  else if ¬ (hasInv cfg yes_bal ∨ hasInv cfg no_bal) then
    stale_exit_cleanup qm
  else (qm, [])

/-- Exit management gate of `process_market_cycle`: run `_manage_exits`
only with inventory and outside the cooldown window; a side's balance is
passed as `0` when that side is below the dust threshold. -/
def exit_gate (cfg : Config) (venue : Venue) (now : ℚ) (qm : QuotedMarket)
    (yes_bal no_bal : Option ℚ) (m : ℚ) : QuotedMarket × List Action :=
  if (hasInv cfg yes_bal ∨ hasInv cfg no_bal) ∧ qm.exit_cooldown_until ≤ now then
    manage_exits cfg venue now qm
      (if hasInv cfg yes_bal then yes_bal.getD 0 else 0)
      (if hasInv cfg no_bal then no_bal.getD 0 else 0) m
  else (qm, [])

/-- `process_market_cycle` of `quoting.py`.  `time.time()` is the explicit
`now`; the two balances and the midpoint may be unknown (`none`). -/
def process_market_cycle (cfg : Config) (venue : Venue) (now : ℚ) (qm : QuotedMarket)
    (yes_bal no_bal mid : Option ℚ) : QuotedMarket × List Action :=
  if ¬ (hasInv cfg yes_bal ∨ hasInv cfg no_bal) ∧ (yes_bal = none ∨ no_bal = none) ∧
     (qm.yes_exit_order_id ≠ none ∨ qm.no_exit_order_id ≠ none) then
    (qm, [])
  else
    match mid with
    | none => (qm, [])
    | some m =>
      if m < cfg.MIN_QUOTABLE_MID then
        cancel_quoted venue.cancelParked qm
      else
        let s1 := inventory_track cfg now m yes_bal no_bal qm
        let s2 := quote_phase cfg venue m (!decide (hasInv cfg yes_bal))
          (!decide (hasInv cfg no_bal)) s1.1
        let s3 := exit_gate cfg venue now s2.1 yes_bal no_bal m
        (s3.1, s1.2 ++ s2.2 ++ s3.2)

/-- The observation driving one poll cycle for one market: venue outcomes,
wall-clock time, fetched balances and midpoint. -/
structure CycleObs where
  venue : Venue
  now : ℚ
  yes_bal : Option ℚ
  no_bal : Option ℚ
  mid : Option ℚ

/-- Iterated cycles, threading the state and concatenating traces. -/
def runCycles (cfg : Config) : QuotedMarket → List CycleObs → QuotedMarket × List Action
  | qm, [] => (qm, [])
  | qm, o :: rest =>
    let s := process_market_cycle cfg o.venue o.now qm o.yes_bal o.no_bal o.mid
    let r := runCycles cfg s.1 rest
    (r.1, s.2 ++ r.2)

/-- `cancel_all_quoted` of `quoting.py` (shutdown sweep): the four id
fields of every market are cleared before the bulk cancel is attempted;
on bulk-cancel failure a venue-wide `cancel_all` is attempted as fallback.
Neither outcome influences the returned states. -/
def cancel_all_quoted (bulkOk : Bool) (qms : List QuotedMarket) :
    List QuotedMarket × List Action :=
  let all_ids := (qms.map (fun qm => someIds [qm.bid_order_id, qm.ask_order_id,
    qm.yes_exit_order_id, qm.no_exit_order_id])).flatten
  let cleared := qms.map (fun qm =>
    { qm with
       bid_order_id := none
       ask_order_id := none
       yes_exit_order_id := none
       no_exit_order_id := none })
  if all_ids = [] then (cleared, [])
  else if bulkOk then (cleared, [Action.cancel all_ids])
  else (cleared, [Action.cancel all_ids, Action.cancelAll])

/-! ### Structural lemmas about the cycle phases -/

/-- The fields that the quote-management sites never touch. -/
def ExitFrame (a b : QuotedMarket) : Prop :=
  b.market = a.market ∧ b.inventory_since = a.inventory_since ∧
  b.entry_mid = a.entry_mid ∧ b.yes_exit_order_id = a.yes_exit_order_id ∧
  b.no_exit_order_id = a.no_exit_order_id ∧ b.exit_price_placed = a.exit_price_placed ∧
  b.exit_cooldown_until = a.exit_cooldown_until

theorem ExitFrame.refl (a : QuotedMarket) : ExitFrame a a := by
  unfold ExitFrame
  simp

theorem ExitFrame.etrans {a b c : QuotedMarket} (h1 : ExitFrame a b) (h2 : ExitFrame b c) :
    ExitFrame a c := by
  obtain ⟨u1, u2, u3, u4, u5, u6, u7⟩ := h1
  obtain ⟨v1, v2, v3, v4, v5, v6, v7⟩ := h2
  exact ⟨v1.trans u1, v2.trans u2, v3.trans u3, v4.trans u4, v5.trans u5,
    v6.trans u6, v7.trans u7⟩

theorem cancel_bid_site_frame (venue : Venue) (wb : Bool) (qm : QuotedMarket) :
    ExitFrame qm (cancel_bid_site venue wb qm).1 := by
  unfold cancel_bid_site ExitFrame
  repeat' split
  all_goals simp

theorem cancel_ask_site_frame (venue : Venue) (wa : Bool) (qm : QuotedMarket) :
    ExitFrame qm (cancel_ask_site venue wa qm).1 := by
  unfold cancel_ask_site ExitFrame
  repeat' split
  all_goals simp

theorem refresh_cancel_site_frame (venue : Venue) (r : Bool) (qm : QuotedMarket) :
    ExitFrame qm (refresh_cancel_site venue r qm).1 := by
  unfold refresh_cancel_site ExitFrame
  repeat' split
  all_goals simp

theorem place_bid_site_frame (cfg : Config) (venue : Venue) (m : ℚ) (need : Bool)
    (qm : QuotedMarket) : ExitFrame qm (place_bid_site cfg venue m need qm).1 := by
  unfold place_bid_site ExitFrame
  repeat' split
  all_goals simp

theorem place_ask_site_frame (cfg : Config) (venue : Venue) (m : ℚ) (need : Bool)
    (qm : QuotedMarket) : ExitFrame qm (place_ask_site cfg venue m need qm).1 := by
  unfold place_ask_site ExitFrame
  repeat' split
  all_goals simp

theorem quote_phase_frame (cfg : Config) (venue : Venue) (m : ℚ) (wb wa : Bool)
    (qm0 : QuotedMarket) : ExitFrame qm0 (quote_phase cfg venue m wb wa qm0).1 := by
  simp only [quote_phase]
  split
  · exact ((((cancel_bid_site_frame venue wb qm0).etrans
      (cancel_ask_site_frame venue wa _)).etrans
      (refresh_cancel_site_frame venue _ _)).etrans
      (place_bid_site_frame cfg venue m _ _)).etrans
      (place_ask_site_frame cfg venue m _ _)
  · exact (cancel_bid_site_frame venue wb qm0).etrans (cancel_ask_site_frame venue wa _)

/-- The fields that the exit-management sites never touch. -/
def QuoteFrame (a b : QuotedMarket) : Prop :=
  b.market = a.market ∧ b.inventory_since = a.inventory_since ∧
  b.entry_mid = a.entry_mid ∧ b.bid_order_id = a.bid_order_id ∧
  b.ask_order_id = a.ask_order_id ∧ b.entry_bid_price = a.entry_bid_price ∧
  b.entry_ask_price = a.entry_ask_price ∧ b.mid_at_placement = a.mid_at_placement

theorem QuoteFrame.qrefl (a : QuotedMarket) : QuoteFrame a a := by
  unfold QuoteFrame
  simp

theorem QuoteFrame.qtrans {a b c : QuotedMarket} (h1 : QuoteFrame a b) (h2 : QuoteFrame b c) :
    QuoteFrame a c := by
  obtain ⟨u1, u2, u3, u4, u5, u6, u7, u8⟩ := h1
  obtain ⟨v1, v2, v3, v4, v5, v6, v7, v8⟩ := h2
  exact ⟨v1.trans u1, v2.trans u2, v3.trans u3, v4.trans u4, v5.trans u5,
    v6.trans u6, v7.trans u7, v8.trans u8⟩

theorem exit_refresh_site_frame (cfg : Config) (venue : Venue) (now : ℚ)
    (qm : QuotedMarket) (m : ℚ) : QuoteFrame qm (exit_refresh_site cfg venue now qm m).1 := by
  unfold exit_refresh_site QuoteFrame
  repeat' split
  all_goals simp

theorem place_yes_exit_site_frame (cfg : Config) (venue : Venue) (now : ℚ)
    (qm : QuotedMarket) (yes_bal m : ℚ) :
    QuoteFrame qm (place_yes_exit_site cfg venue now qm yes_bal m).1 := by
  unfold place_yes_exit_site QuoteFrame
  repeat' split
  all_goals simp

theorem place_no_exit_site_frame (cfg : Config) (venue : Venue) (now : ℚ)
    (qm : QuotedMarket) (no_bal m : ℚ) :
    QuoteFrame qm (place_no_exit_site cfg venue now qm no_bal m).1 := by
  unfold place_no_exit_site QuoteFrame
  repeat' split
  all_goals simp

theorem manage_exits_frame (cfg : Config) (venue : Venue) (now : ℚ) (qm0 : QuotedMarket)
    (yes_bal no_bal m : ℚ) :
    QuoteFrame qm0 (manage_exits cfg venue now qm0 yes_bal no_bal m).1 := by
  simp only [manage_exits]
  exact ((exit_refresh_site_frame cfg venue now qm0 m).qtrans
    (place_yes_exit_site_frame cfg venue now _ yes_bal m)).qtrans
    (place_no_exit_site_frame cfg venue now _ no_bal m)

theorem exit_gate_frame (cfg : Config) (venue : Venue) (now : ℚ) (qm : QuotedMarket)
    (yes_bal no_bal : Option ℚ) (m : ℚ) :
    QuoteFrame qm (exit_gate cfg venue now qm yes_bal no_bal m).1 := by
  unfold exit_gate
  split
  · exact manage_exits_frame cfg venue now qm _ _ m
  · exact QuoteFrame.qrefl qm

/-! ### Shape of the traces emitted by each call site -/

theorem cancel_quoted_acts (ok : Bool) (qm : QuotedMarket) :
    ∀ a ∈ (cancel_quoted ok qm).2, ∃ ids, a = Action.cancel ids := by
  intro a ha
  simp only [cancel_quoted] at ha
  repeat' split at ha
  all_goals simp at ha
  all_goals exact ⟨_, ha⟩

theorem stale_exit_cleanup_acts (qm : QuotedMarket) :
    ∀ a ∈ (stale_exit_cleanup qm).2, ∃ ids, a = Action.cancel ids := by
  intro a ha
  simp only [stale_exit_cleanup] at ha
  split at ha
  · simp at ha
  · simp at ha
    exact ⟨_, ha⟩

theorem inventory_track_acts (cfg : Config) (now m : ℚ) (yes_bal no_bal : Option ℚ)
    (qm : QuotedMarket) :
    ∀ a ∈ (inventory_track cfg now m yes_bal no_bal qm).2, ∃ ids, a = Action.cancel ids := by
  intro a ha
  unfold inventory_track at ha
  split at ha
  · simp at ha
  · split at ha
    · exact stale_exit_cleanup_acts qm a ha
    · simp at ha

theorem cancel_bid_site_acts (venue : Venue) (wb : Bool) (qm : QuotedMarket) :
    ∀ a ∈ (cancel_bid_site venue wb qm).2, ∃ ids, a = Action.cancel ids := by
  intro a ha
  unfold cancel_bid_site at ha
  split at ha
  · simp at ha
    exact ⟨_, ha⟩
  · simp at ha

theorem cancel_ask_site_acts (venue : Venue) (wa : Bool) (qm : QuotedMarket) :
    ∀ a ∈ (cancel_ask_site venue wa qm).2, ∃ ids, a = Action.cancel ids := by
  intro a ha
  unfold cancel_ask_site at ha
  split at ha
  · simp at ha
    exact ⟨_, ha⟩
  · simp at ha

theorem refresh_cancel_site_acts (venue : Venue) (r : Bool) (qm : QuotedMarket) :
    ∀ a ∈ (refresh_cancel_site venue r qm).2, ∃ ids, a = Action.cancel ids := by
  intro a ha
  unfold refresh_cancel_site at ha
  repeat' split at ha
  all_goals simp at ha
  all_goals exact ⟨_, ha⟩

theorem place_bid_site_acts (cfg : Config) (venue : Venue) (m : ℚ) (need : Bool)
    (qm : QuotedMarket) :
    ∀ a ∈ (place_bid_site cfg venue m need qm).2,
      ∃ p s, a = Action.place qm.market.yes_token_id "BUY" p s := by
  intro a ha
  unfold place_bid_site at ha
  split at ha
  · simp at ha
    exact ⟨_, _, ha⟩
  · simp at ha

theorem place_ask_site_acts (cfg : Config) (venue : Venue) (m : ℚ) (need : Bool)
    (qm : QuotedMarket) :
    ∀ a ∈ (place_ask_site cfg venue m need qm).2,
      ∃ p s, a = Action.place qm.market.no_token_id "BUY" p s := by
  intro a ha
  unfold place_ask_site at ha
  split at ha
  · simp at ha
    exact ⟨_, _, ha⟩
  · simp at ha

theorem place_yes_exit_site_acts (cfg : Config) (venue : Venue) (now : ℚ)
    (qm : QuotedMarket) (yes_bal m : ℚ) :
    ∀ a ∈ (place_yes_exit_site cfg venue now qm yes_bal m).2,
      ∃ p s, a = Action.place qm.market.yes_token_id "SELL" p s := by
  intro a ha
  unfold place_yes_exit_site at ha
  split at ha
  · simp at ha
    exact ⟨_, _, ha⟩
  · simp at ha

theorem place_no_exit_site_acts (cfg : Config) (venue : Venue) (now : ℚ)
    (qm : QuotedMarket) (no_bal m : ℚ) :
    ∀ a ∈ (place_no_exit_site cfg venue now qm no_bal m).2,
      ∃ p s, a = Action.place qm.market.no_token_id "SELL" p s := by
  intro a ha
  unfold place_no_exit_site at ha
  split at ha
  · simp at ha
    exact ⟨_, _, ha⟩
  · simp at ha

theorem exit_refresh_site_acts (cfg : Config) (venue : Venue) (now : ℚ)
    (qm : QuotedMarket) (m : ℚ) :
    ∀ a ∈ (exit_refresh_site cfg venue now qm m).2, ∃ ids, a = Action.cancel ids := by
  intro a ha
  unfold exit_refresh_site at ha
  repeat' split at ha
  all_goals simp at ha
  all_goals exact ⟨_, ha⟩

theorem manage_exits_acts (cfg : Config) (venue : Venue) (now : ℚ) (qm0 : QuotedMarket)
    (yes_bal no_bal m : ℚ) :
    ∀ a ∈ (manage_exits cfg venue now qm0 yes_bal no_bal m).2,
      (∃ ids, a = Action.cancel ids) ∨ (∃ tok p s, a = Action.place tok "SELL" p s) := by
  intro a ha
  simp only [manage_exits, List.mem_append] at ha
  rcases ha with (ha | ha) | ha
  · exact Or.inl (exit_refresh_site_acts cfg venue now qm0 m a ha)
  · obtain ⟨p, s, h⟩ := place_yes_exit_site_acts cfg venue now _ yes_bal m a ha
    exact Or.inr ⟨_, p, s, h⟩
  · obtain ⟨p, s, h⟩ := place_no_exit_site_acts cfg venue now _ no_bal m a ha
    exact Or.inr ⟨_, p, s, h⟩

theorem exit_gate_acts (cfg : Config) (venue : Venue) (now : ℚ) (qm : QuotedMarket)
    (yes_bal no_bal : Option ℚ) (m : ℚ) :
    ∀ a ∈ (exit_gate cfg venue now qm yes_bal no_bal m).2,
      (∃ ids, a = Action.cancel ids) ∨ (∃ tok p s, a = Action.place tok "SELL" p s) := by
  intro a ha
  unfold exit_gate at ha
  split at ha
  · exact manage_exits_acts cfg venue now qm _ _ m a ha
  · simp at ha

/-! ### C4: no bid is placed while YES inventory is held -/

theorem needs_bid_wb_false (cfg : Config) (wa : Bool) (qm : QuotedMarket) (m : ℚ) :
    ¬ needs_bid cfg false wa qm m := by
  intro h
  simp [needs_bid] at h

theorem place_bid_site_not_needed (cfg : Config) (venue : Venue) (m : ℚ)
    (qm : QuotedMarket) : place_bid_site cfg venue m false qm = (qm, []) := by
  unfold place_bid_site
  simp

theorem inventory_track_keep (cfg : Config) (now m : ℚ) (yes_bal no_bal : Option ℚ)
    (qm : QuotedMarket) :
    (inventory_track cfg now m yes_bal no_bal qm).1.market = qm.market ∧
    (inventory_track cfg now m yes_bal no_bal qm).1.bid_order_id = qm.bid_order_id ∧
    (inventory_track cfg now m yes_bal no_bal qm).1.ask_order_id = qm.ask_order_id ∧
    (inventory_track cfg now m yes_bal no_bal qm).1.mid_at_placement = qm.mid_at_placement ∧
    (inventory_track cfg now m yes_bal no_bal qm).1.entry_bid_price = qm.entry_bid_price ∧
    (inventory_track cfg now m yes_bal no_bal qm).1.entry_ask_price = qm.entry_ask_price ∧
    (inventory_track cfg now m yes_bal no_bal qm).1.exit_price_placed = qm.exit_price_placed := by
  simp only [inventory_track, stale_exit_cleanup]
  repeat' split
  all_goals simp

theorem cancel_quoted_market (ok : Bool) (qm : QuotedMarket) :
    (cancel_quoted ok qm).1.market = qm.market := by
  simp only [cancel_quoted]
  repeat' split
  all_goals simp

theorem cycle_market_eq (cfg : Config) (venue : Venue) (now : ℚ) (qm : QuotedMarket)
    (yes_bal no_bal mid : Option ℚ) :
    (process_market_cycle cfg venue now qm yes_bal no_bal mid).1.market = qm.market := by
  simp only [process_market_cycle]
  split
  · rfl
  · split
    · rfl
    · split
      · exact cancel_quoted_market _ _
      · rw [(exit_gate_frame _ _ _ _ _ _ _).1, (quote_phase_frame _ _ _ _ _ _).1,
          (inventory_track_keep _ _ _ _ _ _).1]

theorem quote_phase_no_bid_place (cfg : Config) (venue : Venue) (m : ℚ) (wa : Bool)
    (qm0 : QuotedMarket) (hsep : qm0.market.yes_token_id ≠ qm0.market.no_token_id)
    (p s : ℚ) :
    Action.place qm0.market.yes_token_id "BUY" p s ∉
      (quote_phase cfg venue m false wa qm0).2 := by
  intro hmem
  simp only [quote_phase] at hmem
  split at hmem
  · simp only [List.mem_append] at hmem
    rcases hmem with (((h1 | h2) | h3) | h4) | h5
    · obtain ⟨ids, h⟩ := cancel_bid_site_acts _ _ _ _ h1
      simp at h
    · obtain ⟨ids, h⟩ := cancel_ask_site_acts _ _ _ _ h2
      simp at h
    · obtain ⟨ids, h⟩ := refresh_cancel_site_acts _ _ _ _ h3
      simp at h
    · rw [show decide (needs_bid cfg false wa
          (cancel_ask_site venue wa (cancel_bid_site venue false qm0).1).1 m) = false by
            simp [needs_bid],
        place_bid_site_not_needed] at h4
      simp at h4
    · obtain ⟨p2, s2, h⟩ := place_ask_site_acts _ _ _ _ _ _ h5
      have hmkt : ((place_bid_site cfg venue m
          (decide (needs_bid cfg false wa
            (cancel_ask_site venue wa (cancel_bid_site venue false qm0).1).1 m))
          (refresh_cancel_site venue
            (decide (needs_refresh cfg false wa
              (cancel_ask_site venue wa (cancel_bid_site venue false qm0).1).1 m))
            (cancel_ask_site venue wa (cancel_bid_site venue false qm0).1).1).1).1).market =
          qm0.market :=
        ((((cancel_bid_site_frame venue false qm0).etrans
          (cancel_ask_site_frame venue wa _)).etrans
          (refresh_cancel_site_frame venue _ _)).etrans
          (place_bid_site_frame cfg venue m _ _)).1
      rw [hmkt] at h
      injection h with hh1 hh2 hh3 hh4
      exact hsep hh1
  · simp only [List.mem_append] at hmem
    rcases hmem with h1 | h2
    · obtain ⟨ids, h⟩ := cancel_bid_site_acts _ _ _ _ h1
      simp at h
    · obtain ⟨ids, h⟩ := cancel_ask_site_acts _ _ _ _ h2
      simp at h

theorem cycle_no_bid_place (cfg : Config) (venue : Venue) (now : ℚ) (qm : QuotedMarket)
    (yes_bal no_bal mid : Option ℚ) (p s : ℚ) (hy : hasInv cfg yes_bal)
    (hsep : qm.market.yes_token_id ≠ qm.market.no_token_id) :
    Action.place qm.market.yes_token_id "BUY" p s ∉
      (process_market_cycle cfg venue now qm yes_bal no_bal mid).2 := by
  intro hmem
  simp only [process_market_cycle] at hmem
  split at hmem
  · simp at hmem
  · split at hmem
    · simp at hmem
    · split at hmem
      · obtain ⟨ids, h⟩ := cancel_quoted_acts _ _ _ hmem
        simp at h
      · rename_i m hge
        rw [show (!decide (hasInv cfg yes_bal)) = false by simp [hy]] at hmem
        simp only [List.mem_append] at hmem
        rcases hmem with (h1 | h2) | h3
        · obtain ⟨ids, h⟩ := inventory_track_acts _ _ _ _ _ _ _ h1
          simp at h
        · have hmkt : (inventory_track cfg now m yes_bal no_bal qm).1.market = qm.market :=
            (inventory_track_keep _ _ _ _ _ _).1
          rw [← hmkt] at h2 hsep
          exact quote_phase_no_bid_place cfg venue _ _ _ hsep p s h2
        · rcases exit_gate_acts _ _ _ _ _ _ _ _ h3 with ⟨ids, h⟩ | ⟨tok, p2, s2, h⟩
          · simp at h
          · injection h with hh1 hh2 hh3 hh4
            exact absurd hh2 (by decide)

theorem quote_phase_cancels_bid (cfg : Config) (venue : Venue) (m : ℚ) (wa : Bool)
    (qm0 : QuotedMarket) (b : String) (hb : qm0.bid_order_id = some b) :
    Action.cancel [b] ∈ (quote_phase cfg venue m false wa qm0).2 := by
  have h1 : (cancel_bid_site venue false qm0).2 = [Action.cancel [b]] := by
    unfold cancel_bid_site
    rw [if_pos ⟨rfl, by simp [hb]⟩]
    simp [someIds, hb]
  simp only [quote_phase]
  split
  · simp only [List.mem_append, h1]
    simp
  · simp only [List.mem_append, h1]
    simp

theorem cycle_bid_cancelled (cfg : Config) (venue : Venue) (now : ℚ) (qm : QuotedMarket)
    (yes_bal no_bal : Option ℚ) (m : ℚ) (b : String)
    (hy : hasInv cfg yes_bal) (hb : qm.bid_order_id = some b) :
    ∃ ids, Action.cancel ids ∈
      (process_market_cycle cfg venue now qm yes_bal no_bal (some m)).2 ∧ b ∈ ids := by
  simp only [process_market_cycle]
  rw [if_neg (fun h => h.1 (Or.inl hy))]
  by_cases hpark : m < cfg.MIN_QUOTABLE_MID
  · rw [if_pos hpark]
    refine ⟨someIds [qm.bid_order_id, qm.ask_order_id, qm.yes_exit_order_id,
      qm.no_exit_order_id], ?_, ?_⟩
    · unfold cancel_quoted
      rw [if_neg (by simp [someIds, hb])]
      split
      · simp
      · simp
    · simp [someIds, hb]
  · rw [if_neg hpark]
    have hwb : (!decide (hasInv cfg yes_bal)) = false := by simp [hy]
    rw [hwb]
    have hb1 : (inventory_track cfg now m yes_bal no_bal qm).1.bid_order_id = some b := by
      rw [(inventory_track_keep _ _ _ _ _ _).2.1, hb]
    refine ⟨[b], ?_, by simp⟩
    simp only [List.mem_append]
    left
    right
    exact quote_phase_cancels_bid cfg venue m _ _ b hb1

/-- C4 (amended).  While the observed YES balance is at or above the dust
threshold: (1) a cycle never places a bid (a BUY of the YES token); (2)
over any run of cycles in each of which the YES balance is at or above the
threshold, no bid is ever placed; (3) whenever the midpoint is available, a
resting bid order is cancelled that cycle (by the parking sweep below
`MIN_QUOTABLE_MID`, by the unwanted-side cancel otherwise), even when the
ask side is independently refreshed.  (The original claim also asserted the
cancellation when the midpoint fetch fails, but that cycle is a no-op and
leaves the bid untouched.) -/
theorem no_bid_while_yes_inventory :
    (∀ (cfg : Config) (venue : Venue) (now : ℚ) (qm : QuotedMarket)
        (yes_bal no_bal mid : Option ℚ) (p s : ℚ),
      hasInv cfg yes_bal →
      qm.market.yes_token_id ≠ qm.market.no_token_id →
      Action.place qm.market.yes_token_id "BUY" p s ∉
        (process_market_cycle cfg venue now qm yes_bal no_bal mid).2) ∧
    (∀ (cfg : Config) (qm : QuotedMarket) (obs : List CycleObs) (p s : ℚ),
      qm.market.yes_token_id ≠ qm.market.no_token_id →
      (∀ o ∈ obs, hasInv cfg o.yes_bal) →
      Action.place qm.market.yes_token_id "BUY" p s ∉ (runCycles cfg qm obs).2) ∧
    (∀ (cfg : Config) (venue : Venue) (now : ℚ) (qm : QuotedMarket)
        (yes_bal no_bal : Option ℚ) (m : ℚ) (b : String),
      hasInv cfg yes_bal → qm.bid_order_id = some b →
      ∃ ids, Action.cancel ids ∈
        (process_market_cycle cfg venue now qm yes_bal no_bal (some m)).2 ∧ b ∈ ids) := by
  refine ⟨?_, ?_, ?_⟩
  · intro cfg venue now qm yes_bal no_bal mid p s hy hsep
    exact cycle_no_bid_place cfg venue now qm yes_bal no_bal mid p s hy hsep
  · intro cfg qm obs
    induction obs generalizing qm with
    | nil =>
      intro p s _ _ hmem
      simp [runCycles] at hmem
    | cons o rest ih =>
      intro p s hsep hall hmem
      simp only [runCycles, List.mem_append] at hmem
      have hm := cycle_market_eq cfg o.venue o.now qm o.yes_bal o.no_bal o.mid
      rcases hmem with h | h
      · exact cycle_no_bid_place cfg o.venue o.now qm o.yes_bal o.no_bal o.mid p s
          (hall o (by simp)) hsep h
      · rw [← hm] at h
        exact ih _ p s (by rw [hm]; exact hsep)
          (fun o2 ho2 => hall o2 (by simp [ho2])) h
  · intro cfg venue now qm yes_bal no_bal m b hy hb
    exact cycle_bid_cancelled cfg venue now qm yes_bal no_bal m b hy hb

/-- A simple concrete state holding a resting bid. -/
def c4qm : QuotedMarket := { market := mkMarket (1/20) (1/100), bid_order_id := some "b1" }

/-- C4 (witness): with YES inventory of 5 shares and a live midpoint, the
cycle places no bid. -/
theorem no_bid_while_yes_inventory_witness :
    hasInv defaultConfig (some 5) ∧
    Action.place c4qm.market.yes_token_id "BUY" 1 1 ∉
      (process_market_cycle defaultConfig failVenue 0 c4qm (some 5) (some 0)
        (some (1/2))).2 :=
  ⟨by norm_num [hasInv, defaultConfig],
   no_bid_while_yes_inventory.1 defaultConfig failVenue 0 c4qm (some 5) (some 0)
     (some (1/2)) 1 1 (by norm_num [hasInv, defaultConfig])
     (by simp [c4qm, mkMarket])⟩

/-- C4 (counterexample): with YES inventory of 5 shares, a resting bid and
an unavailable midpoint, the cycle is a no-op — no cancel call is issued
and the bid id survives — refuting the claim that a resting bid order is
cancelled in every such cycle. -/
theorem no_bid_cancel_cex :
    hasInv defaultConfig (some 5) ∧ c4qm.bid_order_id = some "b1" ∧
    process_market_cycle defaultConfig failVenue 0 c4qm (some 5) (some 0) none =
      (c4qm, []) := by
  refine ⟨by norm_num [hasInv, defaultConfig], rfl, ?_⟩
  simp only [process_market_cycle]
  rw [if_neg (fun h => h.1 (Or.inl (by norm_num [hasInv, defaultConfig])))]

/-! ### C5: unknown balances with live exit orders -/

/-- A fresh state tracking a concrete market, with no resting orders. -/
def freshQm : QuotedMarket := { market := mkMarket (1/20) (1/100) }

/-- C5 (amended).  When NO observed balance reaches the dust threshold, at
least one balance is unknown, and at least one exit order is resting, the
cycle is a no-op: the state is returned unchanged and no venue call is
issued.  (The original claim dropped the first condition: when the other,
known balance is at or above the dust threshold the cycle proceeds — see
the counterexample, where it even places an ask.) -/
theorem unknown_balance_noop (cfg : Config) (venue : Venue) (now : ℚ)
    (qm : QuotedMarket) (yes_bal no_bal mid : Option ℚ)
    (hny : ¬ hasInv cfg yes_bal) (hnn : ¬ hasInv cfg no_bal)
    (hunk : yes_bal = none ∨ no_bal = none)
    (hexit : qm.yes_exit_order_id ≠ none ∨ qm.no_exit_order_id ≠ none) :
    process_market_cycle cfg venue now qm yes_bal no_bal mid = (qm, []) := by
  simp only [process_market_cycle]
  rw [if_pos ⟨fun h => h.elim hny hnn, hunk, hexit⟩]

/-- State for the C5 scenario: a YES exit order is resting (and exits are
inside the cooldown window, which is irrelevant to the claim). -/
def c5qm : QuotedMarket :=
  { market := mkMarket (1/20) (1/100), yes_exit_order_id := some "e1"
    inventory_since := some 100, exit_cooldown_until := 1000 }

/-- C5 (witness): NO-balance fetch failed, YES balance below dust, YES exit
resting — the cycle is a no-op. -/
theorem unknown_balance_noop_witness :
    c5qm.yes_exit_order_id ≠ none ∧
    process_market_cycle defaultConfig failVenue 0 c5qm (some 0) none (some (1/2)) =
      (c5qm, []) :=
  ⟨by simp [c5qm],
   unknown_balance_noop defaultConfig failVenue 0 c5qm (some 0) none (some (1/2))
     (by norm_num [hasInv, defaultConfig]) (by simp [hasInv]) (Or.inr rfl)
     (by simp [c5qm])⟩

/-- C5 (counterexample): the NO-balance fetch fails while a YES exit order
is resting, but the YES balance is known and at the dust threshold — the
cycle is NOT a no-op: it issues a venue call (it places the ask side),
refuting the claim as stated. -/
theorem unknown_balance_noop_cex :
    ((none : Option ℚ) = none) ∧ c5qm.yes_exit_order_id ≠ none ∧
    (process_market_cycle defaultConfig (okVenue "b" "a" "x" "z") 200 c5qm (some 5) none
      (some (1/2))).2 = [Action.place "N" "BUY" (47/100) 100] := by
  refine ⟨rfl, by simp [c5qm], ?_⟩
  have hwb : (!decide (hasInv defaultConfig (some (5:ℚ)))) = false := by
    norm_num [hasInv, defaultConfig]
  have hwa : (!decide (hasInv defaultConfig (none : Option ℚ))) = true := by
    simp [hasInv]
  have h1 : inventory_track defaultConfig 200 (1/2) (some 5) none c5qm = (c5qm, []) := by
    rw [inventory_track, if_neg (fun h => by simpa [c5qm] using h.2),
      if_neg (fun h => h (Or.inl (by norm_num [hasInv, defaultConfig])))]
  have hq1 : compute_quotes defaultConfig c5qm.market (1/2) = (47/100, 53/100) := by
    norm_num [compute_quotes, round_to_tick, round4, roundHalfEven, clamp, c5qm,
      mkMarket, defaultConfig]
  have h2 : quote_phase defaultConfig (okVenue "b" "a" "x" "z") (1/2) false true c5qm =
      ({ c5qm with
          ask_order_id := some "a"
          entry_ask_price := 53/100
          mid_at_placement := 1/2 },
       [Action.place "N" "BUY" (47/100) 100]) := by
    have hcb : cancel_bid_site (okVenue "b" "a" "x" "z") false c5qm = (c5qm, []) := by
      rw [cancel_bid_site, if_neg (fun h => by simpa [c5qm] using h.2)]
    have hca : cancel_ask_site (okVenue "b" "a" "x" "z") true c5qm = (c5qm, []) := by
      rw [cancel_ask_site, if_neg (fun h => by simp at h)]
    have hnr : ¬ needs_refresh defaultConfig false true c5qm (1/2) := by
      intro h
      rcases h.1 with h | h
      · simp at h
      · simp [c5qm] at h
    have hnb : ¬ needs_bid defaultConfig false true c5qm (1/2) := by
      intro h
      simp [needs_bid] at h
    have hna : needs_ask defaultConfig false true c5qm (1/2) := by
      refine ⟨rfl, Or.inl ?_⟩
      simp [c5qm]
    rw [quote_phase, hcb]
    simp only [hca]
    rw [if_pos (Or.inr hna)]
    rw [refresh_cancel_site, if_neg (by simp only [decide_eq_true_eq]; exact hnr)]
    rw [place_bid_site, if_neg (fun h => hnb (of_decide_eq_true h.1))]
    rw [place_ask_site, if_pos ⟨decide_eq_true hna, by simp [c5qm]⟩]
    simp only [okVenue]
    rw [hq1]
    norm_num [round_to_tick, round4, roundHalfEven, c5qm, mkMarket, compute_size,
      defaultConfig]
  simp only [process_market_cycle]
  rw [if_neg (fun h => h.1 (Or.inl (by norm_num [hasInv, defaultConfig])))]
  rw [if_neg (by norm_num [defaultConfig])]
  rw [hwb, hwa, h1]
  simp only [h2]
  rw [exit_gate, if_neg (fun h => by
    have := h.2
    simp [c5qm] at this
    linarith)]
  simp

/-! ### C8: the `inventory_since` invariant -/

/-- C8 (amended).  After any cycle that reaches the inventory-tracking step
— the midpoint is available and at least `MIN_QUOTABLE_MID`, and the
unknown-balance early return does not fire — `inventory_since` is non-`none`
iff one of the freshly observed balances is at or above the dust threshold.
(The original claim asserted the equivalence across the early-return
branches as well; it fails there because those branches keep the previous
`inventory_since` while the observed balances may already differ — see the
counterexample.) -/
theorem inventory_since_iff (cfg : Config) (venue : Venue) (now : ℚ)
    (qm : QuotedMarket) (yes_bal no_bal : Option ℚ) (m : ℚ)
    (hq : ¬ m < cfg.MIN_QUOTABLE_MID)
    (hnoop : ¬ (¬ (hasInv cfg yes_bal ∨ hasInv cfg no_bal) ∧
      (yes_bal = none ∨ no_bal = none) ∧
      (qm.yes_exit_order_id ≠ none ∨ qm.no_exit_order_id ≠ none))) :
    ((process_market_cycle cfg venue now qm yes_bal no_bal (some m)).1.inventory_since
        ≠ none ↔
      (hasInv cfg yes_bal ∨ hasInv cfg no_bal)) := by
  simp only [process_market_cycle]
  rw [if_neg hnoop, if_neg hq]
  rw [(exit_gate_frame _ _ _ _ _ _ _).2.1, (quote_phase_frame _ _ _ _ _ _).2.1]
  by_cases hinv : hasInv cfg yes_bal ∨ hasInv cfg no_bal
  · simp only [inventory_track]
    by_cases hsince : qm.inventory_since = none
    · rw [if_pos ⟨hinv, hsince⟩]
      simp [hinv]
    · rw [if_neg (fun h => hsince h.2), if_neg (fun h => h hinv)]
      simp [hinv, hsince]
  · simp only [inventory_track, stale_exit_cleanup]
    rw [if_neg (fun h => hinv h.1), if_pos hinv]
    split
    · simp [hinv]
    · simp [hinv]

/-- C8 (witness): observed YES balance 5 on a fresh state with a live
midpoint stamps `inventory_since`. -/
theorem inventory_since_iff_witness :
    ¬ ((1:ℚ)/2) < defaultConfig.MIN_QUOTABLE_MID ∧
    ((process_market_cycle defaultConfig (okVenue "b" "a" "x" "z") 7 freshQm (some 5)
        (some 0) (some (1/2))).1.inventory_since ≠ none ↔
      (hasInv defaultConfig (some (5:ℚ)) ∨ hasInv defaultConfig (some (0:ℚ)))) :=
  ⟨by norm_num [defaultConfig],
   inventory_since_iff defaultConfig (okVenue "b" "a" "x" "z") 7 freshQm (some 5) (some 0)
     (1/2) (by norm_num [defaultConfig]) (by
       intro h
       exact h.1 (Or.inl (by norm_num [hasInv, defaultConfig])))⟩

/-- C8 (counterexample): the midpoint fetch fails while the observed YES
balance is 5 (at the dust threshold); the cycle early-returns and leaves
`inventory_since = none`, refuting the claimed equivalence on the
early-return branches. -/
theorem inventory_since_iff_cex :
    hasInv defaultConfig (some (5:ℚ)) ∧
    (process_market_cycle defaultConfig failVenue 0 freshQm (some 5) (some 0)
      none).1.inventory_since = none := by
  refine ⟨by norm_num [hasInv, defaultConfig], ?_⟩
  simp only [process_market_cycle]
  rw [if_neg (fun h => h.1 (Or.inl (by norm_num [hasInv, defaultConfig])))]
  rfl

/-! ### C6: order-id fields under venue failures -/

/-- Every venue call of the cycle fails (placements may fail with either
error kind). -/
def AllFail (v : Venue) : Prop :=
  v.cancelParked = false ∧ v.cancelBid = false ∧ v.cancelAsk = false ∧
  v.cancelRefresh = false ∧ v.cancelExitsRefresh = false ∧
  (∃ b, v.placeBid = .error b) ∧ (∃ b, v.placeAsk = .error b) ∧
  (∃ b, v.placeYesExit = .error b) ∧ (∃ b, v.placeNoExit = .error b)

theorem allFail_failVenue : AllFail failVenue := by
  refine ⟨rfl, rfl, rfl, rfl, rfl, ⟨false, rfl⟩, ⟨false, rfl⟩, ⟨false, rfl⟩, ⟨false, rfl⟩⟩

/-- An order-id field either keeps its value or is cleared. -/
def OptStep (a b : Option String) : Prop := b = a ∨ b = none

theorem OptStep.rfl (a : Option String) : OptStep a a := Or.inl (Eq.refl a)

theorem OptStep.trans {a b c : Option String} (h1 : OptStep a b) (h2 : OptStep b c) :
    OptStep a c := by
  rcases h2 with h2 | h2
  · rw [h2]
    exact h1
  · exact Or.inr h2

theorem cancel_quoted_fail (qm : QuotedMarket) : (cancel_quoted false qm).1 = qm := by
  simp only [cancel_quoted]
  repeat' split
  all_goals simp_all

theorem cancel_bid_site_fail (v : Venue) (wb : Bool) (qm : QuotedMarket)
    (h : v.cancelBid = false) : (cancel_bid_site v wb qm).1 = qm := by
  unfold cancel_bid_site
  repeat' split
  all_goals simp_all

theorem cancel_ask_site_fail (v : Venue) (wa : Bool) (qm : QuotedMarket)
    (h : v.cancelAsk = false) : (cancel_ask_site v wa qm).1 = qm := by
  unfold cancel_ask_site
  repeat' split
  all_goals simp_all

theorem refresh_cancel_site_fail (v : Venue) (r : Bool) (qm : QuotedMarket)
    (h : v.cancelRefresh = false) : (refresh_cancel_site v r qm).1 = qm := by
  unfold refresh_cancel_site
  repeat' split
  all_goals simp_all

theorem place_bid_site_fail (cfg : Config) (v : Venue) (m : ℚ) (need : Bool)
    (qm : QuotedMarket) (h : ∃ b, v.placeBid = .error b) :
    (place_bid_site cfg v m need qm).1 = qm := by
  obtain ⟨b, hb⟩ := h
  unfold place_bid_site
  split
  · rw [hb]
  · rfl

theorem place_ask_site_fail (cfg : Config) (v : Venue) (m : ℚ) (need : Bool)
    (qm : QuotedMarket) (h : ∃ b, v.placeAsk = .error b) :
    (place_ask_site cfg v m need qm).1 = qm := by
  obtain ⟨b, hb⟩ := h
  unfold place_ask_site
  split
  · rw [hb]
  · rfl

theorem quote_phase_allfail (cfg : Config) (v : Venue) (m : ℚ) (wb wa : Bool)
    (qm : QuotedMarket) (h : AllFail v) : (quote_phase cfg v m wb wa qm).1 = qm := by
  obtain ⟨_, hcb, hca, hcr, _, hpb, hpa, _, _⟩ := h
  simp only [quote_phase]
  split
  · rw [place_ask_site_fail cfg v m _ _ hpa, place_bid_site_fail cfg v m _ _ hpb,
      refresh_cancel_site_fail v _ _ hcr, cancel_ask_site_fail v wa _ hca,
      cancel_bid_site_fail v wb _ hcb]
  · rw [cancel_ask_site_fail v wa _ hca, cancel_bid_site_fail v wb _ hcb]

theorem exit_refresh_site_fail (cfg : Config) (v : Venue) (now : ℚ) (qm : QuotedMarket)
    (m : ℚ) (h : v.cancelExitsRefresh = false) :
    (exit_refresh_site cfg v now qm m).1 = qm := by
  unfold exit_refresh_site
  repeat' split
  all_goals simp_all

theorem place_yes_exit_site_err (cfg : Config) (v : Venue) (now : ℚ) (qm : QuotedMarket)
    (yes_bal m : ℚ) (h : ∃ b, v.placeYesExit = .error b) :
    (place_yes_exit_site cfg v now qm yes_bal m).1.bid_order_id = qm.bid_order_id ∧
    (place_yes_exit_site cfg v now qm yes_bal m).1.ask_order_id = qm.ask_order_id ∧
    (place_yes_exit_site cfg v now qm yes_bal m).1.yes_exit_order_id =
      qm.yes_exit_order_id ∧
    (place_yes_exit_site cfg v now qm yes_bal m).1.no_exit_order_id =
      qm.no_exit_order_id := by
  obtain ⟨b, hb⟩ := h
  unfold place_yes_exit_site
  split
  · rw [hb]
    dsimp only
    split
    · simp
    · simp
  · simp

theorem place_no_exit_site_err (cfg : Config) (v : Venue) (now : ℚ) (qm : QuotedMarket)
    (no_bal m : ℚ) (h : ∃ b, v.placeNoExit = .error b) :
    (place_no_exit_site cfg v now qm no_bal m).1.bid_order_id = qm.bid_order_id ∧
    (place_no_exit_site cfg v now qm no_bal m).1.ask_order_id = qm.ask_order_id ∧
    (place_no_exit_site cfg v now qm no_bal m).1.yes_exit_order_id =
      qm.yes_exit_order_id ∧
    (place_no_exit_site cfg v now qm no_bal m).1.no_exit_order_id =
      qm.no_exit_order_id := by
  obtain ⟨b, hb⟩ := h
  unfold place_no_exit_site
  split
  · rw [hb]
    dsimp only
    split
    · simp
    · simp
  · simp

theorem manage_exits_allfail_ids (cfg : Config) (v : Venue) (now : ℚ)
    (qm : QuotedMarket) (yes_bal no_bal m : ℚ) (h : AllFail v) :
    (manage_exits cfg v now qm yes_bal no_bal m).1.bid_order_id = qm.bid_order_id ∧
    (manage_exits cfg v now qm yes_bal no_bal m).1.ask_order_id = qm.ask_order_id ∧
    (manage_exits cfg v now qm yes_bal no_bal m).1.yes_exit_order_id =
      qm.yes_exit_order_id ∧
    (manage_exits cfg v now qm yes_bal no_bal m).1.no_exit_order_id =
      qm.no_exit_order_id := by
  obtain ⟨_, _, _, _, hcer, _, _, hpy, hpn⟩ := h
  simp only [manage_exits]
  rw [exit_refresh_site_fail cfg v now qm m hcer]
  obtain ⟨a1, a2, a3, a4⟩ := place_yes_exit_site_err cfg v now qm yes_bal m hpy
  obtain ⟨b1, b2, b3, b4⟩ := place_no_exit_site_err cfg v now
    (place_yes_exit_site cfg v now qm yes_bal m).1 no_bal m hpn
  exact ⟨b1.trans a1, b2.trans a2, b3.trans a3, b4.trans a4⟩

theorem cancel_quoted_ids_optstep (ok : Bool) (qm : QuotedMarket) :
    OptStep qm.bid_order_id (cancel_quoted ok qm).1.bid_order_id ∧
    OptStep qm.ask_order_id (cancel_quoted ok qm).1.ask_order_id ∧
    OptStep qm.yes_exit_order_id (cancel_quoted ok qm).1.yes_exit_order_id ∧
    OptStep qm.no_exit_order_id (cancel_quoted ok qm).1.no_exit_order_id := by
  simp only [cancel_quoted]
  repeat' split
  all_goals simp [OptStep]

theorem cancel_bid_site_bid (v : Venue) (wb : Bool) (qm : QuotedMarket) :
    OptStep qm.bid_order_id (cancel_bid_site v wb qm).1.bid_order_id ∧
    (cancel_bid_site v wb qm).1.ask_order_id = qm.ask_order_id := by
  unfold cancel_bid_site
  repeat' split
  all_goals simp [OptStep]

theorem cancel_ask_site_ask (v : Venue) (wa : Bool) (qm : QuotedMarket) :
    OptStep qm.ask_order_id (cancel_ask_site v wa qm).1.ask_order_id ∧
    (cancel_ask_site v wa qm).1.bid_order_id = qm.bid_order_id := by
  unfold cancel_ask_site
  repeat' split
  all_goals simp [OptStep]

theorem refresh_cancel_site_quotes (v : Venue) (r : Bool) (qm : QuotedMarket) :
    OptStep qm.bid_order_id (refresh_cancel_site v r qm).1.bid_order_id ∧
    OptStep qm.ask_order_id (refresh_cancel_site v r qm).1.ask_order_id := by
  unfold refresh_cancel_site
  repeat' split
  all_goals simp [OptStep]

theorem place_bid_site_ask (cfg : Config) (v : Venue) (m : ℚ) (need : Bool)
    (qm : QuotedMarket) : (place_bid_site cfg v m need qm).1.ask_order_id =
      qm.ask_order_id := by
  unfold place_bid_site
  repeat' split
  all_goals simp

theorem place_ask_site_bid (cfg : Config) (v : Venue) (m : ℚ) (need : Bool)
    (qm : QuotedMarket) : (place_ask_site cfg v m need qm).1.bid_order_id =
      qm.bid_order_id := by
  unfold place_ask_site
  repeat' split
  all_goals simp

theorem exit_refresh_site_ids (cfg : Config) (v : Venue) (now : ℚ) (qm : QuotedMarket)
    (m : ℚ) :
    OptStep qm.yes_exit_order_id (exit_refresh_site cfg v now qm m).1.yes_exit_order_id ∧
    OptStep qm.no_exit_order_id (exit_refresh_site cfg v now qm m).1.no_exit_order_id := by
  unfold exit_refresh_site
  repeat' split
  all_goals simp [OptStep]

theorem place_yes_exit_site_no (cfg : Config) (v : Venue) (now : ℚ) (qm : QuotedMarket)
    (yes_bal m : ℚ) :
    (place_yes_exit_site cfg v now qm yes_bal m).1.no_exit_order_id =
      qm.no_exit_order_id := by
  unfold place_yes_exit_site
  repeat' split
  all_goals simp

theorem place_no_exit_site_yes (cfg : Config) (v : Venue) (now : ℚ) (qm : QuotedMarket)
    (no_bal m : ℚ) :
    (place_no_exit_site cfg v now qm no_bal m).1.yes_exit_order_id =
      qm.yes_exit_order_id := by
  unfold place_no_exit_site
  repeat' split
  all_goals simp

theorem inventory_track_exit_optstep (cfg : Config) (now m : ℚ)
    (yes_bal no_bal : Option ℚ) (qm : QuotedMarket) :
    OptStep qm.yes_exit_order_id
      (inventory_track cfg now m yes_bal no_bal qm).1.yes_exit_order_id ∧
    OptStep qm.no_exit_order_id
      (inventory_track cfg now m yes_bal no_bal qm).1.no_exit_order_id := by
  simp only [inventory_track, stale_exit_cleanup]
  repeat' split
  all_goals simp [OptStep]

theorem quote_phase_bid_optstep (cfg : Config) (v : Venue) (m : ℚ) (wb wa : Bool)
    (qm : QuotedMarket) (herr : ∃ b, v.placeBid = PlaceResult.error b) :
    OptStep qm.bid_order_id (quote_phase cfg v m wb wa qm).1.bid_order_id := by
  simp only [quote_phase]
  split
  · rw [place_ask_site_bid, place_bid_site_fail cfg v m _ _ herr]
    exact OptStep.trans (OptStep.trans (cancel_bid_site_bid v wb qm).1
      (Or.inl (cancel_ask_site_ask v wa _).2)) (refresh_cancel_site_quotes v _ _).1
  · exact OptStep.trans (cancel_bid_site_bid v wb qm).1
      (Or.inl (cancel_ask_site_ask v wa _).2)

theorem quote_phase_ask_optstep (cfg : Config) (v : Venue) (m : ℚ) (wb wa : Bool)
    (qm : QuotedMarket) (herr : ∃ b, v.placeAsk = PlaceResult.error b) :
    OptStep qm.ask_order_id (quote_phase cfg v m wb wa qm).1.ask_order_id := by
  simp only [quote_phase]
  split
  · rw [place_ask_site_fail cfg v m _ _ herr, place_bid_site_ask]
    exact OptStep.trans (OptStep.trans (Or.inl (cancel_bid_site_bid v wb qm).2)
      (cancel_ask_site_ask v wa _).1) (refresh_cancel_site_quotes v _ _).2
  · exact OptStep.trans (Or.inl (cancel_bid_site_bid v wb qm).2)
      (cancel_ask_site_ask v wa _).1

theorem manage_exits_yes_optstep (cfg : Config) (v : Venue) (now : ℚ)
    (qm : QuotedMarket) (yes_bal no_bal m : ℚ)
    (herr : ∃ b, v.placeYesExit = PlaceResult.error b) :
    OptStep qm.yes_exit_order_id
      (manage_exits cfg v now qm yes_bal no_bal m).1.yes_exit_order_id := by
  simp only [manage_exits]
  rw [place_no_exit_site_yes, (place_yes_exit_site_err cfg v now _ yes_bal m herr).2.2.1]
  exact (exit_refresh_site_ids cfg v now qm m).1

theorem manage_exits_no_optstep (cfg : Config) (v : Venue) (now : ℚ)
    (qm : QuotedMarket) (yes_bal no_bal m : ℚ)
    (herr : ∃ b, v.placeNoExit = PlaceResult.error b) :
    OptStep qm.no_exit_order_id
      (manage_exits cfg v now qm yes_bal no_bal m).1.no_exit_order_id := by
  simp only [manage_exits]
  rw [(place_no_exit_site_err cfg v now _ no_bal m herr).2.2.2,
    place_yes_exit_site_no]
  exact (exit_refresh_site_ids cfg v now qm m).2

theorem exit_gate_yes_optstep (cfg : Config) (v : Venue) (now : ℚ) (qm : QuotedMarket)
    (yes_bal no_bal : Option ℚ) (m : ℚ)
    (herr : ∃ b, v.placeYesExit = PlaceResult.error b) :
    OptStep qm.yes_exit_order_id
      (exit_gate cfg v now qm yes_bal no_bal m).1.yes_exit_order_id := by
  unfold exit_gate
  split
  · exact manage_exits_yes_optstep cfg v now qm _ _ m herr
  · exact OptStep.rfl _

theorem exit_gate_no_optstep (cfg : Config) (v : Venue) (now : ℚ) (qm : QuotedMarket)
    (yes_bal no_bal : Option ℚ) (m : ℚ)
    (herr : ∃ b, v.placeNoExit = PlaceResult.error b) :
    OptStep qm.no_exit_order_id
      (exit_gate cfg v now qm yes_bal no_bal m).1.no_exit_order_id := by
  unfold exit_gate
  split
  · exact manage_exits_no_optstep cfg v now qm _ _ m herr
  · exact OptStep.rfl _

theorem inventory_track_ids_keep (cfg : Config) (now m : ℚ) (yes_bal no_bal : Option ℚ)
    (qm : QuotedMarket)
    (hstale : ¬ (¬ (hasInv cfg yes_bal ∨ hasInv cfg no_bal) ∧
      (qm.yes_exit_order_id ≠ none ∨ qm.no_exit_order_id ≠ none))) :
    (inventory_track cfg now m yes_bal no_bal qm).1.bid_order_id = qm.bid_order_id ∧
    (inventory_track cfg now m yes_bal no_bal qm).1.ask_order_id = qm.ask_order_id ∧
    (inventory_track cfg now m yes_bal no_bal qm).1.yes_exit_order_id =
      qm.yes_exit_order_id ∧
    (inventory_track cfg now m yes_bal no_bal qm).1.no_exit_order_id =
      qm.no_exit_order_id := by
  unfold inventory_track
  split
  · simp
  · split
    · rename_i hninv
      have hye : qm.yes_exit_order_id = none := by
        by_contra hc
        exact hstale ⟨hninv, Or.inl hc⟩
      have hne : qm.no_exit_order_id = none := by
        by_contra hc
        exact hstale ⟨hninv, Or.inr hc⟩
      simp only [stale_exit_cleanup]
      rw [if_pos (by simp [someIds, hye, hne])]
      simp [hye, hne]
    · simp

/-- C6 (amended).  (1) When every venue call of a cycle fails, and the
inventory-cleared stale-exit cleanup does not apply (inventory present, or
no exit order resting), all four order-id fields come out of the cycle
exactly as they went in.  (2) For any venue outcome, a failed placement
never records an order id: the corresponding field is either untouched or
`none` (cleared by a cancellation of that same slot), never a fresh id.
(3) Exceptions, faithful to the source: the stale-exit cleanup clears both
exit ids even when its cancel call failed (see the counterexample), and the
shutdown sweep `cancel_all_quoted` clears every id field before attempting
any cancellation, regardless of the outcome. -/
theorem order_id_preserved_on_failure :
    (∀ (cfg : Config) (venue : Venue) (now : ℚ) (qm : QuotedMarket)
        (yes_bal no_bal mid : Option ℚ),
      AllFail venue →
      ¬ (¬ (hasInv cfg yes_bal ∨ hasInv cfg no_bal) ∧
        (qm.yes_exit_order_id ≠ none ∨ qm.no_exit_order_id ≠ none)) →
      ((process_market_cycle cfg venue now qm yes_bal no_bal mid).1.bid_order_id =
          qm.bid_order_id ∧
        (process_market_cycle cfg venue now qm yes_bal no_bal mid).1.ask_order_id =
          qm.ask_order_id ∧
        (process_market_cycle cfg venue now qm yes_bal no_bal mid).1.yes_exit_order_id =
          qm.yes_exit_order_id ∧
        (process_market_cycle cfg venue now qm yes_bal no_bal mid).1.no_exit_order_id =
          qm.no_exit_order_id)) ∧
    (∀ (cfg : Config) (venue : Venue) (now : ℚ) (qm : QuotedMarket)
        (yes_bal no_bal mid : Option ℚ),
      (∃ b, venue.placeYesExit = PlaceResult.error b) →
      OptStep qm.yes_exit_order_id
        (process_market_cycle cfg venue now qm yes_bal no_bal mid).1.yes_exit_order_id) ∧
    (∀ (cfg : Config) (venue : Venue) (now : ℚ) (qm : QuotedMarket)
        (yes_bal no_bal mid : Option ℚ),
      (∃ b, venue.placeNoExit = PlaceResult.error b) →
      OptStep qm.no_exit_order_id
        (process_market_cycle cfg venue now qm yes_bal no_bal mid).1.no_exit_order_id) ∧
    (∀ (cfg : Config) (venue : Venue) (now : ℚ) (qm : QuotedMarket)
        (yes_bal no_bal mid : Option ℚ),
      (∃ b, venue.placeBid = PlaceResult.error b) →
      OptStep qm.bid_order_id
        (process_market_cycle cfg venue now qm yes_bal no_bal mid).1.bid_order_id) ∧
    (∀ (cfg : Config) (venue : Venue) (now : ℚ) (qm : QuotedMarket)
        (yes_bal no_bal mid : Option ℚ),
      (∃ b, venue.placeAsk = PlaceResult.error b) →
      OptStep qm.ask_order_id
        (process_market_cycle cfg venue now qm yes_bal no_bal mid).1.ask_order_id) ∧
    (∀ (bulkOk : Bool) (qms : List QuotedMarket),
      (cancel_all_quoted bulkOk qms).1 = qms.map (fun qm =>
        { qm with
           bid_order_id := none
           ask_order_id := none
           yes_exit_order_id := none
           no_exit_order_id := none })) := by
  have exit_gate_allfail_ids : ∀ (cfg : Config) (v : Venue) (now : ℚ)
      (qm : QuotedMarket) (y n : Option ℚ) (m : ℚ), AllFail v →
      (exit_gate cfg v now qm y n m).1.bid_order_id = qm.bid_order_id ∧
      (exit_gate cfg v now qm y n m).1.ask_order_id = qm.ask_order_id ∧
      (exit_gate cfg v now qm y n m).1.yes_exit_order_id = qm.yes_exit_order_id ∧
      (exit_gate cfg v now qm y n m).1.no_exit_order_id = qm.no_exit_order_id := by
    intro cfg v now qm y n m hAF
    unfold exit_gate
    split
    · exact manage_exits_allfail_ids cfg v now qm _ _ m hAF
    · exact ⟨rfl, rfl, rfl, rfl⟩
  refine ⟨?_, ?_, ?_, ?_, ?_, ?_⟩
  · intro cfg venue now qm y n mid hAF hstale
    simp only [process_market_cycle]
    split
    · exact ⟨rfl, rfl, rfl, rfl⟩
    · split
      · exact ⟨rfl, rfl, rfl, rfl⟩
      · split
        · rw [hAF.1, cancel_quoted_fail]
          exact ⟨rfl, rfl, rfl, rfl⟩
        · rename_i m hm
          obtain ⟨i1, i2, i3, i4⟩ := inventory_track_ids_keep cfg now m y n qm hstale
          have hq := quote_phase_allfail cfg venue m (!decide (hasInv cfg y))
            (!decide (hasInv cfg n)) (inventory_track cfg now m y n qm).1 hAF
          obtain ⟨g1, g2, g3, g4⟩ := exit_gate_allfail_ids cfg venue now
            (quote_phase cfg venue m (!decide (hasInv cfg y)) (!decide (hasInv cfg n))
              (inventory_track cfg now m y n qm).1).1 y n m hAF
          exact ⟨g1.trans ((congrArg QuotedMarket.bid_order_id hq).trans i1),
            g2.trans ((congrArg QuotedMarket.ask_order_id hq).trans i2),
            g3.trans ((congrArg QuotedMarket.yes_exit_order_id hq).trans i3),
            g4.trans ((congrArg QuotedMarket.no_exit_order_id hq).trans i4)⟩
  · intro cfg venue now qm y n mid herr
    simp only [process_market_cycle]
    split
    · exact Or.inl rfl
    · split
      · exact Or.inl rfl
      · split
        · exact (cancel_quoted_ids_optstep _ qm).2.2.1
        · rename_i m hm
          have t1 := (inventory_track_exit_optstep cfg now m y n qm).1
          have t2 := (quote_phase_frame cfg venue m (!decide (hasInv cfg y))
            (!decide (hasInv cfg n)) (inventory_track cfg now m y n qm).1).2.2.2.1
          have t3 := exit_gate_yes_optstep cfg venue now
            (quote_phase cfg venue m (!decide (hasInv cfg y)) (!decide (hasInv cfg n))
              (inventory_track cfg now m y n qm).1).1 y n m herr
          exact (t1.trans (Or.inl t2)).trans t3
  · intro cfg venue now qm y n mid herr
    simp only [process_market_cycle]
    split
    · exact Or.inl rfl
    · split
      · exact Or.inl rfl
      · split
        · exact (cancel_quoted_ids_optstep _ qm).2.2.2
        · rename_i m hm
          have t1 := (inventory_track_exit_optstep cfg now m y n qm).2
          have t2 := (quote_phase_frame cfg venue m (!decide (hasInv cfg y))
            (!decide (hasInv cfg n)) (inventory_track cfg now m y n qm).1).2.2.2.2.1
          have t3 := exit_gate_no_optstep cfg venue now
            (quote_phase cfg venue m (!decide (hasInv cfg y)) (!decide (hasInv cfg n))
              (inventory_track cfg now m y n qm).1).1 y n m herr
          exact (t1.trans (Or.inl t2)).trans t3
  · intro cfg venue now qm y n mid herr
    simp only [process_market_cycle]
    split
    · exact Or.inl rfl
    · split
      · exact Or.inl rfl
      · split
        · exact (cancel_quoted_ids_optstep _ qm).1
        · rename_i m hm
          have t1 : (inventory_track cfg now m y n qm).1.bid_order_id =
              qm.bid_order_id := (inventory_track_keep cfg now m y n qm).2.1
          have t2 := quote_phase_bid_optstep cfg venue m (!decide (hasInv cfg y))
            (!decide (hasInv cfg n)) (inventory_track cfg now m y n qm).1 herr
          have t3 := (exit_gate_frame cfg venue now
            (quote_phase cfg venue m (!decide (hasInv cfg y)) (!decide (hasInv cfg n))
              (inventory_track cfg now m y n qm).1).1 y n m).2.2.2.1
          exact OptStep.trans (OptStep.trans (Or.inl t1) t2) (Or.inl t3)
  · intro cfg venue now qm y n mid herr
    simp only [process_market_cycle]
    split
    · exact Or.inl rfl
    · split
      · exact Or.inl rfl
      · split
        · exact (cancel_quoted_ids_optstep _ qm).2.1
        · rename_i m hm
          have t1 : (inventory_track cfg now m y n qm).1.ask_order_id =
              qm.ask_order_id := (inventory_track_keep cfg now m y n qm).2.2.1
          have t2 := quote_phase_ask_optstep cfg venue m (!decide (hasInv cfg y))
            (!decide (hasInv cfg n)) (inventory_track cfg now m y n qm).1 herr
          have t3 := (exit_gate_frame cfg venue now
            (quote_phase cfg venue m (!decide (hasInv cfg y)) (!decide (hasInv cfg n))
              (inventory_track cfg now m y n qm).1).1 y n m).2.2.2.2.1
          exact OptStep.trans (OptStep.trans (Or.inl t1) t2) (Or.inl t3)
  · intro bulkOk qms
    simp only [cancel_all_quoted]
    repeat' split
    all_goals rfl

/-- C6 (witness): on an all-failing venue with no stale-exit cleanup, the
bid id of a state with a resting bid survives the cycle. -/
theorem order_id_preserved_on_failure_witness :
    AllFail failVenue ∧
    (process_market_cycle defaultConfig failVenue 0 c4qm (some 0) (some 0)
      (some (1/2))).1.bid_order_id = c4qm.bid_order_id :=
  ⟨allFail_failVenue,
   (order_id_preserved_on_failure.1 defaultConfig failVenue 0 c4qm (some 0) (some 0)
     (some (1/2)) allFail_failVenue (fun h => by
       rcases h.2 with h2 | h2
       · exact h2 (by simp [c4qm])
       · exact h2 (by simp [c4qm]))).1⟩

/-- C6 (counterexample): inventory has cleared (both balances observed `0`)
while a YES exit order rests; the stale-exit cleanup's cancel call fails
(`cancelStaleExits = false` on the all-failing venue), and the exit-order
id is nevertheless cleared — the cancel was issued, failed, and the slot
was not left as it was, refuting the claim for this call site. -/
theorem stale_exit_clear_on_failure_cex :
    failVenue.cancelStaleExits = false ∧
    c5qm.yes_exit_order_id = some "e1" ∧
    (process_market_cycle defaultConfig failVenue 0 c5qm (some 0) (some 0)
      (some (1/2))).1.yes_exit_order_id = none ∧
    Action.cancel ["e1"] ∈
      (process_market_cycle defaultConfig failVenue 0 c5qm (some 0) (some 0)
        (some (1/2))).2 := by
  have h1 : inventory_track defaultConfig 0 (1/2) (some 0) (some 0) c5qm =
      (freshQm, [Action.cancel ["e1"]]) := by
    rw [inventory_track,
      if_neg (fun h => by
        rcases h.1 with h2 | h2 <;> norm_num [hasInv, defaultConfig] at h2),
      if_pos (fun h => by
        rcases h with h2 | h2 <;> norm_num [hasInv, defaultConfig] at h2)]
    simp only [stale_exit_cleanup]
    rw [if_neg (by simp [someIds, c5qm])]
    simp [someIds, c5qm, freshQm, mkMarket]
  have hearly : ¬ (¬ (hasInv defaultConfig (some (0:ℚ)) ∨
      hasInv defaultConfig (some (0:ℚ))) ∧
      ((some (0:ℚ)) = none ∨ (some (0:ℚ)) = none) ∧
      (c5qm.yes_exit_order_id ≠ none ∨ c5qm.no_exit_order_id ≠ none)) := by
    intro h
    rcases h.2.1 with h2 | h2 <;> simp at h2
  refine ⟨rfl, rfl, ?_, ?_⟩
  · simp only [process_market_cycle]
    rw [if_neg hearly, if_neg (by norm_num [defaultConfig]), h1]
    rw [exit_gate, if_neg (fun h => by
      rcases h.1 with h2 | h2 <;> norm_num [hasInv, defaultConfig] at h2)]
    rw [(quote_phase_frame _ _ _ _ _ _).2.2.2.1]
    rfl
  · simp only [process_market_cycle]
    rw [if_neg hearly, if_neg (by norm_num [defaultConfig]), h1]
    simp only [List.mem_append]
    left
    left
    simp

/-! ### C9: benign exit-placement failures and the cooldown -/

theorem quote_phase_acts_shape (cfg : Config) (v : Venue) (m : ℚ) (wb wa : Bool)
    (qm0 : QuotedMarket) :
    ∀ a ∈ (quote_phase cfg v m wb wa qm0).2,
      (∃ ids, a = Action.cancel ids) ∨ (∃ tok p s, a = Action.place tok "BUY" p s) := by
  intro a ha
  simp only [quote_phase] at ha
  split at ha
  · simp only [List.mem_append] at ha
    rcases ha with (((h | h) | h) | h) | h
    · exact Or.inl (cancel_bid_site_acts _ _ _ _ h)
    · exact Or.inl (cancel_ask_site_acts _ _ _ _ h)
    · exact Or.inl (refresh_cancel_site_acts _ _ _ _ h)
    · obtain ⟨p, s, hh⟩ := place_bid_site_acts _ _ _ _ _ _ h
      exact Or.inr ⟨_, p, s, hh⟩
    · obtain ⟨p, s, hh⟩ := place_ask_site_acts _ _ _ _ _ _ h
      exact Or.inr ⟨_, p, s, hh⟩
  · simp only [List.mem_append] at ha
    rcases ha with h | h
    · exact Or.inl (cancel_bid_site_acts _ _ _ _ h)
    · exact Or.inl (cancel_ask_site_acts _ _ _ _ h)

theorem inventory_track_inv_keep (cfg : Config) (now m : ℚ) (yes_bal no_bal : Option ℚ)
    (qm : QuotedMarket) (hinv : hasInv cfg yes_bal ∨ hasInv cfg no_bal) :
    (inventory_track cfg now m yes_bal no_bal qm).1.exit_cooldown_until =
      qm.exit_cooldown_until ∧
    (inventory_track cfg now m yes_bal no_bal qm).1.yes_exit_order_id =
      qm.yes_exit_order_id ∧
    (inventory_track cfg now m yes_bal no_bal qm).1.no_exit_order_id =
      qm.no_exit_order_id := by
  unfold inventory_track
  by_cases h1 : (hasInv cfg yes_bal ∨ hasInv cfg no_bal) ∧ qm.inventory_since = none
  · rw [if_pos h1]
    simp
  · rw [if_neg h1, if_neg (fun h => h hinv)]
    exact ⟨rfl, rfl, rfl⟩

theorem place_no_exit_site_cooldown (cfg : Config) (v : Venue) (now : ℚ)
    (qm : QuotedMarket) (no_bal m : ℚ) :
    (place_no_exit_site cfg v now qm no_bal m).1.exit_cooldown_until =
        qm.exit_cooldown_until ∨
    (place_no_exit_site cfg v now qm no_bal m).1.exit_cooldown_until = now + 5 := by
  unfold place_no_exit_site
  repeat' split
  all_goals simp

theorem manage_exits_benign_yes (cfg : Config) (v : Venue) (now : ℚ)
    (qm : QuotedMarket) (ybal nbal m : ℚ)
    (hye : qm.yes_exit_order_id = none) (hne : qm.no_exit_order_id = none)
    (hyb : cfg.INVENTORY_MIN_SHARES ≤ ybal)
    (hv : v.placeYesExit = PlaceResult.error true) :
    (manage_exits cfg v now qm ybal nbal m).1.exit_cooldown_until = now + 5 ∧
    (cfg.INVENTORY_MIN_SHARES ≤ nbal →
      ∃ p s, Action.place qm.market.no_token_id "SELL" p s ∈
        (manage_exits cfg v now qm ybal nbal m).2) := by
  simp only [manage_exits]
  rw [exit_refresh_site, if_neg (by simp [hye, hne])]
  rw [place_yes_exit_site, if_pos ⟨hyb, hye⟩, hv]
  dsimp only
  rw [if_pos rfl]
  constructor
  · rcases place_no_exit_site_cooldown cfg v now
      { qm with exit_cooldown_until := now + 5 } nbal m with h | h
    · rw [h]
    · rw [h]
  · intro hnb
    rw [place_no_exit_site, if_pos ⟨hnb, by simp [hne]⟩]
    dsimp only
    exact ⟨compute_exit_price cfg qm.market m (qm.inventory_since.getD 0) qm.entry_mid
      qm.entry_ask_price "NO" now, (⌊nbal * 100⌋ : ℚ) / 100, by simp⟩

/-- C9 (amended).  A benign (balance/allowance) failure of one side's exit
placement sets the SHARED cooldown `exit_cooldown_until = now + 5`; while
`now` is before that cooldown, exit management — including exit placement
for the other side — is entirely suppressed (no SELL order of any token is
placed in a cycle).  Within the same failing cycle, the other side's exit
placement is still attempted after the failure.  (The original claim said
the other side is not suppressed by the cooldown; the cooldown gates both
sides on subsequent cycles — see the counterexample.) -/
theorem benign_exit_failure_cooldown :
    (∀ (cfg : Config) (venue : Venue) (now : ℚ) (qm : QuotedMarket)
        (yes_bal no_bal mid : Option ℚ) (tok : String) (p s : ℚ),
      now < qm.exit_cooldown_until →
      Action.place tok "SELL" p s ∉
        (process_market_cycle cfg venue now qm yes_bal no_bal mid).2) ∧
    (∀ (cfg : Config) (venue : Venue) (now : ℚ) (qm : QuotedMarket) (yb nb m : ℚ),
      cfg.INVENTORY_MIN_SHARES ≤ yb →
      ¬ m < cfg.MIN_QUOTABLE_MID →
      qm.exit_cooldown_until ≤ now →
      qm.yes_exit_order_id = none → qm.no_exit_order_id = none →
      venue.placeYesExit = PlaceResult.error true →
      ((process_market_cycle cfg venue now qm (some yb) (some nb)
          (some m)).1.exit_cooldown_until = now + 5 ∧
       (cfg.INVENTORY_MIN_SHARES ≤ nb →
        ∃ p s, Action.place qm.market.no_token_id "SELL" p s ∈
          (process_market_cycle cfg venue now qm (some yb) (some nb) (some m)).2))) := by
  constructor
  · intro cfg venue now qm yes_bal no_bal mid tok p s hnow hmem
    simp only [process_market_cycle] at hmem
    split at hmem
    · simp at hmem
    · split at hmem
      · simp at hmem
      · split at hmem
        · obtain ⟨ids, h⟩ := cancel_quoted_acts _ _ _ hmem
          simp at h
        · rename_i m hm
          simp only [List.mem_append] at hmem
          rcases hmem with (h1 | h2) | h3
          · obtain ⟨ids, h⟩ := inventory_track_acts _ _ _ _ _ _ _ h1
            simp at h
          · rcases quote_phase_acts_shape _ _ _ _ _ _ _ h2 with ⟨ids, h⟩ | ⟨t2, p2, s2, h⟩
            · simp at h
            · injection h with a b c d
              exact absurd b (by decide)
          · by_cases hinv : hasInv cfg yes_bal ∨ hasInv cfg no_bal
            · have hcd : (quote_phase cfg venue m (!decide (hasInv cfg yes_bal))
                  (!decide (hasInv cfg no_bal))
                  (inventory_track cfg now m yes_bal no_bal qm).1).1.exit_cooldown_until =
                  qm.exit_cooldown_until :=
                ((quote_phase_frame _ _ _ _ _ _).2.2.2.2.2.2).trans
                  (inventory_track_inv_keep cfg now m yes_bal no_bal qm hinv).1
              rw [exit_gate, if_neg (fun hc =>
                absurd hc.2 (by rw [hcd]; exact not_le.mpr hnow))] at h3
              simp at h3
            · rw [exit_gate, if_neg (fun hc => hinv hc.1)] at h3
              simp at h3
  · intro cfg venue now qm yb nb m hyb hm hcd hye hne hv
    have hinvy : hasInv cfg (some yb) := hyb
    obtain ⟨k1, k2, k3⟩ := inventory_track_inv_keep cfg now m (some yb) (some nb) qm
      (Or.inl hinvy)
    have f := quote_phase_frame cfg venue m (!decide (hasInv cfg (some yb)))
      (!decide (hasInv cfg (some nb))) (inventory_track cfg now m (some yb) (some nb) qm).1
    have fm : (quote_phase cfg venue m (!decide (hasInv cfg (some yb)))
        (!decide (hasInv cfg (some nb)))
        (inventory_track cfg now m (some yb) (some nb) qm).1).1.market = qm.market :=
      f.1.trans (inventory_track_keep _ _ _ _ _ _).1
    have hmb := manage_exits_benign_yes cfg venue now
      (quote_phase cfg venue m (!decide (hasInv cfg (some yb)))
        (!decide (hasInv cfg (some nb)))
        (inventory_track cfg now m (some yb) (some nb) qm).1).1
      ((some yb).getD 0)
      (if hasInv cfg (some nb) then (some nb).getD 0 else 0) m
      (f.2.2.2.1.trans (k2.trans hye)) (f.2.2.2.2.1.trans (k3.trans hne))
      (by simpa using hyb) hv
    constructor
    · simp only [process_market_cycle]
      rw [if_neg (fun h => h.1 (Or.inl hinvy)), if_neg hm]
      rw [exit_gate, if_pos ⟨Or.inl hinvy, by rw [f.2.2.2.2.2.2, k1]; exact hcd⟩]
      rw [if_pos hinvy]
      exact hmb.1
    · intro hnb
      simp only [process_market_cycle]
      rw [if_neg (fun h => h.1 (Or.inl hinvy)), if_neg hm]
      rw [exit_gate, if_pos ⟨Or.inl hinvy, by rw [f.2.2.2.2.2.2, k1]; exact hcd⟩]
      rw [if_pos hinvy]
      obtain ⟨p, s, hp⟩ := hmb.2 (by
        rw [if_pos (show hasInv cfg (some nb) from hnb)]
        simpa using hnb)
      rw [fm] at hp
      refine ⟨p, s, ?_⟩
      simp only [List.mem_append]
      right
      exact hp

/-- A quote phase with nothing to do: no unwanted resting order, every
wanted side already resting, no drift — no call is issued and the state is
unchanged. -/
theorem quote_phase_quiet (cfg : Config) (v : Venue) (m : ℚ) (wb wa : Bool)
    (qm : QuotedMarket)
    (h1 : wb = false → qm.bid_order_id = none)
    (h2 : wa = false → qm.ask_order_id = none)
    (h3 : wb = true → qm.bid_order_id ≠ none)
    (h4 : wa = true → qm.ask_order_id ≠ none)
    (h5 : (wb = true ∨ wa = true) → ¬ should_refresh cfg qm m) :
    quote_phase cfg v m wb wa qm = (qm, []) := by
  have hcb : cancel_bid_site v wb qm = (qm, []) := by
    unfold cancel_bid_site
    rw [if_neg (fun h => h.2 (h1 h.1))]
  have hca : cancel_ask_site v wa qm = (qm, []) := by
    unfold cancel_ask_site
    rw [if_neg (fun h => h.2 (h2 h.1))]
  have hnb : ¬ needs_bid cfg wb wa qm m := by
    intro h
    rcases h.2 with h6 | h6
    · exact h3 h.1 h6
    · exact h5 (Or.inl h.1) h6.2
  have hna : ¬ needs_ask cfg wb wa qm m := by
    intro h
    rcases h.2 with h6 | h6
    · exact h4 h.1 h6
    · exact h5 (Or.inr h.1) h6.2
  simp only [quote_phase]
  rw [hcb]
  dsimp only
  rw [hca]
  dsimp only
  rw [if_neg (fun h => h.elim hnb hna)]
  simp

/-- Venue for the C9 scenario: everything succeeds except the YES exit
placement, which fails with a balance/allowance (benign) error. -/
def c9venue : Venue :=
  { cancelParked := true, cancelStaleExits := true, cancelBid := true
    cancelAsk := true, cancelRefresh := true
    placeBid := .ok (some "b"), placeAsk := .ok (some "a")
    cancelExitsRefresh := true
    placeYesExit := .error true, placeNoExit := .ok (some "z") }

/-- C9 scenario, initial state: an ask is resting at the current midpoint. -/
def c9q0 : QuotedMarket :=
  { market := mkMarket (1/20) (1/100), ask_order_id := some "a", mid_at_placement := 1/2 }

/-- C9 scenario after inventory stamping. -/
def c9qa : QuotedMarket := { c9q0 with inventory_since := some 1000, entry_mid := 1/2 }

/-- C9 scenario after the benign YES-exit failure: cooldown at 1005. -/
def c9q1 : QuotedMarket := { c9qa with exit_cooldown_until := 1005 }

/-- C9 scenario after the second cycle cancelled the ask. -/
def c9q2 : QuotedMarket := { c9q1 with ask_order_id := none }

/-- C9 (witness): a benign YES-exit failure at `now = 1000` sets the
cooldown to `1005`. -/
theorem benign_exit_failure_cooldown_witness :
    defaultConfig.INVENTORY_MIN_SHARES ≤ (5:ℚ) ∧
    (process_market_cycle defaultConfig c9venue 1000 c9q0 (some 5) (some 5)
      (some (1/2))).1.exit_cooldown_until = 1000 + 5 :=
  ⟨by norm_num [defaultConfig],
   (benign_exit_failure_cooldown.2 defaultConfig c9venue 1000 c9q0 5 5 (1/2)
     (by norm_num [defaultConfig]) (by norm_num [defaultConfig])
     (by simp [c9q0]) rfl rfl rfl).1⟩

/-- C9 (counterexample): cycle one — holding only YES inventory — suffers a
benign YES-exit placement failure at `now = 1000`, setting the shared
cooldown to `1005`; cycle two at `now = 1001`, where NO inventory has
appeared with no NO exit resting, issues only the unwanted-ask cancel and
does NOT place a NO exit: the cooldown set by the YES side's failure
suppresses the other side, refuting the claim that it does not. -/
theorem benign_cooldown_shared_cex :
    process_market_cycle defaultConfig c9venue 1000 c9q0 (some 5) (some 0)
      (some (1/2)) = (c9q1, [Action.place "Y" "SELL" (3/100) 5]) ∧
    process_market_cycle defaultConfig (okVenue "b" "a2" "x" "z") 1001 c9q1 (some 5)
      (some 5) (some (1/2)) = (c9q2, [Action.cancel ["a"]]) ∧
    c9q1.exit_cooldown_until = 1005 ∧
    hasInv defaultConfig (some (5:ℚ)) ∧
    c9q2.no_exit_order_id = none := by
  have hinv5 : hasInv defaultConfig (some (5:ℚ)) := by norm_num [hasInv, defaultConfig]
  have hinv0 : ¬ hasInv defaultConfig (some (0:ℚ)) := by norm_num [hasInv, defaultConfig]
  have hwb : (!decide (hasInv defaultConfig (some (5:ℚ)))) = false := by simp [hinv5]
  have hwa : (!decide (hasInv defaultConfig (some (0:ℚ)))) = true := by simp [hinv0]
  have hman : manage_exits defaultConfig c9venue 1000 c9qa 5 0 (1/2) =
      (c9q1, [Action.place "Y" "SELL" (3/100) 5]) := by
    simp only [manage_exits]
    rw [exit_refresh_site, if_neg (by simp [c9qa, c9q0])]
    dsimp only
    rw [place_yes_exit_site, if_pos
      ⟨(by norm_num [defaultConfig] : defaultConfig.INVENTORY_MIN_SHARES ≤ (5:ℚ)),
       (by simp [c9qa, c9q0] : c9qa.yes_exit_order_id = none)⟩]
    have hep : compute_exit_price defaultConfig c9qa.market (1/2)
        (c9qa.inventory_since.getD 0) c9qa.entry_mid c9qa.entry_bid_price "YES" 1000 =
        3/100 := by
      norm_num [compute_exit_price, round_to_tick, round4, roundHalfEven, clamp,
        c9qa, c9q0, mkMarket, defaultConfig, min_def]
    rw [hep, show c9venue.placeYesExit = PlaceResult.error true from rfl]
    dsimp only
    rw [if_pos rfl]
    rw [place_no_exit_site, if_neg (fun h => absurd h.1 (by norm_num [defaultConfig]))]
    dsimp only
    simp only [Prod.mk.injEq]
    constructor
    · norm_num [c9q1]
    · norm_num [c9qa, c9q0, mkMarket]

  have hc1 : process_market_cycle defaultConfig c9venue 1000 c9q0 (some 5) (some 0)
      (some (1/2)) = (c9q1, [Action.place "Y" "SELL" (3/100) 5]) := by
    simp only [process_market_cycle]
    rw [if_neg (fun h => h.1 (Or.inl hinv5)), if_neg (by norm_num [defaultConfig])]
    rw [show inventory_track defaultConfig 1000 (1/2) (some 5) (some 0) c9q0 =
        (c9qa, []) from by
      rw [inventory_track, if_pos ⟨Or.inl hinv5, rfl⟩]
      rfl]
    rw [hwb, hwa]
    try dsimp only
    rw [quote_phase_quiet defaultConfig c9venue (1/2) false true c9qa
      (fun _ => rfl) (fun h => absurd h (by decide)) (fun h => absurd h (by decide))
      (fun _ => by simp [c9qa, c9q0])
      (fun _ => by norm_num [should_refresh, c9qa, c9q0, defaultConfig])]
    dsimp only
    rw [exit_gate, if_pos ⟨Or.inl hinv5, by
      rw [show c9qa.exit_cooldown_until = 0 from rfl]
      norm_num⟩]
    rw [if_pos hinv5, if_neg hinv0]
    exact hman

  have hq2 : quote_phase defaultConfig (okVenue "b" "a2" "x" "z") (1/2) false false
      c9q1 = (c9q2, [Action.cancel ["a"]]) := by
    have hcb : cancel_bid_site (okVenue "b" "a2" "x" "z") false c9q1 = (c9q1, []) := by
      unfold cancel_bid_site
      rw [if_neg (fun h => h.2 rfl)]
    have hca : cancel_ask_site (okVenue "b" "a2" "x" "z") false c9q1 =
        (c9q2, [Action.cancel ["a"]]) := by
      unfold cancel_ask_site
      rw [if_pos ⟨rfl, by simp [c9q1, c9qa, c9q0]⟩]
      rw [show (okVenue "b" "a2" "x" "z").cancelAsk = true from rfl]
      rw [if_pos rfl]
      simp [someIds, c9q1, c9q2, c9qa, c9q0]
    simp only [quote_phase]
    rw [hcb]
    try dsimp only
    rw [hca]
    try dsimp only
    rw [if_neg (fun h => by
      rcases h with h | h
      · exact absurd h.1 (by decide)
      · exact absurd h.1 (by decide))]
    simp

  have hc2 : process_market_cycle defaultConfig (okVenue "b" "a2" "x" "z") 1001 c9q1
      (some 5) (some 5) (some (1/2)) = (c9q2, [Action.cancel ["a"]]) := by
    simp only [process_market_cycle]
    rw [if_neg (fun h => h.1 (Or.inl hinv5)), if_neg (by norm_num [defaultConfig])]
    rw [show inventory_track defaultConfig 1001 (1/2) (some 5) (some 5) c9q1 =
        (c9q1, []) from by
      rw [inventory_track, if_neg (fun h => by simpa [c9q1, c9qa, c9q0] using h.2),
        if_neg (fun h => h (Or.inl hinv5))]]
    rw [hwb]
    try dsimp only
    rw [hq2]
    try dsimp only
    rw [exit_gate, if_neg (fun h => absurd h.2 (by
      rw [show c9q2.exit_cooldown_until = 1005 from rfl]
      norm_num))]
    simp

  exact ⟨hc1, hc2, rfl, hinv5, rfl⟩

/-! ### C10: exit refresh decides from the YES side against the shared
placed price -/

/-- C10.  (a) When a YES exit order and a NO exit order are both resting,
the refresh decision compares the YES side's recomputed target against the
single shared `exit_price_placed` field: if they differ by at least one
tick, one cancel call naming both exit ids together is issued; if they
differ by less than one tick, `_manage_exits` does nothing at all (the NO
side's own target is never consulted).  (b) When both exits are placed in
the same call, `exit_price_placed` ends up holding the NO exit's price —
the most recently placed one. -/
theorem exit_refresh_yes_side_shared_price :
    (∀ (cfg : Config) (venue : Venue) (now : ℚ) (qm : QuotedMarket) (ybal nbal m : ℚ)
        (y n : String),
      qm.yes_exit_order_id = some y → qm.no_exit_order_id = some n →
      ((qm.market.tick_size ≤
          |compute_exit_price cfg qm.market m (qm.inventory_since.getD 0) qm.entry_mid
            qm.entry_bid_price "YES" now - qm.exit_price_placed| →
        Action.cancel [y, n] ∈ (manage_exits cfg venue now qm ybal nbal m).2) ∧
       (|compute_exit_price cfg qm.market m (qm.inventory_since.getD 0) qm.entry_mid
            qm.entry_bid_price "YES" now - qm.exit_price_placed| < qm.market.tick_size →
        manage_exits cfg venue now qm ybal nbal m = (qm, [])))) ∧
    (∀ (cfg : Config) (venue : Venue) (now : ℚ) (qm : QuotedMarket) (ybal nbal m : ℚ)
        (oy onid : Option String),
      qm.yes_exit_order_id = none → qm.no_exit_order_id = none →
      cfg.INVENTORY_MIN_SHARES ≤ ybal → cfg.INVENTORY_MIN_SHARES ≤ nbal →
      venue.placeYesExit = PlaceResult.ok oy → venue.placeNoExit = PlaceResult.ok onid →
      (manage_exits cfg venue now qm ybal nbal m).1.exit_price_placed =
        compute_exit_price cfg qm.market m (qm.inventory_since.getD 0) qm.entry_mid
          qm.entry_ask_price "NO" now) := by
  constructor
  · intro cfg venue now qm ybal nbal m y n hy hn
    have htarget : exit_refresh_target cfg now qm m =
        compute_exit_price cfg qm.market m (qm.inventory_since.getD 0) qm.entry_mid
          qm.entry_bid_price "YES" now := by
      unfold exit_refresh_target
      rw [if_pos (by simp [hy])]
    constructor
    · intro hfire
      simp only [manage_exits, List.mem_append]
      left
      left
      unfold exit_refresh_site
      rw [if_pos (Or.inl (by simp [hy])), htarget, if_pos hfire]
      simp [someIds, hy, hn]
    · intro hq
      have h1 : exit_refresh_site cfg venue now qm m = (qm, []) := by
        unfold exit_refresh_site
        rw [if_pos (Or.inl (by simp [hy])), htarget, if_neg (not_le.mpr hq)]
      have h2 : place_yes_exit_site cfg venue now qm ybal m = (qm, []) := by
        unfold place_yes_exit_site
        rw [if_neg (fun h => by simp [hy] at h)]
      have h3 : place_no_exit_site cfg venue now qm nbal m = (qm, []) := by
        unfold place_no_exit_site
        rw [if_neg (fun h => by simp [hn] at h)]
      simp only [manage_exits]
      rw [h1]
      try dsimp only
      rw [h2]
      try dsimp only
      rw [h3]
      simp
  · intro cfg venue now qm ybal nbal m oy onid hye hne hyb hnb hvy hvn
    have h1 : exit_refresh_site cfg venue now qm m = (qm, []) := by
      unfold exit_refresh_site
      rw [if_neg (by simp [hye, hne])]
    simp only [manage_exits]
    rw [h1]
    try dsimp only
    rw [place_yes_exit_site, if_pos ⟨hyb, hye⟩, hvy]
    dsimp only
    rw [place_no_exit_site, if_pos ⟨hnb, by simp [hne]⟩, hvn]

/-- A state with both exit orders resting and the YES target equal to the
shared placed price. -/
def c10qm : QuotedMarket :=
  { market := mkMarket (1/20) (1/100), yes_exit_order_id := some "x"
    no_exit_order_id := some "z", inventory_since := some 0, entry_mid := 1/2
    entry_bid_price := 47/100, exit_price_placed := 1/2 }

/-- C10 (witness): with both exits resting and the YES target on the
placed price, `_manage_exits` is a no-op regardless of the NO side. -/
theorem exit_refresh_yes_side_shared_price_witness :
    c10qm.yes_exit_order_id = some "x" ∧
    manage_exits defaultConfig (okVenue "b" "a" "x" "z") 0 c10qm 5 5 (1/2) =
      (c10qm, []) :=
  ⟨rfl,
   ((exit_refresh_yes_side_shared_price.1 defaultConfig (okVenue "b" "a" "x" "z") 0
     c10qm 5 5 (1/2) "x" "z" rfl rfl).2 (by
       norm_num [compute_exit_price, round_to_tick, round4, roundHalfEven, clamp,
         c10qm, mkMarket, defaultConfig, min_def]))⟩

/-! ### C7: idempotence of the cycle under unchanged inputs -/

/-- A venue on which, during one cycle, every attempted cancellation
succeeds and every attempted placement succeeds with an order id. -/
def VenueOk (v : Venue) : Prop :=
  v.cancelParked = true ∧ v.cancelBid = true ∧ v.cancelAsk = true ∧
  v.cancelRefresh = true ∧ v.cancelExitsRefresh = true ∧
  (∃ i, v.placeBid = PlaceResult.ok (some i)) ∧
  (∃ i, v.placeAsk = PlaceResult.ok (some i)) ∧
  (∃ i, v.placeYesExit = PlaceResult.ok (some i)) ∧
  (∃ i, v.placeNoExit = PlaceResult.ok (some i))

theorem okVenue_ok (b a y n : String) : VenueOk (okVenue b a y n) :=
  ⟨rfl, rfl, rfl, rfl, rfl, ⟨b, rfl⟩, ⟨a, rfl⟩, ⟨y, rfl⟩, ⟨n, rfl⟩⟩

theorem someIds_pair_eq_nil {a b : Option String} (h : someIds [a, b] = []) :
    a = none ∧ b = none := by
  cases a <;> cases b <;> simp_all [someIds]

theorem someIds_quad_eq_nil {a b c d : Option String}
    (h : someIds [a, b, c, d] = []) :
    a = none ∧ b = none ∧ c = none ∧ d = none := by
  cases a <;> cases b <;> cases c <;> cases d <;> simp_all [someIds]

theorem cancel_bid_site_ok (v : Venue) (qm : QuotedMarket) (hs : v.cancelBid = true) :
    (cancel_bid_site v false qm).1 = { qm with bid_order_id := none } := by
  unfold cancel_bid_site
  by_cases h : qm.bid_order_id ≠ none
  · rw [if_pos ⟨rfl, h⟩, if_pos hs]
  · rw [if_neg (fun h2 => h h2.2)]
    push_neg at h
    cases qm
    simp_all

theorem cancel_bid_site_skip (v : Venue) (qm : QuotedMarket) :
    cancel_bid_site v true qm = (qm, []) := by
  unfold cancel_bid_site
  rw [if_neg (fun h => absurd h.1 (by decide))]

theorem cancel_ask_site_ok (v : Venue) (qm : QuotedMarket) (hs : v.cancelAsk = true) :
    (cancel_ask_site v false qm).1 = { qm with ask_order_id := none } := by
  unfold cancel_ask_site
  by_cases h : qm.ask_order_id ≠ none
  · rw [if_pos ⟨rfl, h⟩, if_pos hs]
  · rw [if_neg (fun h2 => h h2.2)]
    push_neg at h
    cases qm
    simp_all

theorem cancel_ask_site_skip (v : Venue) (qm : QuotedMarket) :
    cancel_ask_site v true qm = (qm, []) := by
  unfold cancel_ask_site
  rw [if_neg (fun h => absurd h.1 (by decide))]

theorem refresh_cancel_site_off (v : Venue) (qm : QuotedMarket) :
    refresh_cancel_site v false qm = (qm, []) := by
  unfold refresh_cancel_site
  rw [if_neg (fun h => absurd h (by decide))]

theorem refresh_cancel_site_ok (v : Venue) (qm : QuotedMarket)
    (hs : v.cancelRefresh = true) :
    (refresh_cancel_site v true qm).1 =
      { qm with bid_order_id := none, ask_order_id := none } := by
  unfold refresh_cancel_site
  rw [if_pos rfl]
  by_cases h : someIds [qm.bid_order_id, qm.ask_order_id] = []
  · rw [if_pos h]
    obtain ⟨h1, h2⟩ := someIds_pair_eq_nil h
    cases qm
    simp_all
  · rw [if_neg h, if_pos hs]

theorem place_bid_site_ok (cfg : Config) (v : Venue) (m : ℚ) (qm : QuotedMarket)
    (i : String) (hs : v.placeBid = PlaceResult.ok (some i))
    (hb : qm.bid_order_id = none) :
    (place_bid_site cfg v m true qm).1 =
      { qm with
          bid_order_id := some i
          entry_bid_price := (compute_quotes cfg qm.market m).1
          mid_at_placement := m } := by
  unfold place_bid_site
  rw [if_pos ⟨rfl, hb⟩, hs]

theorem place_bid_site_resting (cfg : Config) (v : Venue) (m : ℚ) (need : Bool)
    (qm : QuotedMarket) (hb : qm.bid_order_id ≠ none) :
    place_bid_site cfg v m need qm = (qm, []) := by
  unfold place_bid_site
  rw [if_neg (fun h => hb h.2)]

theorem place_ask_site_not_needed (cfg : Config) (v : Venue) (m : ℚ)
    (qm : QuotedMarket) : place_ask_site cfg v m false qm = (qm, []) := by
  unfold place_ask_site
  simp

theorem place_ask_site_ok (cfg : Config) (v : Venue) (m : ℚ) (qm : QuotedMarket)
    (i : String) (hs : v.placeAsk = PlaceResult.ok (some i))
    (hb : qm.ask_order_id = none) :
    (place_ask_site cfg v m true qm).1 =
      { qm with
          ask_order_id := some i
          entry_ask_price := (compute_quotes cfg qm.market m).2
          mid_at_placement := m } := by
  unfold place_ask_site
  rw [if_pos ⟨rfl, hb⟩, hs]

theorem place_ask_site_resting (cfg : Config) (v : Venue) (m : ℚ) (need : Bool)
    (qm : QuotedMarket) (hb : qm.ask_order_id ≠ none) :
    place_ask_site cfg v m need qm = (qm, []) := by
  unfold place_ask_site
  rw [if_neg (fun h => hb h.2)]

theorem exit_refresh_site_idle (cfg : Config) (v : Venue) (now : ℚ)
    (qm : QuotedMarket) (m : ℚ)
    (h : ¬ qm.market.tick_size ≤
      |exit_refresh_target cfg now qm m - qm.exit_price_placed|) :
    exit_refresh_site cfg v now qm m = (qm, []) := by
  unfold exit_refresh_site
  by_cases hp : qm.yes_exit_order_id ≠ none ∨ qm.no_exit_order_id ≠ none
  · rw [if_pos hp, if_neg h]
  · rw [if_neg hp]

theorem exit_refresh_site_absent (cfg : Config) (v : Venue) (now : ℚ)
    (qm : QuotedMarket) (m : ℚ) (hy : qm.yes_exit_order_id = none)
    (hn : qm.no_exit_order_id = none) :
    exit_refresh_site cfg v now qm m = (qm, []) := by
  unfold exit_refresh_site
  rw [if_neg (by simp [hy, hn])]

theorem exit_refresh_site_fire (cfg : Config) (v : Venue) (now : ℚ)
    (qm : QuotedMarket) (m : ℚ) (hs : v.cancelExitsRefresh = true)
    (hp : qm.yes_exit_order_id ≠ none ∨ qm.no_exit_order_id ≠ none)
    (hf : qm.market.tick_size ≤
      |exit_refresh_target cfg now qm m - qm.exit_price_placed|) :
    (exit_refresh_site cfg v now qm m).1 =
      { qm with yes_exit_order_id := none, no_exit_order_id := none } := by
  unfold exit_refresh_site
  rw [if_pos hp, if_pos hf, if_pos hs]

theorem place_yes_exit_site_ok (cfg : Config) (v : Venue) (now : ℚ)
    (qm : QuotedMarket) (ybal m : ℚ) (i : String)
    (hs : v.placeYesExit = PlaceResult.ok (some i))
    (hb : cfg.INVENTORY_MIN_SHARES ≤ ybal) (hy : qm.yes_exit_order_id = none) :
    (place_yes_exit_site cfg v now qm ybal m).1 =
      { qm with
          yes_exit_order_id := some i
          exit_price_placed := compute_exit_price cfg qm.market m
            (qm.inventory_since.getD 0) qm.entry_mid qm.entry_bid_price "YES" now } := by
  unfold place_yes_exit_site
  rw [if_pos ⟨hb, hy⟩, hs]

theorem place_yes_exit_site_low (cfg : Config) (v : Venue) (now : ℚ)
    (qm : QuotedMarket) (ybal m : ℚ) (hb : ¬ cfg.INVENTORY_MIN_SHARES ≤ ybal) :
    place_yes_exit_site cfg v now qm ybal m = (qm, []) := by
  unfold place_yes_exit_site
  rw [if_neg (fun h => hb h.1)]

theorem place_yes_exit_site_resting (cfg : Config) (v : Venue) (now : ℚ)
    (qm : QuotedMarket) (ybal m : ℚ) (hy : qm.yes_exit_order_id ≠ none) :
    place_yes_exit_site cfg v now qm ybal m = (qm, []) := by
  unfold place_yes_exit_site
  rw [if_neg (fun h => hy h.2)]

theorem place_no_exit_site_ok (cfg : Config) (v : Venue) (now : ℚ)
    (qm : QuotedMarket) (nbal m : ℚ) (i : String)
    (hs : v.placeNoExit = PlaceResult.ok (some i))
    (hb : cfg.INVENTORY_MIN_SHARES ≤ nbal) (hn : qm.no_exit_order_id = none) :
    (place_no_exit_site cfg v now qm nbal m).1 =
      { qm with
          no_exit_order_id := some i
          exit_price_placed := compute_exit_price cfg qm.market m
            (qm.inventory_since.getD 0) qm.entry_mid qm.entry_ask_price "NO" now } := by
  unfold place_no_exit_site
  rw [if_pos ⟨hb, hn⟩, hs]

theorem place_no_exit_site_low (cfg : Config) (v : Venue) (now : ℚ)
    (qm : QuotedMarket) (nbal m : ℚ) (hb : ¬ cfg.INVENTORY_MIN_SHARES ≤ nbal) :
    place_no_exit_site cfg v now qm nbal m = (qm, []) := by
  unfold place_no_exit_site
  rw [if_neg (fun h => hb h.1)]

theorem place_no_exit_site_resting (cfg : Config) (v : Venue) (now : ℚ)
    (qm : QuotedMarket) (nbal m : ℚ) (hn : qm.no_exit_order_id ≠ none) :
    place_no_exit_site cfg v now qm nbal m = (qm, []) := by
  unfold place_no_exit_site
  rw [if_neg (fun h => hn h.2)]

theorem cancel_quoted_ok_clears (qm : QuotedMarket) :
    (cancel_quoted true qm).1.bid_order_id = none ∧
    (cancel_quoted true qm).1.ask_order_id = none ∧
    (cancel_quoted true qm).1.yes_exit_order_id = none ∧
    (cancel_quoted true qm).1.no_exit_order_id = none := by
  simp only [cancel_quoted]
  by_cases h : someIds [qm.bid_order_id, qm.ask_order_id, qm.yes_exit_order_id,
      qm.no_exit_order_id] = []
  · rw [if_pos h]
    exact someIds_quad_eq_nil h
  · rw [if_neg h]
    simp

theorem cancel_quoted_idle (ok : Bool) (qm : QuotedMarket)
    (h1 : qm.bid_order_id = none) (h2 : qm.ask_order_id = none)
    (h3 : qm.yes_exit_order_id = none) (h4 : qm.no_exit_order_id = none) :
    cancel_quoted ok qm = (qm, []) := by
  simp only [cancel_quoted]
  rw [h1, h2, h3, h4, if_pos (show someIds [(none : Option String), none, none, none] =
    ([] : List String) from rfl)]

theorem stale_exit_cleanup_fields (qm : QuotedMarket) :
    (stale_exit_cleanup qm).1.yes_exit_order_id = none ∧
    (stale_exit_cleanup qm).1.no_exit_order_id = none ∧
    (stale_exit_cleanup qm).1.inventory_since = none ∧
    (stale_exit_cleanup qm).1.bid_order_id = qm.bid_order_id ∧
    (stale_exit_cleanup qm).1.ask_order_id = qm.ask_order_id ∧
    (stale_exit_cleanup qm).1.mid_at_placement = qm.mid_at_placement := by
  simp only [stale_exit_cleanup]
  split
  · rename_i h
    obtain ⟨hh1, hh2⟩ := someIds_pair_eq_nil h
    simp [hh1, hh2]
  · simp

theorem should_refresh_self (cfg : Config) (qm : QuotedMarket) (m : ℚ)
    (hmap : qm.mid_at_placement = m) (hthr : 0 ≤ cfg.REFRESH_THRESHOLD_PCT) :
    ¬ should_refresh cfg qm m := by
  unfold should_refresh
  rw [hmap, sub_self, abs_zero, zero_div]
  exact not_lt.mpr hthr

theorem not_needs_bid_elim (cfg : Config) (wa : Bool) (qm : QuotedMarket) (m : ℚ)
    (h : ¬ needs_bid cfg true wa qm m) :
    qm.bid_order_id ≠ none ∧ ¬ needs_refresh cfg true wa qm m :=
  ⟨fun hb => h ⟨rfl, Or.inl hb⟩, fun hr => h ⟨rfl, Or.inr hr⟩⟩

theorem not_needs_ask_elim (cfg : Config) (wb : Bool) (qm : QuotedMarket) (m : ℚ)
    (h : ¬ needs_ask cfg wb true qm m) :
    qm.ask_order_id ≠ none ∧ ¬ needs_refresh cfg wb true qm m :=
  ⟨fun hb => h ⟨rfl, Or.inl hb⟩, fun hr => h ⟨rfl, Or.inr hr⟩⟩

theorem not_refresh_of_not_needs {cfg : Config} {wb wa : Bool} {qm : QuotedMarket}
    {m : ℚ} (hnr : ¬ needs_refresh cfg wb wa qm m)
    (hact : (wb = true ∧ qm.bid_order_id ≠ none) ∨
      (wa = true ∧ qm.ask_order_id ≠ none)) :
    ¬ should_refresh cfg qm m := fun hsr => hnr ⟨hact, hsr⟩

theorem hasInv_getD {cfg : Config} {ob : Option ℚ} (h : hasInv cfg ob) :
    cfg.INVENTORY_MIN_SHARES ≤ ob.getD 0 := by
  cases ob with
  | none => exact h.elim
  | some b => exact h

/-- After one pass of the quote-management block on a venue where every
call succeeds, each side has a resting order exactly when it is wanted,
and (when some side is wanted) the drift check is clean: either nothing
was placed and the check already failed, or a placement refreshed
`mid_at_placement` to the current midpoint. -/
theorem quote_phase_ok_post (cfg : Config) (v : Venue) (m : ℚ) (wb wa : Bool)
    (qm : QuotedMarket) (hv : VenueOk v) (hthr : 0 ≤ cfg.REFRESH_THRESHOLD_PCT) :
    ((quote_phase cfg v m wb wa qm).1.bid_order_id = none ↔ wb = false) ∧
    ((quote_phase cfg v m wb wa qm).1.ask_order_id = none ↔ wa = false) ∧
    ((wb = true ∨ wa = true) →
      ¬ should_refresh cfg (quote_phase cfg v m wb wa qm).1 m) := by
  obtain ⟨hcp, hcb, hca, hcr, hcer, ⟨ib, hib⟩, ⟨ia, hia⟩, hpy, hpn⟩ := hv
  cases wb with
  | false =>
    have e1 : (cancel_bid_site v false qm).1 = { qm with bid_order_id := none } :=
      cancel_bid_site_ok v qm hcb
    cases wa with
    | false =>
      have e2 : (cancel_ask_site v false { qm with bid_order_id := none }).1 =
          { qm with bid_order_id := none, ask_order_id := none } := by
        rw [cancel_ask_site_ok v _ hca]
      have hq : (quote_phase cfg v m false false qm).1 =
          { qm with bid_order_id := none, ask_order_id := none } := by
        simp only [quote_phase]
        rw [e1]
        try dsimp only
        rw [e2]
        try dsimp only
        rw [if_neg (by simp [needs_bid, needs_ask])]
      rw [hq]
      refine ⟨by simp, by simp, by simp⟩
    | true =>
      have e2 : cancel_ask_site v true { qm with bid_order_id := none } =
          ({ qm with bid_order_id := none }, []) := cancel_ask_site_skip v _
      by_cases hna : needs_ask cfg false true { qm with bid_order_id := none } m
      · have hdnb :
            decide (needs_bid cfg false true { qm with bid_order_id := none } m) =
              false := decide_eq_false (by simp [needs_bid])
        have hdna :
            decide (needs_ask cfg false true { qm with bid_order_id := none } m) =
              true := decide_eq_true hna
        by_cases hr : needs_refresh cfg false true { qm with bid_order_id := none } m
        · have hdr :
              decide (needs_refresh cfg false true
                { qm with bid_order_id := none } m) = true := decide_eq_true hr
          have e3 : (refresh_cancel_site v true { qm with bid_order_id := none }).1 =
              { qm with bid_order_id := none, ask_order_id := none } := by
            rw [refresh_cancel_site_ok v _ hcr]
          have e4 : place_bid_site cfg v m false
              { qm with bid_order_id := none, ask_order_id := none } =
              ({ qm with bid_order_id := none, ask_order_id := none }, []) :=
            place_bid_site_not_needed cfg v m _
          have e5 : (place_ask_site cfg v m true
              { qm with bid_order_id := none, ask_order_id := none }).1 =
              { qm with
                  bid_order_id := none
                  ask_order_id := some ia
                  entry_ask_price := (compute_quotes cfg qm.market m).2
                  mid_at_placement := m } := by
            rw [place_ask_site_ok cfg v m _ ia hia rfl]
          have hq : (quote_phase cfg v m false true qm).1 =
              { qm with
                  bid_order_id := none
                  ask_order_id := some ia
                  entry_ask_price := (compute_quotes cfg qm.market m).2
                  mid_at_placement := m } := by
            simp only [quote_phase]
            rw [e1]
            try dsimp only
            rw [e2]
            try dsimp only
            rw [if_pos (Or.inr hna), hdr, hdnb, hdna]
            rw [e3]
            try dsimp only
            rw [e4]
            try dsimp only
            rw [e5]
          rw [hq]
          exact ⟨by simp, by simp, fun _ => should_refresh_self cfg _ m rfl hthr⟩
        · have hdr :
              decide (needs_refresh cfg false true
                { qm with bid_order_id := none } m) = false := decide_eq_false hr
          have haskn : ({ qm with bid_order_id := none } :
              QuotedMarket).ask_order_id = none := by
            rcases hna.2 with h6 | h6
            · exact h6
            · exact absurd h6 hr
          have e3 : refresh_cancel_site v false { qm with bid_order_id := none } =
              ({ qm with bid_order_id := none }, []) := refresh_cancel_site_off v _
          have e4 : place_bid_site cfg v m false { qm with bid_order_id := none } =
              ({ qm with bid_order_id := none }, []) :=
            place_bid_site_not_needed cfg v m _
          have e5 : (place_ask_site cfg v m true { qm with bid_order_id := none }).1 =
              { qm with
                  bid_order_id := none
                  ask_order_id := some ia
                  entry_ask_price := (compute_quotes cfg qm.market m).2
                  mid_at_placement := m } := by
            rw [place_ask_site_ok cfg v m _ ia hia haskn]
          have hq : (quote_phase cfg v m false true qm).1 =
              { qm with
                  bid_order_id := none
                  ask_order_id := some ia
                  entry_ask_price := (compute_quotes cfg qm.market m).2
                  mid_at_placement := m } := by
            simp only [quote_phase]
            rw [e1]
            try dsimp only
            rw [e2]
            try dsimp only
            rw [if_pos (Or.inr hna), hdr, hdnb, hdna]
            rw [e3]
            try dsimp only
            rw [e4]
            try dsimp only
            rw [e5]
          rw [hq]
          exact ⟨by simp, by simp, fun _ => should_refresh_self cfg _ m rfl hthr⟩
      · have hnb : ¬ needs_bid cfg false true { qm with bid_order_id := none } m := by
          simp [needs_bid]
        have hask := (not_needs_ask_elim cfg false _ m hna).1
        have hnr := (not_needs_ask_elim cfg false _ m hna).2
        have hq : (quote_phase cfg v m false true qm).1 =
            { qm with bid_order_id := none } := by
          simp only [quote_phase]
          rw [e1]
          try dsimp only
          rw [e2]
          try dsimp only
          rw [if_neg (fun h => h.elim hnb hna)]
        rw [hq]
        exact ⟨by simp, by simp [hask],
          fun _ => not_refresh_of_not_needs hnr (Or.inr ⟨rfl, hask⟩)⟩
  | true =>
    have e1 : cancel_bid_site v true qm = (qm, []) := cancel_bid_site_skip v qm
    cases wa with
    | false =>
      have e2 : (cancel_ask_site v false qm).1 = { qm with ask_order_id := none } :=
        cancel_ask_site_ok v qm hca
      by_cases hnb : needs_bid cfg true false { qm with ask_order_id := none } m
      · have hdna :
            decide (needs_ask cfg true false { qm with ask_order_id := none } m) =
              false := decide_eq_false (by simp [needs_ask])
        have hdnb :
            decide (needs_bid cfg true false { qm with ask_order_id := none } m) =
              true := decide_eq_true hnb
        by_cases hr : needs_refresh cfg true false { qm with ask_order_id := none } m
        · have hdr :
              decide (needs_refresh cfg true false
                { qm with ask_order_id := none } m) = true := decide_eq_true hr
          have e3 : (refresh_cancel_site v true { qm with ask_order_id := none }).1 =
              { qm with bid_order_id := none, ask_order_id := none } := by
            rw [refresh_cancel_site_ok v _ hcr]
          have e4 : (place_bid_site cfg v m true
              { qm with bid_order_id := none, ask_order_id := none }).1 =
              { qm with
                  bid_order_id := some ib
                  ask_order_id := none
                  entry_bid_price := (compute_quotes cfg qm.market m).1
                  mid_at_placement := m } := by
            rw [place_bid_site_ok cfg v m _ ib hib rfl]
          have e5 : place_ask_site cfg v m false
              { qm with
                  bid_order_id := some ib
                  ask_order_id := none
                  entry_bid_price := (compute_quotes cfg qm.market m).1
                  mid_at_placement := m } =
              ({ qm with
                  bid_order_id := some ib
                  ask_order_id := none
                  entry_bid_price := (compute_quotes cfg qm.market m).1
                  mid_at_placement := m }, []) := place_ask_site_not_needed cfg v m _
          have hq : (quote_phase cfg v m true false qm).1 =
              { qm with
                  bid_order_id := some ib
                  ask_order_id := none
                  entry_bid_price := (compute_quotes cfg qm.market m).1
                  mid_at_placement := m } := by
            simp only [quote_phase]
            rw [e1]
            try dsimp only
            rw [e2]
            try dsimp only
            rw [if_pos (Or.inl hnb), hdr, hdnb, hdna]
            rw [e3]
            try dsimp only
            rw [e4]
            try dsimp only
            rw [e5]
          rw [hq]
          exact ⟨by simp, by simp, fun _ => should_refresh_self cfg _ m rfl hthr⟩
        · have hdr :
              decide (needs_refresh cfg true false
                { qm with ask_order_id := none } m) = false := decide_eq_false hr
          have hbidn : ({ qm with ask_order_id := none } :
              QuotedMarket).bid_order_id = none := by
            rcases hnb.2 with h6 | h6
            · exact h6
            · exact absurd h6 hr
          have e3 : refresh_cancel_site v false { qm with ask_order_id := none } =
              ({ qm with ask_order_id := none }, []) := refresh_cancel_site_off v _
          have e4 : (place_bid_site cfg v m true { qm with ask_order_id := none }).1 =
              { qm with
                  ask_order_id := none
                  bid_order_id := some ib
                  entry_bid_price := (compute_quotes cfg qm.market m).1
                  mid_at_placement := m } := by
            rw [place_bid_site_ok cfg v m _ ib hib hbidn]
          have e5 : place_ask_site cfg v m false
              { qm with
                  ask_order_id := none
                  bid_order_id := some ib
                  entry_bid_price := (compute_quotes cfg qm.market m).1
                  mid_at_placement := m } =
              ({ qm with
                  ask_order_id := none
                  bid_order_id := some ib
                  entry_bid_price := (compute_quotes cfg qm.market m).1
                  mid_at_placement := m }, []) := place_ask_site_not_needed cfg v m _
          have hq : (quote_phase cfg v m true false qm).1 =
              { qm with
                  ask_order_id := none
                  bid_order_id := some ib
                  entry_bid_price := (compute_quotes cfg qm.market m).1
                  mid_at_placement := m } := by
            simp only [quote_phase]
            rw [e1]
            try dsimp only
            rw [e2]
            try dsimp only
            rw [if_pos (Or.inl hnb), hdr, hdnb, hdna]
            rw [e3]
            try dsimp only
            rw [e4]
            try dsimp only
            rw [e5]
          rw [hq]
          exact ⟨by simp, by simp, fun _ => should_refresh_self cfg _ m rfl hthr⟩
      · have hna : ¬ needs_ask cfg true false { qm with ask_order_id := none } m := by
          simp [needs_ask]
        have hbid := (not_needs_bid_elim cfg false _ m hnb).1
        have hnr := (not_needs_bid_elim cfg false _ m hnb).2
        have hq : (quote_phase cfg v m true false qm).1 =
            { qm with ask_order_id := none } := by
          simp only [quote_phase]
          rw [e1]
          try dsimp only
          rw [e2]
          try dsimp only
          rw [if_neg (fun h => h.elim hnb hna)]
        rw [hq]
        exact ⟨by simp [hbid], by simp,
          fun _ => not_refresh_of_not_needs hnr (Or.inl ⟨rfl, hbid⟩)⟩
    | true =>
      have e2 : cancel_ask_site v true qm = (qm, []) := cancel_ask_site_skip v qm
      by_cases hnb : needs_bid cfg true true qm m
      · have hdnb : decide (needs_bid cfg true true qm m) = true := decide_eq_true hnb
        by_cases hr : needs_refresh cfg true true qm m
        · have hdr : decide (needs_refresh cfg true true qm m) = true :=
            decide_eq_true hr
          have hdna : decide (needs_ask cfg true true qm m) = true :=
            decide_eq_true ⟨rfl, Or.inr hr⟩
          have e3 : (refresh_cancel_site v true qm).1 =
              { qm with bid_order_id := none, ask_order_id := none } :=
            refresh_cancel_site_ok v qm hcr
          have e4 : (place_bid_site cfg v m true
              { qm with bid_order_id := none, ask_order_id := none }).1 =
              { qm with
                  bid_order_id := some ib
                  ask_order_id := none
                  entry_bid_price := (compute_quotes cfg qm.market m).1
                  mid_at_placement := m } := by
            rw [place_bid_site_ok cfg v m _ ib hib rfl]
          have e5 : (place_ask_site cfg v m true
              { qm with
                  bid_order_id := some ib
                  ask_order_id := none
                  entry_bid_price := (compute_quotes cfg qm.market m).1
                  mid_at_placement := m }).1 =
              { qm with
                  bid_order_id := some ib
                  ask_order_id := some ia
                  entry_bid_price := (compute_quotes cfg qm.market m).1
                  entry_ask_price := (compute_quotes cfg qm.market m).2
                  mid_at_placement := m } := by
            rw [place_ask_site_ok cfg v m _ ia hia rfl]
          have hq : (quote_phase cfg v m true true qm).1 =
              { qm with
                  bid_order_id := some ib
                  ask_order_id := some ia
                  entry_bid_price := (compute_quotes cfg qm.market m).1
                  entry_ask_price := (compute_quotes cfg qm.market m).2
                  mid_at_placement := m } := by
            simp only [quote_phase]
            rw [e1]
            try dsimp only
            rw [e2]
            try dsimp only
            rw [if_pos (Or.inl hnb), hdr, hdnb, hdna]
            rw [e3]
            try dsimp only
            rw [e4]
            try dsimp only
            rw [e5]
          rw [hq]
          exact ⟨by simp, by simp, fun _ => should_refresh_self cfg _ m rfl hthr⟩
        · have hdr : decide (needs_refresh cfg true true qm m) = false :=
            decide_eq_false hr
          have hbidn : qm.bid_order_id = none := hnb.2.resolve_right hr
          have e3 : refresh_cancel_site v false qm = (qm, []) :=
            refresh_cancel_site_off v qm
          have e4 : (place_bid_site cfg v m true qm).1 =
              { qm with
                  bid_order_id := some ib
                  entry_bid_price := (compute_quotes cfg qm.market m).1
                  mid_at_placement := m } :=
            place_bid_site_ok cfg v m qm ib hib hbidn
          by_cases hna : needs_ask cfg true true qm m
          · have hdna : decide (needs_ask cfg true true qm m) = true :=
              decide_eq_true hna
            have haskn : qm.ask_order_id = none := hna.2.resolve_right hr
            have e5 : (place_ask_site cfg v m true
                { qm with
                    bid_order_id := some ib
                    entry_bid_price := (compute_quotes cfg qm.market m).1
                    mid_at_placement := m }).1 =
                { qm with
                    bid_order_id := some ib
                    ask_order_id := some ia
                    entry_bid_price := (compute_quotes cfg qm.market m).1
                    entry_ask_price := (compute_quotes cfg qm.market m).2
                    mid_at_placement := m } := by
              rw [place_ask_site_ok cfg v m _ ia hia
                (show ({ qm with
                    bid_order_id := some ib
                    entry_bid_price := (compute_quotes cfg qm.market m).1
                    mid_at_placement := m } : QuotedMarket).ask_order_id = none
                  from haskn)]
            have hq : (quote_phase cfg v m true true qm).1 =
                { qm with
                    bid_order_id := some ib
                    ask_order_id := some ia
                    entry_bid_price := (compute_quotes cfg qm.market m).1
                    entry_ask_price := (compute_quotes cfg qm.market m).2
                    mid_at_placement := m } := by
              simp only [quote_phase]
              rw [e1]
              try dsimp only
              rw [e2]
              try dsimp only
              rw [if_pos (Or.inl hnb), hdr, hdnb, hdna]
              rw [e3]
              try dsimp only
              rw [e4]
              try dsimp only
              rw [e5]
            rw [hq]
            exact ⟨by simp, by simp, fun _ => should_refresh_self cfg _ m rfl hthr⟩
          · have hdna : decide (needs_ask cfg true true qm m) = false :=
              decide_eq_false hna
            have hask := (not_needs_ask_elim cfg true qm m hna).1
            have e5 : place_ask_site cfg v m false
                { qm with
                    bid_order_id := some ib
                    entry_bid_price := (compute_quotes cfg qm.market m).1
                    mid_at_placement := m } =
                ({ qm with
                    bid_order_id := some ib
                    entry_bid_price := (compute_quotes cfg qm.market m).1
                    mid_at_placement := m }, []) := place_ask_site_not_needed cfg v m _
            have hq : (quote_phase cfg v m true true qm).1 =
                { qm with
                    bid_order_id := some ib
                    entry_bid_price := (compute_quotes cfg qm.market m).1
                    mid_at_placement := m } := by
              simp only [quote_phase]
              rw [e1]
              try dsimp only
              rw [e2]
              try dsimp only
              rw [if_pos (Or.inl hnb), hdr, hdnb, hdna]
              rw [e3]
              try dsimp only
              rw [e4]
              try dsimp only
              rw [e5]
            rw [hq]
            exact ⟨by simp, by simp [hask],
              fun _ => should_refresh_self cfg _ m rfl hthr⟩
      · by_cases hna : needs_ask cfg true true qm m
        · have hdnb : decide (needs_bid cfg true true qm m) = false :=
            decide_eq_false hnb
          have hdna : decide (needs_ask cfg true true qm m) = true :=
            decide_eq_true hna
          have hbid := (not_needs_bid_elim cfg true qm m hnb).1
          have hnr := (not_needs_bid_elim cfg true qm m hnb).2
          have hdr : decide (needs_refresh cfg true true qm m) = false :=
            decide_eq_false hnr
          have haskn : qm.ask_order_id = none := hna.2.resolve_right hnr
          have e3 : refresh_cancel_site v false qm = (qm, []) :=
            refresh_cancel_site_off v qm
          have e4 : place_bid_site cfg v m false qm = (qm, []) :=
            place_bid_site_not_needed cfg v m qm
          have e5 : (place_ask_site cfg v m true qm).1 =
              { qm with
                  ask_order_id := some ia
                  entry_ask_price := (compute_quotes cfg qm.market m).2
                  mid_at_placement := m } :=
            place_ask_site_ok cfg v m qm ia hia haskn
          have hq : (quote_phase cfg v m true true qm).1 =
              { qm with
                  ask_order_id := some ia
                  entry_ask_price := (compute_quotes cfg qm.market m).2
                  mid_at_placement := m } := by
            simp only [quote_phase]
            rw [e1]
            try dsimp only
            rw [e2]
            try dsimp only
            rw [if_pos (Or.inr hna), hdr, hdnb, hdna]
            rw [e3]
            try dsimp only
            rw [e4]
            try dsimp only
            rw [e5]
          rw [hq]
          exact ⟨by simp [hbid], by simp,
            fun _ => should_refresh_self cfg _ m rfl hthr⟩
        · have hbid := (not_needs_bid_elim cfg true qm m hnb).1
          have hnr := (not_needs_bid_elim cfg true qm m hnb).2
          have hask := (not_needs_ask_elim cfg true qm m hna).1
          have hq : (quote_phase cfg v m true true qm).1 = qm := by
            simp only [quote_phase]
            rw [e1]
            try dsimp only
            rw [e2]
            try dsimp only
            rw [if_neg (fun h => h.elim hnb hna)]
          rw [hq]
          exact ⟨by simp [hbid], by simp [hask],
            fun _ => not_refresh_of_not_needs hnr (Or.inl ⟨rfl, hbid⟩)⟩

/-- `_manage_exits` with nothing to do — no resting exit has drifted a full
tick and every side with balance already has its exit resting — issues no
call and leaves the state unchanged. -/
theorem manage_exits_quiet (cfg : Config) (v : Venue) (now : ℚ)
    (qm : QuotedMarket) (ybal nbal m : ℚ)
    (h1 : ¬ qm.market.tick_size ≤
      |exit_refresh_target cfg now qm m - qm.exit_price_placed|)
    (h2 : cfg.INVENTORY_MIN_SHARES ≤ ybal → qm.yes_exit_order_id ≠ none)
    (h3 : cfg.INVENTORY_MIN_SHARES ≤ nbal → qm.no_exit_order_id ≠ none) :
    manage_exits cfg v now qm ybal nbal m = (qm, []) := by
  have e1 : exit_refresh_site cfg v now qm m = (qm, []) :=
    exit_refresh_site_idle cfg v now qm m h1
  have e2 : place_yes_exit_site cfg v now qm ybal m = (qm, []) := by
    unfold place_yes_exit_site
    rw [if_neg (fun h => h2 h.1 h.2)]
  have e3 : place_no_exit_site cfg v now qm nbal m = (qm, []) := by
    unfold place_no_exit_site
    rw [if_neg (fun h => h3 h.1 h.2)]
  simp only [manage_exits]
  rw [e1]
  try dsimp only
  rw [e2]
  try dsimp only
  rw [e3]
  simp

/-- After `_manage_exits` with YES-side inventory only, on a venue where
every call succeeds: a YES exit rests, the recomputed refresh target sits
within a tick of `exit_price_placed` (so the next pass is quiet), and the
cooldown is untouched. -/
theorem manage_exits_ok_post_yes (cfg : Config) (v : Venue) (now : ℚ)
    (M : QuotedMarket) (ybal m : ℚ) (hv : VenueOk v)
    (htick : 0 < M.market.tick_size) (hdust : 0 < cfg.INVENTORY_MIN_SHARES)
    (hyb : cfg.INVENTORY_MIN_SHARES ≤ ybal) :
    (manage_exits cfg v now M ybal 0 m).1.yes_exit_order_id ≠ none ∧
    |exit_refresh_target cfg now (manage_exits cfg v now M ybal 0 m).1 m -
        (manage_exits cfg v now M ybal 0 m).1.exit_price_placed| <
      (manage_exits cfg v now M ybal 0 m).1.market.tick_size ∧
    (manage_exits cfg v now M ybal 0 m).1.exit_cooldown_until =
      M.exit_cooldown_until := by
  obtain ⟨hcp, hcb, hca, hcr, hcer, hpb, hpa, ⟨iy, hiy⟩, hpn⟩ := hv
  have hn0 : ¬ cfg.INVENTORY_MIN_SHARES ≤ (0:ℚ) := not_le.mpr hdust
  by_cases hp : M.yes_exit_order_id ≠ none ∨ M.no_exit_order_id ≠ none
  · by_cases hf : M.market.tick_size ≤
        |exit_refresh_target cfg now M m - M.exit_price_placed|
    · have e1 : (exit_refresh_site cfg v now M m).1 =
          { M with yes_exit_order_id := none, no_exit_order_id := none } :=
        exit_refresh_site_fire cfg v now M m hcer hp hf
      have e2 : (place_yes_exit_site cfg v now
          { M with yes_exit_order_id := none, no_exit_order_id := none } ybal m).1 =
          { M with
              yes_exit_order_id := some iy
              no_exit_order_id := none
              exit_price_placed := compute_exit_price cfg M.market m
                (M.inventory_since.getD 0) M.entry_mid M.entry_bid_price
                "YES" now } := by
        rw [place_yes_exit_site_ok cfg v now _ ybal m iy hiy hyb rfl]
      have e3 : place_no_exit_site cfg v now
          { M with
              yes_exit_order_id := some iy
              no_exit_order_id := none
              exit_price_placed := compute_exit_price cfg M.market m
                (M.inventory_since.getD 0) M.entry_mid M.entry_bid_price
                "YES" now } 0 m =
          ({ M with
              yes_exit_order_id := some iy
              no_exit_order_id := none
              exit_price_placed := compute_exit_price cfg M.market m
                (M.inventory_since.getD 0) M.entry_mid M.entry_bid_price
                "YES" now }, []) := place_no_exit_site_low cfg v now _ 0 m hn0
      have hq : (manage_exits cfg v now M ybal 0 m).1 =
          { M with
              yes_exit_order_id := some iy
              no_exit_order_id := none
              exit_price_placed := compute_exit_price cfg M.market m
                (M.inventory_since.getD 0) M.entry_mid M.entry_bid_price
                "YES" now } := by
        simp only [manage_exits]
        rw [e1]
        try dsimp only
        rw [e2]
        try dsimp only
        rw [e3]
      rw [hq]
      refine ⟨by simp, ?_, by simp⟩
      simp only [exit_refresh_target]
      rw [if_pos (by simp)]
      try dsimp only
      rw [sub_self, abs_zero]
      exact htick
    · have e1 : exit_refresh_site cfg v now M m = (M, []) :=
        exit_refresh_site_idle cfg v now M m hf
      by_cases hyn : M.yes_exit_order_id = none
      · have e2 : (place_yes_exit_site cfg v now M ybal m).1 =
            { M with
                yes_exit_order_id := some iy
                exit_price_placed := compute_exit_price cfg M.market m
                  (M.inventory_since.getD 0) M.entry_mid M.entry_bid_price
                  "YES" now } :=
          place_yes_exit_site_ok cfg v now M ybal m iy hiy hyb hyn
        have e3 : place_no_exit_site cfg v now
            { M with
                yes_exit_order_id := some iy
                exit_price_placed := compute_exit_price cfg M.market m
                  (M.inventory_since.getD 0) M.entry_mid M.entry_bid_price
                  "YES" now } 0 m =
            ({ M with
                yes_exit_order_id := some iy
                exit_price_placed := compute_exit_price cfg M.market m
                  (M.inventory_since.getD 0) M.entry_mid M.entry_bid_price
                  "YES" now }, []) := place_no_exit_site_low cfg v now _ 0 m hn0
        have hq : (manage_exits cfg v now M ybal 0 m).1 =
            { M with
                yes_exit_order_id := some iy
                exit_price_placed := compute_exit_price cfg M.market m
                  (M.inventory_since.getD 0) M.entry_mid M.entry_bid_price
                  "YES" now } := by
          simp only [manage_exits]
          rw [e1]
          try dsimp only
          rw [e2]
          try dsimp only
          rw [e3]
        rw [hq]
        refine ⟨by simp, ?_, by simp⟩
        simp only [exit_refresh_target]
        rw [if_pos (by simp)]
        try dsimp only
        rw [sub_self, abs_zero]
        exact htick
      · have e2 : place_yes_exit_site cfg v now M ybal m = (M, []) :=
          place_yes_exit_site_resting cfg v now M ybal m hyn
        have e3 : place_no_exit_site cfg v now M 0 m = (M, []) :=
          place_no_exit_site_low cfg v now M 0 m hn0
        have hq : (manage_exits cfg v now M ybal 0 m).1 = M := by
          simp only [manage_exits]
          rw [e1]
          try dsimp only
          rw [e2]
          try dsimp only
          rw [e3]
        rw [hq]
        exact ⟨hyn, not_le.mp hf, rfl⟩
  · push_neg at hp
    have e1 : exit_refresh_site cfg v now M m = (M, []) :=
      exit_refresh_site_absent cfg v now M m hp.1 hp.2
    have e2 : (place_yes_exit_site cfg v now M ybal m).1 =
        { M with
            yes_exit_order_id := some iy
            exit_price_placed := compute_exit_price cfg M.market m
              (M.inventory_since.getD 0) M.entry_mid M.entry_bid_price
              "YES" now } :=
      place_yes_exit_site_ok cfg v now M ybal m iy hiy hyb hp.1
    have e3 : place_no_exit_site cfg v now
        { M with
            yes_exit_order_id := some iy
            exit_price_placed := compute_exit_price cfg M.market m
              (M.inventory_since.getD 0) M.entry_mid M.entry_bid_price
              "YES" now } 0 m =
        ({ M with
            yes_exit_order_id := some iy
            exit_price_placed := compute_exit_price cfg M.market m
              (M.inventory_since.getD 0) M.entry_mid M.entry_bid_price
              "YES" now }, []) := place_no_exit_site_low cfg v now _ 0 m hn0
    have hq : (manage_exits cfg v now M ybal 0 m).1 =
        { M with
            yes_exit_order_id := some iy
            exit_price_placed := compute_exit_price cfg M.market m
              (M.inventory_since.getD 0) M.entry_mid M.entry_bid_price
              "YES" now } := by
      simp only [manage_exits]
      rw [e1]
      try dsimp only
      rw [e2]
      try dsimp only
      rw [e3]
    rw [hq]
    refine ⟨by simp, ?_, by simp⟩
    simp only [exit_refresh_target]
    rw [if_pos (by simp)]
    try dsimp only
    rw [sub_self, abs_zero]
    exact htick

/-- After `_manage_exits` with NO-side inventory only and no stale YES
exit on entry, on a venue where every call succeeds: no YES exit rests, a
NO exit rests, the recomputed refresh target (taken from the NO side) sits
within a tick of `exit_price_placed`, and the cooldown is untouched. -/
theorem manage_exits_ok_post_no (cfg : Config) (v : Venue) (now : ℚ)
    (M : QuotedMarket) (nbal m : ℚ) (hv : VenueOk v)
    (htick : 0 < M.market.tick_size) (hdust : 0 < cfg.INVENTORY_MIN_SHARES)
    (hnb : cfg.INVENTORY_MIN_SHARES ≤ nbal) (hyes : M.yes_exit_order_id = none) :
    (manage_exits cfg v now M 0 nbal m).1.yes_exit_order_id = none ∧
    (manage_exits cfg v now M 0 nbal m).1.no_exit_order_id ≠ none ∧
    |exit_refresh_target cfg now (manage_exits cfg v now M 0 nbal m).1 m -
        (manage_exits cfg v now M 0 nbal m).1.exit_price_placed| <
      (manage_exits cfg v now M 0 nbal m).1.market.tick_size ∧
    (manage_exits cfg v now M 0 nbal m).1.exit_cooldown_until =
      M.exit_cooldown_until := by
  obtain ⟨hcp, hcb, hca, hcr, hcer, hpb, hpa, hpy, ⟨jn, hjn⟩⟩ := hv
  have hn0 : ¬ cfg.INVENTORY_MIN_SHARES ≤ (0:ℚ) := not_le.mpr hdust
  by_cases hno : M.no_exit_order_id = none
  · have e1 : exit_refresh_site cfg v now M m = (M, []) :=
      exit_refresh_site_absent cfg v now M m hyes hno
    have e2 : place_yes_exit_site cfg v now M 0 m = (M, []) :=
      place_yes_exit_site_low cfg v now M 0 m hn0
    have e3 : (place_no_exit_site cfg v now M nbal m).1 =
        { M with
            no_exit_order_id := some jn
            exit_price_placed := compute_exit_price cfg M.market m
              (M.inventory_since.getD 0) M.entry_mid M.entry_ask_price
              "NO" now } :=
      place_no_exit_site_ok cfg v now M nbal m jn hjn hnb hno
    have hq : (manage_exits cfg v now M 0 nbal m).1 =
        { M with
            no_exit_order_id := some jn
            exit_price_placed := compute_exit_price cfg M.market m
              (M.inventory_since.getD 0) M.entry_mid M.entry_ask_price
              "NO" now } := by
      simp only [manage_exits]
      rw [e1]
      try dsimp only
      rw [e2]
      try dsimp only
      rw [e3]
    rw [hq]
    refine ⟨by simp [hyes], by simp, ?_, by simp⟩
    simp only [exit_refresh_target]
    rw [if_neg (by simp [hyes])]
    try dsimp only
    rw [sub_self, abs_zero]
    exact htick
  · by_cases hf : M.market.tick_size ≤
        |exit_refresh_target cfg now M m - M.exit_price_placed|
    · have e1 : (exit_refresh_site cfg v now M m).1 =
          { M with yes_exit_order_id := none, no_exit_order_id := none } :=
        exit_refresh_site_fire cfg v now M m hcer (Or.inr hno) hf
      have e2 : place_yes_exit_site cfg v now
          { M with yes_exit_order_id := none, no_exit_order_id := none } 0 m =
          ({ M with yes_exit_order_id := none, no_exit_order_id := none }, []) :=
        place_yes_exit_site_low cfg v now _ 0 m hn0
      have e3 : (place_no_exit_site cfg v now
          { M with yes_exit_order_id := none, no_exit_order_id := none }
          nbal m).1 =
          { M with
              yes_exit_order_id := none
              no_exit_order_id := some jn
              exit_price_placed := compute_exit_price cfg M.market m
                (M.inventory_since.getD 0) M.entry_mid M.entry_ask_price
                "NO" now } := by
        rw [place_no_exit_site_ok cfg v now _ nbal m jn hjn hnb rfl]
      have hq : (manage_exits cfg v now M 0 nbal m).1 =
          { M with
              yes_exit_order_id := none
              no_exit_order_id := some jn
              exit_price_placed := compute_exit_price cfg M.market m
                (M.inventory_since.getD 0) M.entry_mid M.entry_ask_price
                "NO" now } := by
        simp only [manage_exits]
        rw [e1]
        try dsimp only
        rw [e2]
        try dsimp only
        rw [e3]
      rw [hq]
      refine ⟨by simp, by simp, ?_, by simp⟩
      simp only [exit_refresh_target]
      rw [if_neg (by simp)]
      try dsimp only
      rw [sub_self, abs_zero]
      exact htick
    · have e1 : exit_refresh_site cfg v now M m = (M, []) :=
        exit_refresh_site_idle cfg v now M m hf
      have e2 : place_yes_exit_site cfg v now M 0 m = (M, []) :=
        place_yes_exit_site_low cfg v now M 0 m hn0
      have e3 : place_no_exit_site cfg v now M nbal m = (M, []) :=
        place_no_exit_site_resting cfg v now M nbal m hno
      have hq : (manage_exits cfg v now M 0 nbal m).1 = M := by
        simp only [manage_exits]
        rw [e1]
        try dsimp only
        rw [e2]
        try dsimp only
        rw [e3]
      rw [hq]
      exact ⟨hyes, hno, not_le.mp hf, rfl⟩

/-- C7.  Idempotence of the cycle, amended.  A second invocation of
`process_market_cycle` on the state produced by a first invocation — with
the same balances, the same midpoint and the same clock — issues no venue
call, provided that every call of the first invocation succeeded, the tick
size and the dust threshold are positive, the refresh threshold is
non-negative, at most one side holds inventory, and no stale YES exit
order is resting when the inventory is on the NO side.  (Without the last
two provisos the second invocation can issue calls: a shared
`exit_price_placed` cannot match the YES-side target and the NO-side
target at once.) -/
theorem cycle_idempotent (cfg : Config) (v1 v2 : Venue) (now : ℚ)
    (qm : QuotedMarket) (y n mid : Option ℚ)
    (hv1 : VenueOk v1) (htick : 0 < qm.market.tick_size)
    (hdust : 0 < cfg.INVENTORY_MIN_SHARES)
    (hthr : 0 ≤ cfg.REFRESH_THRESHOLD_PCT)
    (hboth : ¬ (hasInv cfg y ∧ hasInv cfg n))
    (hstale : hasInv cfg n → qm.yes_exit_order_id = none) :
    (process_market_cycle cfg v2 now
      (process_market_cycle cfg v1 now qm y n mid).1 y n mid).2 = [] := by
  by_cases h0 : ¬ (hasInv cfg y ∨ hasInv cfg n) ∧ (y = none ∨ n = none) ∧
      (qm.yes_exit_order_id ≠ none ∨ qm.no_exit_order_id ≠ none)
  · have hc1 : process_market_cycle cfg v1 now qm y n mid = (qm, []) := by
      simp only [process_market_cycle]
      rw [if_pos h0]
    rw [hc1]
    try dsimp only
    simp only [process_market_cycle]
    rw [if_pos h0]
  · cases mid with
    | none =>
      have hc1 : process_market_cycle cfg v1 now qm y n none = (qm, []) := by
        simp only [process_market_cycle]
        rw [if_neg h0]
      rw [hc1]
      try dsimp only
      simp only [process_market_cycle]
      rw [if_neg h0]
    | some m =>
      by_cases hpark : m < cfg.MIN_QUOTABLE_MID
      · have hcp : v1.cancelParked = true := hv1.1
        have hc1 : (process_market_cycle cfg v1 now qm y n (some m)).1 =
            (cancel_quoted true qm).1 := by
          simp only [process_market_cycle]
          rw [if_neg h0, if_pos hpark, hcp]
        obtain ⟨g1, g2, g3, g4⟩ := cancel_quoted_ok_clears qm
        rw [hc1]
        simp only [process_market_cycle]
        rw [if_neg (fun h => h.2.2.elim (fun h5 => h5 g3) (fun h5 => h5 g4)),
          if_pos hpark, cancel_quoted_idle v2.cancelParked _ g1 g2 g3 g4]
      · have hwbp := quote_phase_ok_post cfg v1 m (!decide (hasInv cfg y))
          (!decide (hasInv cfg n)) (inventory_track cfg now m y n qm).1 hv1 hthr
        have hqf := quote_phase_frame cfg v1 m (!decide (hasInv cfg y))
          (!decide (hasInv cfg n)) (inventory_track cfg now m y n qm).1
        have hkeep := inventory_track_keep cfg now m y n qm
        have hc1 : (process_market_cycle cfg v1 now qm y n (some m)).1 =
            (exit_gate cfg v1 now (quote_phase cfg v1 m (!decide (hasInv cfg y)) (!decide (hasInv cfg n))
              (inventory_track cfg now m y n qm).1).1 y n m).1 := by
          simp only [process_market_cycle]
          rw [if_neg h0, if_neg hpark]
        rw [hc1]
        by_cases hinv : hasInv cfg y ∨ hasInv cfg n
        · have hk := inventory_track_inv_keep cfg now m y n qm hinv
          have tsince : (inventory_track cfg now m y n qm).1.inventory_since ≠ none := by
            unfold inventory_track
            by_cases hsn : qm.inventory_since = none
            · rw [if_pos ⟨hinv, hsn⟩]
              simp
            · rw [if_neg (fun h => hsn h.2), if_neg (fun h => h hinv)]
              exact hsn
          have hQsince : (quote_phase cfg v1 m (!decide (hasInv cfg y)) (!decide (hasInv cfg n))
              (inventory_track cfg now m y n qm).1).1.inventory_since ≠ none := by
            rw [hqf.2.1]
            exact tsince
          have hQcd : (quote_phase cfg v1 m (!decide (hasInv cfg y)) (!decide (hasInv cfg n))
              (inventory_track cfg now m y n qm).1).1.exit_cooldown_until = qm.exit_cooldown_until := by
            rw [hqf.2.2.2.2.2.2, hk.1]
          have htickQ : 0 < (quote_phase cfg v1 m (!decide (hasInv cfg y)) (!decide (hasInv cfg n))
              (inventory_track cfg now m y n qm).1).1.market.tick_size := by
            rw [hqf.1, hkeep.1]
            exact htick
          by_cases hcd : qm.exit_cooldown_until ≤ now
          · rcases Decidable.em (hasInv cfg y) with hy | hy
            · have hny : ¬ hasInv cfg n := fun h => hboth ⟨hy, h⟩
              have hg1 : exit_gate cfg v1 now (quote_phase cfg v1 m (!decide (hasInv cfg y)) (!decide (hasInv cfg n))
              (inventory_track cfg now m y n qm).1).1 y n m =
                  manage_exits cfg v1 now (quote_phase cfg v1 m (!decide (hasInv cfg y)) (!decide (hasInv cfg n))
              (inventory_track cfg now m y n qm).1).1 (y.getD 0) 0 m := by
                rw [exit_gate, if_pos ⟨hinv, by rw [hQcd]; exact hcd⟩,
                  if_pos hy, if_neg hny]
              rw [hg1]
              have hB := manage_exits_ok_post_yes cfg v1 now (quote_phase cfg v1 m (!decide (hasInv cfg y)) (!decide (hasInv cfg n))
              (inventory_track cfg now m y n qm).1).1 (y.getD 0) m hv1
                htickQ hdust (hasInv_getD hy)
              have hmf := manage_exits_frame cfg v1 now (quote_phase cfg v1 m (!decide (hasInv cfg y)) (!decide (hasInv cfg n))
              (inventory_track cfg now m y n qm).1).1 (y.getD 0) 0 m
              have hq1since : (manage_exits cfg v1 now (quote_phase cfg v1 m (!decide (hasInv cfg y)) (!decide (hasInv cfg n))
              (inventory_track cfg now m y n qm).1).1 (y.getD 0) 0 m).1.inventory_since ≠ none := by
                rw [hmf.2.1]
                exact hQsince
              simp only [process_market_cycle]
              rw [if_neg (fun h => h.1 hinv), if_neg hpark]
              rw [show inventory_track cfg now m y n (manage_exits cfg v1 now (quote_phase cfg v1 m (!decide (hasInv cfg y)) (!decide (hasInv cfg n))
              (inventory_track cfg now m y n qm).1).1 (y.getD 0) 0 m).1 = ((manage_exits cfg v1 now (quote_phase cfg v1 m (!decide (hasInv cfg y)) (!decide (hasInv cfg n))
              (inventory_track cfg now m y n qm).1).1 (y.getD 0) 0 m).1, []) from by
                rw [inventory_track, if_neg (fun h => hq1since h.2),
                  if_neg (fun h => h hinv)]]
              try dsimp only
              rw [quote_phase_quiet cfg v2 m (!decide (hasInv cfg y))
                (!decide (hasInv cfg n)) (manage_exits cfg v1 now (quote_phase cfg v1 m (!decide (hasInv cfg y)) (!decide (hasInv cfg n))
              (inventory_track cfg now m y n qm).1).1 (y.getD 0) 0 m).1
                (fun hf => by rw [hmf.2.2.2.1]; exact hwbp.1.mpr hf)
                (fun hf => by rw [hmf.2.2.2.2.1]; exact hwbp.2.1.mpr hf)
                (fun ht hbn => by
                  rw [hmf.2.2.2.1] at hbn
                  have h6 := hwbp.1.mp hbn
                  rw [ht] at h6
                  exact absurd h6 (by decide))
                (fun ht han => by
                  rw [hmf.2.2.2.2.1] at han
                  have h6 := hwbp.2.1.mp han
                  rw [ht] at h6
                  exact absurd h6 (by decide))
                (fun hg hs => hwbp.2.2 hg (by
                  unfold should_refresh at hs ⊢
                  rw [hmf.2.2.2.2.2.2.2] at hs
                  exact hs))]
              try dsimp only
              rw [exit_gate, if_pos ⟨hinv, by rw [hB.2.2, hQcd]; exact hcd⟩,
                if_pos hy, if_neg hny]
              rw [manage_exits_quiet cfg v2 now (manage_exits cfg v1 now (quote_phase cfg v1 m (!decide (hasInv cfg y)) (!decide (hasInv cfg n))
              (inventory_track cfg now m y n qm).1).1 (y.getD 0) 0 m).1 (y.getD 0) 0 m
                (not_le.mpr hB.2.1) (fun _ => hB.1)
                (fun hc => absurd hc (not_le.mpr hdust))]
              simp
            · have hn2 : hasInv cfg n := hinv.resolve_left hy
              have hg1 : exit_gate cfg v1 now (quote_phase cfg v1 m (!decide (hasInv cfg y)) (!decide (hasInv cfg n))
              (inventory_track cfg now m y n qm).1).1 y n m =
                  manage_exits cfg v1 now (quote_phase cfg v1 m (!decide (hasInv cfg y)) (!decide (hasInv cfg n))
              (inventory_track cfg now m y n qm).1).1 0 (n.getD 0) m := by
                rw [exit_gate, if_pos ⟨hinv, by rw [hQcd]; exact hcd⟩,
                  if_neg hy, if_pos hn2]
              rw [hg1]
              have hQyes : (quote_phase cfg v1 m (!decide (hasInv cfg y)) (!decide (hasInv cfg n))
              (inventory_track cfg now m y n qm).1).1.yes_exit_order_id = none := by
                rw [hqf.2.2.2.1, hk.2.1]
                exact hstale hn2
              have hB := manage_exits_ok_post_no cfg v1 now (quote_phase cfg v1 m (!decide (hasInv cfg y)) (!decide (hasInv cfg n))
              (inventory_track cfg now m y n qm).1).1 (n.getD 0) m hv1
                htickQ hdust (hasInv_getD hn2) hQyes
              have hmf := manage_exits_frame cfg v1 now (quote_phase cfg v1 m (!decide (hasInv cfg y)) (!decide (hasInv cfg n))
              (inventory_track cfg now m y n qm).1).1 0 (n.getD 0) m
              have hq1since : (manage_exits cfg v1 now (quote_phase cfg v1 m (!decide (hasInv cfg y)) (!decide (hasInv cfg n))
              (inventory_track cfg now m y n qm).1).1 0 (n.getD 0) m).1.inventory_since ≠ none := by
                rw [hmf.2.1]
                exact hQsince
              simp only [process_market_cycle]
              rw [if_neg (fun h => h.1 hinv), if_neg hpark]
              rw [show inventory_track cfg now m y n (manage_exits cfg v1 now (quote_phase cfg v1 m (!decide (hasInv cfg y)) (!decide (hasInv cfg n))
              (inventory_track cfg now m y n qm).1).1 0 (n.getD 0) m).1 = ((manage_exits cfg v1 now (quote_phase cfg v1 m (!decide (hasInv cfg y)) (!decide (hasInv cfg n))
              (inventory_track cfg now m y n qm).1).1 0 (n.getD 0) m).1, []) from by
                rw [inventory_track, if_neg (fun h => hq1since h.2),
                  if_neg (fun h => h hinv)]]
              try dsimp only
              rw [quote_phase_quiet cfg v2 m (!decide (hasInv cfg y))
                (!decide (hasInv cfg n)) (manage_exits cfg v1 now (quote_phase cfg v1 m (!decide (hasInv cfg y)) (!decide (hasInv cfg n))
              (inventory_track cfg now m y n qm).1).1 0 (n.getD 0) m).1
                (fun hf => by rw [hmf.2.2.2.1]; exact hwbp.1.mpr hf)
                (fun hf => by rw [hmf.2.2.2.2.1]; exact hwbp.2.1.mpr hf)
                (fun ht hbn => by
                  rw [hmf.2.2.2.1] at hbn
                  have h6 := hwbp.1.mp hbn
                  rw [ht] at h6
                  exact absurd h6 (by decide))
                (fun ht han => by
                  rw [hmf.2.2.2.2.1] at han
                  have h6 := hwbp.2.1.mp han
                  rw [ht] at h6
                  exact absurd h6 (by decide))
                (fun hg hs => hwbp.2.2 hg (by
                  unfold should_refresh at hs ⊢
                  rw [hmf.2.2.2.2.2.2.2] at hs
                  exact hs))]
              try dsimp only
              rw [exit_gate, if_pos ⟨hinv, by rw [hB.2.2.2, hQcd]; exact hcd⟩,
                if_neg hy, if_pos hn2]
              rw [manage_exits_quiet cfg v2 now (manage_exits cfg v1 now (quote_phase cfg v1 m (!decide (hasInv cfg y)) (!decide (hasInv cfg n))
              (inventory_track cfg now m y n qm).1).1 0 (n.getD 0) m).1 0 (n.getD 0) m
                (not_le.mpr hB.2.2.1) (fun hc => absurd hc (not_le.mpr hdust))
                (fun _ => hB.2.1)]
              simp
          · have hg1 : exit_gate cfg v1 now (quote_phase cfg v1 m (!decide (hasInv cfg y)) (!decide (hasInv cfg n))
              (inventory_track cfg now m y n qm).1).1 y n m = ((quote_phase cfg v1 m (!decide (hasInv cfg y)) (!decide (hasInv cfg n))
              (inventory_track cfg now m y n qm).1).1, []) := by
              rw [exit_gate, if_neg (fun h => hcd (by rw [← hQcd]; exact h.2))]
            rw [hg1]
            try dsimp only
            simp only [process_market_cycle]
            rw [if_neg (fun h => h.1 hinv), if_neg hpark]
            rw [show inventory_track cfg now m y n (quote_phase cfg v1 m (!decide (hasInv cfg y)) (!decide (hasInv cfg n))
              (inventory_track cfg now m y n qm).1).1 = ((quote_phase cfg v1 m (!decide (hasInv cfg y)) (!decide (hasInv cfg n))
              (inventory_track cfg now m y n qm).1).1, []) from by
              rw [inventory_track, if_neg (fun h => hQsince h.2),
                if_neg (fun h => h hinv)]]
            try dsimp only
            rw [quote_phase_quiet cfg v2 m (!decide (hasInv cfg y))
              (!decide (hasInv cfg n)) (quote_phase cfg v1 m (!decide (hasInv cfg y)) (!decide (hasInv cfg n))
              (inventory_track cfg now m y n qm).1).1
              (fun hf => hwbp.1.mpr hf)
              (fun hf => hwbp.2.1.mpr hf)
              (fun ht hbn => by
                have h6 := hwbp.1.mp hbn
                rw [ht] at h6
                exact absurd h6 (by decide))
              (fun ht han => by
                have h6 := hwbp.2.1.mp han
                rw [ht] at h6
                exact absurd h6 (by decide))
              (fun hg hs => hwbp.2.2 hg hs)]
            try dsimp only
            rw [exit_gate, if_neg (fun h => hcd (by rw [← hQcd]; exact h.2))]
            simp
        · have ht1 : inventory_track cfg now m y n qm = stale_exit_cleanup qm := by
            rw [inventory_track, if_neg (fun h => hinv h.1), if_pos hinv]
          have hsf := stale_exit_cleanup_fields qm
          have tyes : (inventory_track cfg now m y n qm).1.yes_exit_order_id = none := by
            rw [ht1]
            exact hsf.1
          have tno : (inventory_track cfg now m y n qm).1.no_exit_order_id = none := by
            rw [ht1]
            exact hsf.2.1
          have tsince : (inventory_track cfg now m y n qm).1.inventory_since = none := by
            rw [ht1]
            exact hsf.2.2.1
          have hQyes : (quote_phase cfg v1 m (!decide (hasInv cfg y)) (!decide (hasInv cfg n))
              (inventory_track cfg now m y n qm).1).1.yes_exit_order_id = none := by
            rw [hqf.2.2.2.1]
            exact tyes
          have hQno : (quote_phase cfg v1 m (!decide (hasInv cfg y)) (!decide (hasInv cfg n))
              (inventory_track cfg now m y n qm).1).1.no_exit_order_id = none := by
            rw [hqf.2.2.2.2.1]
            exact tno
          have hg1 : exit_gate cfg v1 now (quote_phase cfg v1 m (!decide (hasInv cfg y)) (!decide (hasInv cfg n))
              (inventory_track cfg now m y n qm).1).1 y n m = ((quote_phase cfg v1 m (!decide (hasInv cfg y)) (!decide (hasInv cfg n))
              (inventory_track cfg now m y n qm).1).1, []) := by
            rw [exit_gate, if_neg (fun h => hinv h.1)]
          rw [hg1]
          try dsimp only
          simp only [process_market_cycle]
          rw [if_neg (fun h => h.2.2.elim (fun h5 => h5 hQyes) (fun h5 => h5 hQno)),
            if_neg hpark]
          rw [show inventory_track cfg now m y n (quote_phase cfg v1 m (!decide (hasInv cfg y)) (!decide (hasInv cfg n))
              (inventory_track cfg now m y n qm).1).1 =
              ({ (quote_phase cfg v1 m (!decide (hasInv cfg y)) (!decide (hasInv cfg n))
              (inventory_track cfg now m y n qm).1).1 with
                  inventory_since := none
                  entry_mid := 0
                  exit_cooldown_until := 0 }, []) from by
            rw [inventory_track, if_neg (fun h => hinv h.1), if_pos hinv]
            simp only [stale_exit_cleanup]
            rw [hQyes, hQno,
              if_pos (show someIds [(none : Option String), none] = [] from rfl)]]
          try dsimp only
          rw [quote_phase_quiet cfg v2 m (!decide (hasInv cfg y))
            (!decide (hasInv cfg n))
            { (quote_phase cfg v1 m (!decide (hasInv cfg y)) (!decide (hasInv cfg n))
              (inventory_track cfg now m y n qm).1).1 with
                inventory_since := none
                entry_mid := 0
                exit_cooldown_until := 0 }
            (fun hf => hwbp.1.mpr hf)
            (fun hf => hwbp.2.1.mpr hf)
            (fun ht hbn => by
              have h6 := hwbp.1.mp hbn
              rw [ht] at h6
              exact absurd h6 (by decide))
            (fun ht han => by
              have h6 := hwbp.2.1.mp han
              rw [ht] at h6
              exact absurd h6 (by decide))
            (fun hg hs => hwbp.2.2 hg hs)]
          try dsimp only
          rw [exit_gate, if_neg (fun h => hinv h.1)]
          simp

/-- C7 (witness): on a fresh market with YES-side inventory, a fully
successful first cycle is followed by a silent second cycle. -/
theorem cycle_idempotent_witness :
    VenueOk (okVenue "b" "a" "x" "z") ∧
    (0:ℚ) < freshQm.market.tick_size ∧
    (0:ℚ) < defaultConfig.INVENTORY_MIN_SHARES ∧
    (process_market_cycle defaultConfig (okVenue "b2" "a2" "x2" "z2") 1000
      (process_market_cycle defaultConfig (okVenue "b" "a" "x" "z") 1000 freshQm
        (some 5) none (some (1/2))).1 (some 5) none (some (1/2))).2 = [] :=
  ⟨okVenue_ok "b" "a" "x" "z",
   by norm_num [freshQm, mkMarket],
   by norm_num [defaultConfig],
   cycle_idempotent defaultConfig (okVenue "b" "a" "x" "z")
     (okVenue "b2" "a2" "x2" "z2") 1000 freshQm (some 5) none (some (1/2))
     (okVenue_ok "b" "a" "x" "z")
     (by norm_num [freshQm, mkMarket])
     (by norm_num [defaultConfig])
     (by norm_num [defaultConfig])
     (fun h => h.2)
     (fun h => h.elim)⟩

/-- The two side tags are distinct strings. -/
theorem no_ne_yes : ¬ ("NO" : String) = "YES" := by decide

/-- Collecting two present ids. -/
theorem someIds_pair_some (a b : String) : someIds [some a, some b] = [a, b] := rfl

/-- C7 scenario: state after inventory stamping at `now = 1000`,
midpoint 1/2. -/
def c7qa : QuotedMarket :=
  { freshQm with inventory_since := some 1000, entry_mid := 1/2 }

/-- C7 scenario: state after the first cycle placed both exits; the shared
`exit_price_placed` holds the NO exit's price. -/
def c7q1 : QuotedMarket :=
  { c7qa with
      yes_exit_order_id := some "x"
      no_exit_order_id := some "z"
      exit_price_placed := 99/100 }

/-- C7 scenario: state after the second cycle refreshed both exits. -/
def c7q2 : QuotedMarket :=
  { c7qa with
      yes_exit_order_id := some "x2"
      no_exit_order_id := some "z2"
      exit_price_placed := 99/100 }

/-- C7 (counterexample): with inventory on BOTH sides, unchanged balances
(5/5), unchanged midpoint (1/2) and the same clock, a fully successful
first cycle places both exits (YES at 0.03, NO at 0.99, shared
`exit_price_placed` = 0.99), and the second cycle — despite zero drift —
cancels and re-places both exits, because the YES-side refresh target
(0.03) is compared against the shared placed price (0.99). -/
theorem cycle_idempotent_cex :
    process_market_cycle defaultConfig (okVenue "b" "a" "x" "z") 1000 freshQm
      (some 5) (some 5) (some (1/2)) =
      (c7q1, [Action.place "Y" "SELL" (3/100) 5,
              Action.place "N" "SELL" (99/100) 5]) ∧
    (process_market_cycle defaultConfig (okVenue "b2" "a2" "x2" "z2") 1000 c7q1
      (some 5) (some 5) (some (1/2))).2 =
      [Action.cancel ["x", "z"], Action.place "Y" "SELL" (3/100) 5,
       Action.place "N" "SELL" (99/100) 5] ∧
    ([Action.cancel ["x", "z"], Action.place "Y" "SELL" (3/100) 5,
      Action.place "N" "SELL" (99/100) 5] : List Action) ≠ [] := by
  have hinv5 : hasInv defaultConfig (some (5:ℚ)) := by
    norm_num [hasInv, defaultConfig]
  have hb5 : defaultConfig.INVENTORY_MIN_SHARES ≤ (5:ℚ) := by
    norm_num [defaultConfig]
  have hwb : (!decide (hasInv defaultConfig (some (5:ℚ)))) = false := by
    simp [hinv5]
  have hpy : compute_exit_price defaultConfig c7qa.market (1/2)
      (c7qa.inventory_since.getD 0) c7qa.entry_mid c7qa.entry_bid_price
      "YES" 1000 = 3/100 := by
    norm_num [compute_exit_price, round_to_tick, round4, roundHalfEven, clamp,
      c7qa, freshQm, mkMarket, defaultConfig, min_def]
  have hman1 : manage_exits defaultConfig (okVenue "b" "a" "x" "z") 1000 c7qa
      5 5 (1/2) =
      (c7q1, [Action.place "Y" "SELL" (3/100) 5,
              Action.place "N" "SELL" (99/100) 5]) := by
    simp only [manage_exits]
    rw [exit_refresh_site_absent defaultConfig (okVenue "b" "a" "x" "z") 1000
      c7qa (1/2) rfl rfl]
    try dsimp only
    rw [place_yes_exit_site, if_pos ⟨hb5, (rfl : c7qa.yes_exit_order_id = none)⟩]
    rw [show (okVenue "b" "a" "x" "z").placeYesExit = PlaceResult.ok (some "x")
      from rfl]
    try dsimp only
    rw [hpy]
    rw [place_no_exit_site, if_pos ⟨hb5, rfl⟩]
    rw [show (okVenue "b" "a" "x" "z").placeNoExit = PlaceResult.ok (some "z")
      from rfl]
    try dsimp only
    simp only [Prod.mk.injEq]
    constructor
    · norm_num [c7q1, c7qa, freshQm, mkMarket, defaultConfig, compute_exit_price,
        round_to_tick, round4, roundHalfEven, clamp, min_def, String.reduceEq, no_ne_yes]
    · norm_num [c7qa, freshQm, mkMarket, defaultConfig, compute_exit_price,
        round_to_tick, round4, roundHalfEven, clamp, min_def, String.reduceEq, no_ne_yes]
  have hc1 : process_market_cycle defaultConfig (okVenue "b" "a" "x" "z") 1000
      freshQm (some 5) (some 5) (some (1/2)) =
      (c7q1, [Action.place "Y" "SELL" (3/100) 5,
              Action.place "N" "SELL" (99/100) 5]) := by
    simp only [process_market_cycle]
    rw [if_neg (fun h => h.1 (Or.inl hinv5)), if_neg (by norm_num [defaultConfig])]
    rw [show inventory_track defaultConfig 1000 (1/2) (some 5) (some 5) freshQm =
        (c7qa, []) from by
      rw [inventory_track, if_pos ⟨Or.inl hinv5, rfl⟩]
      rfl]
    rw [hwb]
    try dsimp only
    rw [quote_phase_quiet defaultConfig (okVenue "b" "a" "x" "z") (1/2) false
      false c7qa (fun _ => rfl) (fun _ => rfl)
      (fun h => absurd h (by decide)) (fun h => absurd h (by decide))
      (fun hg => absurd hg (by simp))]
    try dsimp only
    rw [exit_gate, if_pos ⟨Or.inl hinv5, by norm_num [c7qa, freshQm]⟩,
      if_pos hinv5]
    rw [show (Option.getD (some (5:ℚ)) 0) = 5 from rfl]
    rw [hman1]
    simp
  have hfire : c7q1.market.tick_size ≤
      |exit_refresh_target defaultConfig 1000 c7q1 (1/2) -
        c7q1.exit_price_placed| := by
    have ht : exit_refresh_target defaultConfig 1000 c7q1 (1/2) = 3/100 := by
      norm_num [exit_refresh_target, compute_exit_price, round_to_tick, round4,
        roundHalfEven, clamp, min_def, c7q1, c7qa, freshQm, mkMarket,
        defaultConfig, String.reduceEq, no_ne_yes, Option.some_ne_none]
    rw [ht, show c7q1.exit_price_placed = 99/100 from rfl,
      show c7q1.market.tick_size = 1/100 from rfl,
      show (3:ℚ)/100 - 99/100 = -(24/25) from by norm_num, abs_neg,
      abs_of_nonneg (by norm_num : (0:ℚ) ≤ 24/25)]
    norm_num
  have hman2 : manage_exits defaultConfig (okVenue "b2" "a2" "x2" "z2") 1000
      c7q1 5 5 (1/2) =
      (c7q2, [Action.cancel ["x", "z"], Action.place "Y" "SELL" (3/100) 5,
              Action.place "N" "SELL" (99/100) 5]) := by
    simp only [manage_exits]
    rw [exit_refresh_site]
    rw [if_pos (Or.inl (by simp [c7q1, c7qa, freshQm] :
      c7q1.yes_exit_order_id ≠ none))]
    rw [if_pos hfire]
    rw [show (okVenue "b2" "a2" "x2" "z2").cancelExitsRefresh = true from rfl]
    rw [if_pos rfl]
    try dsimp only
    rw [place_yes_exit_site, if_pos ⟨hb5, rfl⟩]
    rw [show (okVenue "b2" "a2" "x2" "z2").placeYesExit =
      PlaceResult.ok (some "x2") from rfl]
    try dsimp only
    rw [place_no_exit_site, if_pos ⟨hb5, rfl⟩]
    rw [show (okVenue "b2" "a2" "x2" "z2").placeNoExit =
      PlaceResult.ok (some "z2") from rfl]
    try dsimp only
    simp only [Prod.mk.injEq]
    constructor
    · norm_num [c7q2, c7q1, c7qa, freshQm, mkMarket, defaultConfig,
        compute_exit_price, round_to_tick, round4, roundHalfEven, clamp, min_def,
        String.reduceEq, no_ne_yes]
    · norm_num [c7q1, c7qa, freshQm, mkMarket, defaultConfig, compute_exit_price,
        round_to_tick, round4, roundHalfEven, clamp, min_def, someIds_pair_some,
        String.reduceEq, no_ne_yes]
  have hc2 : process_market_cycle defaultConfig (okVenue "b2" "a2" "x2" "z2")
      1000 c7q1 (some 5) (some 5) (some (1/2)) =
      (c7q2, [Action.cancel ["x", "z"], Action.place "Y" "SELL" (3/100) 5,
              Action.place "N" "SELL" (99/100) 5]) := by
    simp only [process_market_cycle]
    rw [if_neg (fun h => h.1 (Or.inl hinv5)), if_neg (by norm_num [defaultConfig])]
    rw [show inventory_track defaultConfig 1000 (1/2) (some 5) (some 5) c7q1 =
        (c7q1, []) from by
      rw [inventory_track,
        if_neg (fun h => by simpa [c7q1, c7qa, freshQm] using h.2),
        if_neg (fun h => h (Or.inl hinv5))]]
    rw [hwb]
    try dsimp only
    rw [quote_phase_quiet defaultConfig (okVenue "b2" "a2" "x2" "z2") (1/2) false
      false c7q1 (fun _ => rfl) (fun _ => rfl)
      (fun h => absurd h (by decide)) (fun h => absurd h (by decide))
      (fun hg => absurd hg (by simp))]
    try dsimp only
    rw [exit_gate, if_pos ⟨Or.inl hinv5, by norm_num [c7q1, c7qa, freshQm]⟩,
      if_pos hinv5]
    rw [show (Option.getD (some (5:ℚ)) 0) = 5 from rfl]
    rw [hman2]
    simp
  exact ⟨hc1, by rw [hc2], by simp⟩

end MMBot
